import Mathlib

/-! Delta deal maker: ingestion, the Piece Commitment job and the stats views.

A shallow embedding of `api/deal.go` (`ValidateMeta`, `ValidatePieceCommitmentMeta`,
`ReplicateContent`, `handleImportDeal`, `handleEndToEndDeal`,
`handleMultipleImportDeals`), of `jobs/piece_commp_compute.go`
(`PieceCommpProcessor.Run`) and of the handlers of `api/open_stats.go`, together with
the properties of the deal-lifecycle specification that concern them.

Conventions of the embedding.
* Go `int`, `int64` values are `Int`; where the source computes with them the
  result is reduced with `wrap64` (two's complement, 64 bit).
* A Go `error` result is `Except String Unit` (or an `Option String` field that
  holds the message of the returned error).
* Row time stamps (`CreatedAt`, `UpdatedAt`) are not part of the rows.
-/

namespace Delta

/-! ## Request types (package `delta/api/models`) -/

/-- Modelled from the spec: the `PieceCommitmentRequest` type declaration of package
`delta/api/models` is not among the sources; the fields are the ones `api/deal.go`
reads (`piece_commitment { piece, padded_piece_size, unpadded_piece_size }`). -/
structure PieceCommitmentRequest where
  Piece : String := ""
  PaddedPieceSize : Int := 0
  UnPaddedPieceSize : Int := 0
deriving DecidableEq, Repr

/-- Modelled from the spec: the `WalletRequest` type declaration of package
`delta/api/models` is not among the sources; the fields are the ones `api/deal.go`
reads and writes (`wallet { id | uuid | address }`, and the key material). -/
structure WalletRequest where
  Id : Int := 0
  Address : String := ""
  Uuid : String := ""
  KeyType : String := ""
  PrivateKey : String := ""
deriving DecidableEq, Repr

/-- Modelled from the spec: the `TransferParameters` type declaration of package
`delta/api/models` is not among the sources (`transfer_parameters { url }`). -/
structure TransferParameters where
  URL : String := ""
deriving DecidableEq, Repr

/-- Modelled from the spec: the `DealRequest` type declaration of package
`delta/api/models` is not among the sources; the fields are the recognised options of
the spec, under the names `api/deal.go` uses. `Size`, `StartEpochInDays` and
`DurationInDays` are `int64` (they are assigned to, and mixed in arithmetic with,
`int64` row fields), `Replication` is `int` (it bounds an `int` loop counter). -/
structure DealRequest where
  Cid : String := ""
  Miner : String := ""
  DurationInDays : Int := 0
  Wallet : WalletRequest := {}
  PieceCommitment : PieceCommitmentRequest := {}
  TransferParameters : TransferParameters := {}
  ConnectionMode : String := ""
  Size : Int := 0
  StartEpoch : Int := 0
  StartEpochInDays : Int := 0
  Replication : Int := 0
  RemoveUnsealedCopy : Bool := false
  SkipIPNIAnnounce : Bool := false
  AutoRetry : Bool := false
  Label : String := ""
  DealVerifyState : String := ""
  UnverifiedDealMaxPrice : String := ""
deriving DecidableEq, Repr

/-! ## Constants of package `delta/utils` -/

/-- Modelled from the spec: `utils.DEAL_VERIFIED` (`deal_verify_state ∈ {verified, unverified}`). -/
abbrev DEAL_VERIFIED : String := "verified"
/-- Modelled from the spec: `utils.DEAL_UNVERIFIED`. -/
abbrev DEAL_UNVERIFIED : String := "unverified"
/-- Modelled from the spec: `utils.CONNECTION_MODE_E2E` (`connection_mode ∈ {e2e, import}`). -/
abbrev CONNECTION_MODE_E2E : String := "e2e"
/-- Modelled from the spec: `utils.CONNECTION_MODE_IMPORT`. -/
abbrev CONNECTION_MODE_IMPORT : String := "import"
/-- Modelled from the spec: `utils.COMMP_STATUS_OPEN` (PieceCommitment status `open`). -/
abbrev COMMP_STATUS_OPEN : String := "open"
/-- Modelled from the spec: `utils.COMMP_STATUS_COMITTED` (PieceCommitment status `committed`). -/
abbrev COMMP_STATUS_COMITTED : String := "committed"
/-- Modelled from the spec: `utils.CONTENT_PINNED` (Content status `pinned`). -/
abbrev CONTENT_PINNED : String := "pinned"
/-- Modelled from the spec: `utils.CONTENT_DEAL_MAKING_PROPOSAL` (Content status
`deal-making-proposal`). -/
abbrev CONTENT_DEAL_MAKING_PROPOSAL : String := "deal-making-proposal"
/-- Modelled from the spec: `utils.DEAL_STATUS_TRANSFER_STARTED` (Content status
`transfer-started`). -/
abbrev DEAL_STATUS_TRANSFER_STARTED : String := "transfer-started"
/-- Modelled from the spec: `utils.CONTENT_DEAL_PROPOSAL_SENT` (Content status
`deal-proposal-sent`). -/
abbrev CONTENT_DEAL_PROPOSAL_SENT : String := "deal-proposal-sent"
/-- Modelled from the spec: `utils.DEAL_STATUS_TRANSFER_FINISHED` (Content status
`transfer-finished`). -/
abbrev DEAL_STATUS_TRANSFER_FINISHED : String := "transfer-finished"
/-- Modelled from the spec: `utils.EPOCH_PER_DAY` (`EPOCH_PER_DAY = 2880`). -/
abbrev EPOCH_PER_DAY : Int := 2880

/-- Two's complement reduction of an integer to the range of a Go `int64`. -/
def wrap64 (x : Int) : Int := (x + 2 ^ 63) % 2 ^ 64 - 2 ^ 63

/-! ## `strconv.ParseFloat` (Go standard library)

`ValidateMeta` only looks at whether `strconv.ParseFloat(s, 64)` returns an error.
`ParseFloat` below decides that, following the documented grammar of the library:
the special values, decimal and hexadecimal mantissa, digit-separating underscores,
the exponent, and the range error for a value that rounds to an infinity. -/

/-- A decimal digit byte. -/
def isDigit (c : Char) : Bool := decide ('0' ≤ c ∧ c ≤ '9')

/-- A hexadecimal letter byte, either case. -/
def isHexLetter (c : Char) : Bool :=
  decide (('a' ≤ c ∧ c ≤ 'f') ∨ ('A' ≤ c ∧ c ≤ 'F'))

/-- ASCII lower-casing of the upper-case letters, as `commonPrefixLenIgnoreCase` does. -/
def lowerAscii (c : Char) : Char :=
  if 'A' ≤ c ∧ c ≤ 'Z' then Char.ofNat (c.toNat + 32) else c

/-- Go `commonPrefixLenIgnoreCase s prefix`: the length of the longest common prefix,
ignoring the case of `s`; the second argument is lower case. -/
def commonPrefixLenIgnoreCase : List Char → List Char → Nat
  | c :: s, p :: ps => if lowerAscii c = p then commonPrefixLenIgnoreCase s ps + 1 else 0
  | _, _ => 0

/-- Go `special s`: the number of bytes consumed when `s` starts with a (signed) infinity
or a NaN, `none` when it does not. -/
def special (s : List Char) : Option Nat :=
  let inf (nsign : Nat) (t : List Char) : Option Nat :=
    let n := commonPrefixLenIgnoreCase t "infinity".toList
    let n := if 3 < n ∧ n < 8 then 3 else n
    if n = 3 ∨ n = 8 then some (nsign + n) else none
  match s with
  | [] => none
  | c :: t =>
    if c = '+' ∨ c = '-' then inf 1 t
    else if c = 'i' ∨ c = 'I' then inf 0 s
    else if c = 'n' ∨ c = 'N' then
      if commonPrefixLenIgnoreCase s "nan".toList = 3 then some 3 else none
    else none

/-- The value of a digit byte in base 16 (decimal digits included). -/
def digitVal (c : Char) : Nat :=
  if isDigit c then c.toNat - '0'.toNat
  else (lowerAscii c).toNat - 'a'.toNat + 10

/-- State of the mantissa loop of `readFloat`: the digits read so far as a number,
the count of digits after the point, and the flags of the loop. -/
structure MantState where
  mant : Nat := 0
  frac : Nat := 0
  sawdot : Bool := false
  sawdigits : Bool := false
deriving Repr

/-- The mantissa loop of `readFloat`: consumes digits, underscores and at most one
point; returns the state and the unread rest. -/
def readMantissa (hex : Bool) : List Char → MantState → MantState × List Char
  | [], st => (st, [])
  | c :: t, st =>
    if c = '_' then readMantissa hex t st
    else if c = '.' then
      if st.sawdot then (st, c :: t)
      else readMantissa hex t { st with sawdot := true }
    else if isDigit c ∨ (hex ∧ isHexLetter c) then
      readMantissa hex t
        { st with
          mant := st.mant * (if hex then 16 else 10) + digitVal c
          frac := if st.sawdot then st.frac + 1 else st.frac
          sawdigits := true }
    else (st, c :: t)

/-- The exponent digits loop of `readFloat`: digits and underscores, the exponent
saturating once it has reached 10000. -/
def readExpDigits : List Char → Nat → Nat × List Char
  | [], e => (e, [])
  | c :: t, e =>
    if c = '_' then readExpDigits t e
    else if isDigit c then readExpDigits t (if e < 10000 then e * 10 + digitVal c else e)
    else (e, c :: t)

/-- The loop of `underscoreOK`; `saw` is the last byte class seen
(`'^'` beginning, `'0'` digit or base prefix, `'_'` underscore, `'!'` other). -/
def underscoreLoop (hex : Bool) : List Char → Char → Bool
  | [], saw => saw ≠ '_'
  | c :: t, saw =>
    if isDigit c ∨ (hex ∧ isHexLetter c) then underscoreLoop hex t '0'
    else if c = '_' then
      if saw ≠ '0' then false else underscoreLoop hex t '_'
    else if saw = '_' then false
    else underscoreLoop hex t '!'

/-- Go `underscoreOK s`: underscores appear only between digits, or between a base prefix
and a digit. -/
def underscoreOK (s : List Char) : Bool :=
  let s := match s with
    | c :: t => if c = '-' ∨ c = '+' then t else s
    | [] => s
  match s with
  | c0 :: c1 :: t =>
    if c0 = '0' ∧ (c1 = 'b' ∨ c1 = 'B' ∨ c1 = 'o' ∨ c1 = 'O' ∨ c1 = 'x' ∨ c1 = 'X') then
      underscoreLoop (c1 = 'x' ∨ c1 = 'X') t '0'
    else underscoreLoop false s '^'
  | _ => underscoreLoop false s '^'

/-- The least magnitude that rounds to an infinity as a `float64`:
`2^1024 - 2^970`, half way between the largest finite value and `2^1024`. -/
def float64Overflow : Nat :=
  179769313486231580793728971405303415079934132710037826936173778980444968292764750946649017977587207096330286416692887910946555547851940402630657488671505820681908902000708383676273854845817711531764475730270069855571366959622842914819860834936475292719074168444365510704342711559699508093042880177904174497792

/-- Whether `mant * base ^ exp` rounds to an infinity as a `float64`. -/
def overflows (mant : Nat) (base : Nat) (exp : Int) : Bool :=
  if 0 ≤ exp then decide (float64Overflow ≤ mant * base ^ exp.toNat)
  else decide (float64Overflow * base ^ (-exp).toNat ≤ mant)

/-- Go `readFloat` followed by the conversion: `true` when the whole of `s` is a decimal
or hexadecimal floating-point literal whose value does not overflow. -/
def readFloatOk (s : List Char) : Bool :=
  let body := match s with
    | c :: t => if c = '+' ∨ c = '-' then t else s
    | [] => s
  match s with
  | [] => false
  | _ :: _ =>
    let hex : Bool := match body with
      | c0 :: c1 :: _ :: _ => decide (c0 = '0' ∧ (c1 = 'x' ∨ c1 = 'X'))
      | _ => false
    let digits := if hex then body.drop 2 else body
    let (st, rest) := readMantissa hex digits {}
    if ¬ st.sawdigits then false
    else
      let isExp : Bool := match rest with
        | c :: _ => if hex then decide (c = 'p' ∨ c = 'P') else decide (c = 'e' ∨ c = 'E')
        | [] => false
      if isExp then
        let r1 := rest.drop 1
        match r1 with
        | [] => false
        | c :: t =>
          let neg : Bool := decide (c = '-')
          let r2 := if c = '+' ∨ c = '-' then t else r1
          match r2 with
          | [] => false
          | d :: _ =>
            if ¬ isDigit d then false
            else
              let (e, rest2) := readExpDigits r2 0
              let exp : Int := if neg then -(e : Int) else (e : Int)
              let scale : Int := if hex then exp - 4 * st.frac else exp - st.frac
              -- the whole input must have been consumed
              if rest2 ≠ [] then false
              else if ¬ underscoreOK s then false
              else ¬ overflows st.mant (if hex then 2 else 10) scale
      else if hex then false
      else if rest ≠ [] then false
      else if ¬ underscoreOK s then false
      else ¬ overflows st.mant 10 (-(st.frac : Int))

/-- Go `strconv.ParseFloat(s, 64)` returns no error. -/
def ParseFloat (s : String) : Bool :=
  match special s.toList with
  | some n => decide (n = s.toList.length)
  | none => readFloatOk s.toList

/-! ## Rows of the persistence store (package `delta-db/db_models`)

The row types are declared outside the sources; the fields are the ones `api/deal.go`
assigns and reads. Statements on the store are taken to succeed: what a failed
statement does to the rest of a transaction depends on the engine. -/

/-- A `piece_commitments` row. -/
structure PieceCommitment where
  ID : Int := 0
  Cid : String := ""
  Piece : String := ""
  Size : Int := 0
  UnPaddedPieceSize : Int := 0
  PaddedPieceSize : Int := 0
  Status : String := ""
deriving DecidableEq, Repr

/-- A `contents` row. -/
structure Content where
  ID : Int := 0
  Name : String := ""
  Size : Int := 0
  Cid : String := ""
  RequestingApiKey : String := ""
  PieceCommitmentId : Int := 0
  AutoRetry : Bool := false
  Status : String := ""
  ConnectionMode : String := ""
deriving DecidableEq, Repr

/-- A `content_miners` row. -/
structure ContentMiner where
  ID : Int := 0
  Miner : String := ""
  Content : Int := 0
deriving DecidableEq, Repr

/-- A `content_wallets` row. -/
structure ContentWallet where
  ID : Int := 0
  WalletId : Int := 0
  Content : Int := 0
deriving DecidableEq, Repr

/-- A `content_deal_proposal_parameters` row. -/
structure ContentDealProposalParameters where
  ID : Int := 0
  Content : Int := 0
  Label : String := ""
  UnverifiedDealMaxPrice : String := ""
  VerifiedDeal : Bool := false
  StartEpoch : Int := 0
  EndEpoch : Int := 0
  Duration : Int := 0
  RemoveUnsealedCopy : Bool := false
  SkipIPNIAnnounce : Bool := false
  TransferParams : String := ""
deriving DecidableEq, Repr

/-- A `wallets` row. -/
structure Wallet where
  ID : Int := 0
  Uuid : String := ""
  Addr : String := ""
  Owner : String := ""
  KeyType : String := ""
  PrivateKey : String := ""
deriving DecidableEq, Repr

/-- Modelled from the spec: an `instance_metas` row (`model.InstanceMeta`, declared outside
the sources), with the one field the ingress middleware reads. -/
structure InstanceMeta where
  ID : Int := 0
  DisableRequest : Bool := false
deriving DecidableEq, Repr

/-- A `batch_import_contents` row: the content `ContentID` belongs to the batch
`BatchImportID`. -/
structure BatchImportContent where
  ID : Int := 0
  BatchImportID : Int := 0
  ContentID : Int := 0
deriving DecidableEq, Repr

/-- Modelled from the spec: a `content_deals` row (the struct `model.ContentDeal` is not
among the sources). The columns are those the queries of `api/open_stats.go` name:
the content, the provider-assigned deal UUID, the on-chain deal id and the miner. -/
structure ContentDeal where
  ID : Int := 0
  Content : Int := 0
  DealUUID : String := ""
  DealID : Int := 0
  Miner : String := ""
deriving DecidableEq, Repr

/-- Modelled from the spec: a `content_deal_proposals` row (the struct
`model.ContentDealProposal` is not among the sources): the content and the copy of
the signed proposal. -/
structure ContentDealProposal where
  ID : Int := 0
  Content : Int := 0
  Signed : String := ""
deriving DecidableEq, Repr

/-- The tables of the persistence store that the handlers and the job touch; a table is
the list of its rows in insertion order. -/
structure DB where
  piece_commitments : List PieceCommitment := []
  contents : List Content := []
  content_miners : List ContentMiner := []
  content_wallets : List ContentWallet := []
  content_deal_proposal_parameters : List ContentDealProposalParameters := []
  wallets : List Wallet := []
  instance_metas : List InstanceMeta := []
  batch_import_contents : List BatchImportContent := []
  content_deals : List ContentDeal := []
  content_deal_proposals : List ContentDealProposal := []
deriving DecidableEq, Repr

/-- The primary key the store gives to the next row of a table: one more than the
largest key in use (keys start at 1). -/
def nextID (ids : List Int) : Int := ids.foldl max 0 + 1

/-- Go `tx.Create(&pieceCommp)`: inserts the row under a fresh key and returns the row
with its `ID` set. Inserts are taken to succeed. -/
def DB.CreatePieceCommitment (tx : DB) (row : PieceCommitment) : DB × PieceCommitment :=
  let row := { row with ID := nextID (tx.piece_commitments.map PieceCommitment.ID) }
  ({ tx with piece_commitments := tx.piece_commitments ++ [row] }, row)

/-- Go `tx.Create(&content)`. -/
def DB.CreateContent (tx : DB) (row : Content) : DB × Content :=
  let row := { row with ID := nextID (tx.contents.map Content.ID) }
  ({ tx with contents := tx.contents ++ [row] }, row)

/-- Go `tx.Create(&contentMinerAssignment)`. -/
def DB.CreateContentMiner (tx : DB) (row : ContentMiner) : DB × ContentMiner :=
  let row := { row with ID := nextID (tx.content_miners.map ContentMiner.ID) }
  ({ tx with content_miners := tx.content_miners ++ [row] }, row)

/-- Go `tx.Create(&contentWalletAssignment)`. -/
def DB.CreateContentWallet (tx : DB) (row : ContentWallet) : DB × ContentWallet :=
  let row := { row with ID := nextID (tx.content_wallets.map ContentWallet.ID) }
  ({ tx with content_wallets := tx.content_wallets ++ [row] }, row)

/-- Go `tx.Create(&dealProposalParam)`. -/
def DB.CreateContentDealProposalParameters (tx : DB) (row : ContentDealProposalParameters) :
    DB × ContentDealProposalParameters :=
  let row :=
    { row with ID := nextID (tx.content_deal_proposal_parameters.map ContentDealProposalParameters.ID) }
  ({ tx with content_deal_proposal_parameters := tx.content_deal_proposal_parameters ++ [row] }, row)

/-- Go `tx.Create(&batchContent)`. -/
def DB.CreateBatchImportContent (tx : DB) (row : BatchImportContent) :
    DB × BatchImportContent :=
  let row := { row with ID := nextID (tx.batch_import_contents.map BatchImportContent.ID) }
  ({ tx with batch_import_contents := tx.batch_import_contents ++ [row] }, row)

/-- Go `tx.Where(cond).First(&wallet)`: the matching row with the least primary key; the
destination keeps its zero value when no row matches. -/
def DB.FirstWallet (tx : DB) (cond : Wallet → Bool) : Wallet :=
  match tx.wallets.filter cond with
  | [] => {}
  | w :: ws => ws.foldl (fun best x => if x.ID < best.ID then x else best) w

/-- Go `node.DB.First(&meta)`: the row of `instance_metas` with the least primary key; the
destination keeps its zero value when the table is empty. -/
def DB.FirstInstanceMeta (tx : DB) : InstanceMeta :=
  match tx.instance_metas with
  | [] => {}
  | m :: ms => ms.foldl (fun best x => if x.ID < best.ID then x else best) m

/-! ## The dispatcher and the node -/

/-- The processors the handlers hand to a dispatcher (`jobs.NewPieceCommpProcessor`,
`jobs.NewStorageDealMakerProcessor`, `jobs.NewDealStatusCheck`); `nil` is the nil
interface value of a `core.IProcessor` variable that was never assigned. -/
inductive IProcessor where
  | PieceCommpProcessor (content : Content)
  | StorageDealMakerProcessor (content : Content) (pieceCommp : PieceCommitment)
  | nil
  | DealStatusCheck (content : Content)
deriving DecidableEq, Repr

/-- Modelled from the spec: `core.Dispatcher` is not among the sources. The model keeps
what the handlers ask of it: the jobs enqueued, in order, and the worker counts
requested (`AddJob(job)`: enqueue without starting; `AddJobAndDispatch(job, n)`:
enqueue and ensure `n` workers; `Start(n)`: start `n` workers). -/
structure Dispatcher where
  jobs : List IProcessor := []
  starts : List Int := []
deriving DecidableEq, Repr

/-- Go `Dispatcher.AddJob`. -/
def Dispatcher.AddJob (d : Dispatcher) (job : IProcessor) : Dispatcher :=
  { d with jobs := d.jobs ++ [job] }

/-- Go `Dispatcher.Start`. -/
def Dispatcher.Start (d : Dispatcher) (n : Int) : Dispatcher :=
  { d with starts := d.starts ++ [n] }

/-- Go `Dispatcher.AddJobAndDispatch`. -/
def Dispatcher.AddJobAndDispatch (d : Dispatcher) (job : IProcessor) (n : Int) : Dispatcher :=
  (d.AddJob job).Start n

/-- The part of `core.DeltaNode` that validation reads. -/
structure Config where
  /-- Go `node.Config.Common.MaxReplicationFactor`; the field is not declared in the
  `config/config.go` of the sources, so its value is a parameter. -/
  MaxReplicationFactor : Int

/-- The uploaded file of an end-to-end request (`multipart.FileHeader`). -/
structure FileHeader where
  Filename : String := ""
  Size : Int := 0
deriving DecidableEq, Repr

/-- Go `core.DeltaNode` as the handlers see it: the mutable state (store, dispatcher, the
pins of the content repository, the number of miner assignment calls made) and the
collaborators and constants that are not among the sources, as parameters. -/
structure DeltaNode where
  Config : Config
  DB : DB := {}
  Dispatcher : Dispatcher := {}
  /-- Files pinned so far through `node.Node.AddPinFile`. -/
  Pinned : List FileHeader := []
  /-- Number of `GetSPWithGivenBytes` calls made so far. -/
  MinerAssignmentCalls : Nat := 0
  /-- Go `core.NewMinerAssignmentService(node).GetSPWithGivenBytes(size)`: the provider
  address or the error, for the call with the given index. -/
  GetSPWithGivenBytes : Nat → Int → Except String String
  /-- Go `file.Open()` succeeds. -/
  FileOpens : FileHeader → Bool
  /-- Go `node.Node.AddPinFile`: the CID of the pinned node, or `none` on error. -/
  AddPinFile : FileHeader → Option String
  /-- Go `node.Node.Config.AnnounceAddrs`. -/
  AnnounceAddrs : List String
  /-- Go `node.Node.Host.ID().String()`. -/
  HostID : String
  /-- Go `multiaddr.NewMultiaddr(s)` followed by `String()`; `none` on error. -/
  NewMultiaddr : String → Option String
  /-- Go `json.Marshal` of a `TransferParameters` value. -/
  MarshalTransferParameters : TransferParameters → String
  /-- Go `time.Now()`. -/
  Now : Int
  /-- Go `t.AddDate(0, 0, days)`. -/
  AddDate : Int → Int → Int
  /-- Go `utils.DateToHeight`. -/
  DateToHeight : Int → Int
  /-- Go `utils.DEFAULT_DURATION`. -/
  DEFAULT_DURATION : Int

/-! ## Validation -/

/-- Go `ValidatePieceCommitmentMeta` (api/deal.go). -/
def ValidatePieceCommitmentMeta (pieceCommitmentRequest : PieceCommitmentRequest) :
    Except String Unit :=
  if ({} : PieceCommitmentRequest) = pieceCommitmentRequest then
    .error "invalid piece_commitment request. piece_commitment is required"
  else .ok ()

/-- The default `ValidateMeta` writes into its copy of the request at lines 2224-2228:
the verify state becomes `unverified` or `verified`. -/
def withVerifyStateDefault (dealRequest : DealRequest) : DealRequest :=
  if ({} : DealRequest) ≠ dealRequest ∧ dealRequest.DealVerifyState = DEAL_UNVERIFIED then
    { dealRequest with DealVerifyState := DEAL_UNVERIFIED }
  else { dealRequest with DealVerifyState := DEAL_VERIFIED }

/-- The connection mode switch of `ValidateMeta` (lines 2230-2240): an empty mode
becomes `e2e` in the copy, any mode other than `e2e` and `import` is an error. -/
def withConnectionModeDefault (dealRequest : DealRequest) : Except String DealRequest :=
  if ({} : DealRequest) ≠ dealRequest then
    if dealRequest.ConnectionMode = "" then
      .ok { dealRequest with ConnectionMode := CONNECTION_MODE_E2E }
    else if dealRequest.ConnectionMode = CONNECTION_MODE_E2E then .ok dealRequest
    else if dealRequest.ConnectionMode = CONNECTION_MODE_IMPORT then .ok dealRequest
    else .error "connection mode can only be e2e or import"
  else .ok dealRequest

/-- The last checks of `ValidateMeta` (lines 2242-2264), on the copy with its defaults:
transfer parameters, piece commitment, size, wallet. -/
def validateReferences (dealRequest : DealRequest) : Except String Unit :=
  if dealRequest.ConnectionMode = CONNECTION_MODE_E2E ∧
      dealRequest.TransferParameters.URL ≠ "" then
    .error "transfer_parameters is not supported for e2e mode."
  -- piece commitment is required
  else if ({} : PieceCommitmentRequest) ≠ dealRequest.PieceCommitment ∧
      dealRequest.PieceCommitment.Piece = "" then
    .error "piece commitment is invalid, make sure you have the cid, piece_cid, size and padded_piece_size or unpadded_piece_size"
  else if (({} : PieceCommitmentRequest) ≠ dealRequest.PieceCommitment ∧
        dealRequest.PieceCommitment.Piece ≠ "") ∧
      (dealRequest.PieceCommitment.PaddedPieceSize = 0 ∧
        dealRequest.PieceCommitment.UnPaddedPieceSize = 0) ∧
      dealRequest.Size = 0 then
    .error "piece commitment is invalid, make sure you have the cid, piece_cid, size and padded_piece_size or unpadded_piece_size"
  -- size is required
  else if ({} : PieceCommitmentRequest) ≠ dealRequest.PieceCommitment ∧
      dealRequest.Size = 0 then
    .error "piece commitment is invalid, make sure you have the cid, piece_cid, size and padded_piece_size or unpadded_piece_size"
  else if ({} : WalletRequest) ≠ dealRequest.Wallet ∧ dealRequest.Wallet.Address = "" then
    .error "wallet address is required"
  else .ok ()

/-- Go `ValidateMeta` (api/deal.go 2161-2273). The request is passed by value, so the two
defaults the function writes (`withVerifyStateDefault`, `withConnectionModeDefault`)
are local to it. -/
def ValidateMeta (dealRequest : DealRequest) (config : Config) : Except String Unit :=
  if ({} : DealRequest) = dealRequest then
    .error "invalid deal request"
  else if ({} : DealRequest) ≠ dealRequest ∧ dealRequest.UnverifiedDealMaxPrice ≠ "" ∧
      dealRequest.DealVerifyState ≠ DEAL_UNVERIFIED then
    .error "unverified_deal_max_price is only valid for unverified deals, make sure to pass deal_verify_state as unverified"
  else if ({} : DealRequest) ≠ dealRequest ∧ dealRequest.DealVerifyState = DEAL_UNVERIFIED ∧
      dealRequest.UnverifiedDealMaxPrice = "" then
    .error "unverified_deal_max_price is required for unverified deals"
  -- check if dealRequest.UnverifiedDealMaxPrice is a valid number
  else if ({} : DealRequest) ≠ dealRequest ∧ dealRequest.UnverifiedDealMaxPrice ≠ "" ∧
      ParseFloat dealRequest.UnverifiedDealMaxPrice = false then
    .error "unverified_deal_max_price is not a valid number"
  else if ({} : DealRequest) ≠ dealRequest ∧ dealRequest.Replication > 0 ∧
      dealRequest.ConnectionMode = CONNECTION_MODE_IMPORT then
    .error "replication factor is not supported for import mode"
  else if ({} : DealRequest) ≠ dealRequest ∧ dealRequest.DurationInDays > 0 ∧
      dealRequest.StartEpochInDays = 0 then
    .error "start_epoch_in_days is required when duration_in_days is set"
  else if ({} : DealRequest) ≠ dealRequest ∧
      dealRequest.Replication > config.MaxReplicationFactor then
    .error ("replication factor can only be up to " ++ toString config.MaxReplicationFactor)
  else if ({} : DealRequest) ≠ dealRequest ∧ dealRequest.StartEpochInDays > 0 ∧
      dealRequest.DurationInDays = 0 then
    .error "duration_in_days is required when start_epoch_in_days is set"
  else if ({} : DealRequest) ≠ dealRequest ∧ dealRequest.StartEpochInDays > 14 then
    .error "start_epoch_in_days can only be 14 days or less"
  else if ({} : DealRequest) ≠ dealRequest ∧ dealRequest.DurationInDays > 540 then
    .error "duration_in_days can only be 540 days or less"
  else if dealRequest.StartEpochInDays > dealRequest.DurationInDays then
    .error "start_epoch_in_days cannot be greater than duration_in_days"
  else if ({} : DealRequest) ≠ dealRequest ∧ dealRequest.Replication > 6 then
    .error "replication count is more than allowed (6)"
  -- label length must be less than 100
  else if ({} : DealRequest) ≠ dealRequest ∧ dealRequest.Label.utf8ByteSize > 100 then
    .error "label length must be less than 100"
  else
    -- connection mode is required
    match withConnectionModeDefault (withVerifyStateDefault dealRequest) with
    | .error e => .error e
    | .ok dealRequest => validateReferences dealRequest

/-! ## Ingestion handlers -/

/-- A `DealResponse` without replicas: the shape of the entries of
`DealResponse.ReplicatedContents`, whose own `ReplicatedContents` is never set. -/
structure ReplicatedDealResponse where
  Status : String := ""
  Message : String := ""
  ContentId : Int := 0
  DealRequest : DealRequest := {}
  DealProposalParameterRequest : ContentDealProposalParameters := {}
deriving DecidableEq, Repr

/-- The body a handler writes with `c.JSON(200, DealResponse{...})`. -/
structure DealResponse where
  Status : String := ""
  Message : String := ""
  ContentId : Int := 0
  DealRequest : DealRequest := {}
  DealProposalParameterRequest : ContentDealProposalParameters := {}
  ReplicatedContents : List ReplicatedDealResponse := []
deriving DecidableEq, Repr

/-- What a handler leaves behind: the error it returns (`none` for `nil`), the body it
wrote with status 200 (of type `ρ`), and the node afterwards. Writing the response is
taken to succeed. -/
structure HandlerResult (ρ : Type) where
  err : Option String
  response : Option ρ
  node : DeltaNode

/-- Go `node.DB.Transaction(fc)`: runs `fc` on the store; when `fc` returns an error the
store is rolled back to what it was, while everything else `fc` did to the node
(jobs handed to the dispatcher, miner assignment calls) stays. The handlers wrap the
error of the transaction with `wrap` before returning it. -/
def Transaction {ρ : Type} (node : DeltaNode) (wrap : String)
    (fc : DeltaNode → HandlerResult ρ) : HandlerResult ρ :=
  let r := fc node
  match r.err with
  | some e => { err := some (wrap ++ " " ++ e), response := r.response,
                node := { r.node with DB := node.DB } }
  | none => r

/-- The variables of a handler's transaction closure: the node (whose `DB` is the
transaction `tx`), the handler's copy of the request, and the rows created so far. -/
structure Txn where
  node : DeltaNode
  dealRequest : DealRequest
  pieceCommp : PieceCommitment := {}
  content : Content := {}
  dealProposalParam : ContentDealProposalParameters := {}

/-- The block "let's create a commp but only if we have a cid, a piece_cid, a padded_piece_size,
size" (api/deal.go 637-658 with `cid = addNode.Cid()`, `size = file.Size`, status
`open`; 1136-1157 with `cid = dealRequest.Cid`, `size = dealRequest.Size`, status
`committed`). -/
def createPieceCommitment (cid : String) (size : Int) (status : String) (t : Txn) : Txn :=
  if (({} : PieceCommitmentRequest) ≠ t.dealRequest.PieceCommitment ∧
        t.dealRequest.PieceCommitment.Piece ≠ "") ∧
      t.dealRequest.PieceCommitment.PaddedPieceSize ≠ 0 ∧ t.dealRequest.Size ≠ 0 then
    let created := t.node.DB.CreatePieceCommitment
      { Cid := cid
        Piece := t.dealRequest.PieceCommitment.Piece
        Size := size
        UnPaddedPieceSize := t.dealRequest.PieceCommitment.UnPaddedPieceSize
        PaddedPieceSize := t.dealRequest.PieceCommitment.PaddedPieceSize
        Status := status }
    { t with
      node := { t.node with DB := created.1 }
      pieceCommp := created.2
      dealRequest :=
        { t.dealRequest with
          PieceCommitment :=
            { Piece := created.2.Piece
              PaddedPieceSize := created.2.PaddedPieceSize
              UnPaddedPieceSize := created.2.UnPaddedPieceSize } } }
  else t

/-- The block "save the content to the DB with the piece_commitment_id" (api/deal.go 661-674,
1160-1173): `tx.Create(&content)` and `dealRequest.Cid = content.Cid`. -/
def createContent (content : Content) (t : Txn) : Txn :=
  let created := t.node.DB.CreateContent content
  { t with
    node := { t.node with DB := created.1 }
    content := created.2
    dealRequest := { t.dealRequest with Cid := created.2.Cid } }

/-- The block "assign a miner" (api/deal.go 677-694 with `size = file.Size`, 1176-1193 with
`size = dealRequest.Size`). The second component is the error the closure returns. -/
def assignMiner (size : Int) (t : Txn) : Txn × Option String :=
  if t.dealRequest.Miner = "" then
    let provider := t.node.GetSPWithGivenBytes t.node.MinerAssignmentCalls size
    let t := { t with node :=
      { t.node with MinerAssignmentCalls := t.node.MinerAssignmentCalls + 1 } }
    match provider with
    | .error errOnPv => (t, some errOnPv)
    | .ok address =>
      if address ≠ "" then
        let created := t.node.DB.CreateContentMiner { Miner := address, Content := t.content.ID }
        ({ t with node := { t.node with DB := created.1 }
                  dealRequest := { t.dealRequest with Miner := created.2.Miner } }, none)
      else ({ t with dealRequest := { t.dealRequest with Miner := address } }, none)
  else
    let created := t.node.DB.CreateContentMiner
      { Miner := t.dealRequest.Miner, Content := t.content.ID }
    ({ t with node := { t.node with DB := created.1 }
              dealRequest := { t.dealRequest with Miner := created.2.Miner } }, none)

/-- The wallet lookup of the handlers (api/deal.go 701-707, 1199-1205): by address, else
by uuid, else by id, always scoped to the owner. -/
def lookupWallet (tx : DB) (apiKey : String) (wallet : WalletRequest) : Wallet :=
  if wallet.Address ≠ "" then
    tx.FirstWallet (fun w => decide (w.Addr = wallet.Address ∧ w.Owner = apiKey))
  else if wallet.Uuid ≠ "" then
    tx.FirstWallet (fun w => decide (w.Uuid = wallet.Uuid ∧ w.Owner = apiKey))
  else
    tx.FirstWallet (fun w => decide (w.ID = wallet.Id ∧ w.Owner = apiKey))

/-- The wallet block of the handlers (api/deal.go 696-735, 1195-1233). The
`err != nil` test inside the block reads the handler's `err`, which is nil there. -/
def assignWallet (apiKey : String) (t : Txn) : Txn × Option String :=
  if ({} : WalletRequest) ≠ t.dealRequest.Wallet then
    -- get wallet from wallets database
    let wallet := lookupWallet t.node.DB apiKey t.dealRequest.Wallet
    if wallet.ID = 0 then
      (t, some "Wallet not found, please make sure the wallet is registered")
    else
      -- assign the wallet to the content
      let created := t.node.DB.CreateContentWallet
        { WalletId := wallet.ID, Content := t.content.ID }
      ({ t with
         node := { t.node with DB := created.1 }
         dealRequest :=
           { t.dealRequest with
             Wallet := { Id := t.dealRequest.Wallet.Id, Address := wallet.Addr } } }, none)
  else (t, none)

/-- The epoch fields of a deal proposal parameter row, `(StartEpoch, EndEpoch, Duration)`;
the same block in every handler (api/deal.go 760-768, 1298-1306, 2056-2064).
`EndEpoch` keeps its zero value in the second branch. -/
def proposalEpochs (node : DeltaNode) (dealRequest : DealRequest) : Int × Int × Int :=
  if dealRequest.StartEpochInDays ≠ 0 ∧ dealRequest.DurationInDays ≠ 0 then
    let startEpochTime := node.AddDate node.Now dealRequest.StartEpochInDays
    let StartEpoch := node.DateToHeight startEpochTime
    let EndEpoch := wrap64 (StartEpoch +
      wrap64 (EPOCH_PER_DAY * wrap64 (dealRequest.DurationInDays - dealRequest.StartEpochInDays)))
    let Duration := wrap64 (EndEpoch - StartEpoch)
    (StartEpoch, EndEpoch, Duration)
  else
    (0, 0, node.DEFAULT_DURATION)

/-- The deal proposal parameter row of a handler, before it is inserted (api/deal.go
737-771, 1235-1308); `transferParams` is the value of the handler's `TransferParams`
closure. -/
def proposalParameters (transferParams : String) (t : Txn) : ContentDealProposalParameters :=
  { Content := t.content.ID
    UnverifiedDealMaxPrice :=
      if t.dealRequest.UnverifiedDealMaxPrice ≠ "" then t.dealRequest.UnverifiedDealMaxPrice
      else "0"
    Label := if t.dealRequest.Label ≠ "" then t.dealRequest.Label else t.content.Cid
    VerifiedDeal := if t.dealRequest.DealVerifyState = DEAL_UNVERIFIED then false else true
    StartEpoch := (proposalEpochs t.node t.dealRequest).1
    EndEpoch := (proposalEpochs t.node t.dealRequest).2.1
    Duration := (proposalEpochs t.node t.dealRequest).2.2
    RemoveUnsealedCopy := t.dealRequest.RemoveUnsealedCopy
    SkipIPNIAnnounce := t.dealRequest.SkipIPNIAnnounce
    TransferParams := transferParams }

/-- The block "deal proposal parameters": `tx.Create(&dealProposalParam)` (api/deal.go 801, 1311). -/
def createProposalParameters (row : ContentDealProposalParameters) (t : Txn) : Txn :=
  let created := t.node.DB.CreateContentDealProposalParameters row
  { t with node := { t.node with DB := created.1 }, dealProposalParam := created.2 }

/-- The source of a replication (`DealReplication`). -/
structure DealReplication where
  Content : Content
  ContentDealProposalParameter : ContentDealProposalParameters
  DealRequest : DealRequest

/-- One replica as `ReplicateContent` returns it. -/
structure ReplicatedContent where
  Content : Content
  DealRequest : DealRequest
  DealResponse : ReplicatedDealResponse
deriving DecidableEq, Repr

/-- One iteration of the loop of `ReplicateContent` (api/deal.go 2286-2339): the
replica, or `none` where the source returns `nil` because the miner assignment failed;
the rows inserted before the failure stay in the transaction `node.DB`. -/
def replicateOne (contentSource : DealReplication) (node : DeltaNode)
    (dealRequest : DealRequest) : Option ReplicatedContent × DeltaNode :=
  let newContent := node.DB.CreateContent { contentSource.Content with ID := 0 }
  let newContentDealProposalParameter :=
    newContent.1.CreateContentDealProposalParameters
      { contentSource.ContentDealProposalParameter with ID := 0, Content := newContent.2.ID }
  -- assign a miner
  match node.GetSPWithGivenBytes node.MinerAssignmentCalls newContent.2.Size with
  | .error _ =>
    (none, { node with DB := newContentDealProposalParameter.1
                       MinerAssignmentCalls := node.MinerAssignmentCalls + 1 })
  | .ok address =>
    let contentMinerAssignment := newContentDealProposalParameter.1.CreateContentMiner
      { Miner := address, Content := newContent.2.ID }
    let dealRequest := { dealRequest with Miner := address }
    (some
      { Content := newContent.2
        DealRequest := dealRequest
        DealResponse :=
          { DealRequest := dealRequest
            ContentId := newContent.2.ID
            DealProposalParameterRequest := newContentDealProposalParameter.2
            Status := CONTENT_PINNED
            Message := "Content replication request successful" } },
     { node with DB := contentMinerAssignment.1
                 MinerAssignmentCalls := node.MinerAssignmentCalls + 1 })

/-- The loop of `ReplicateContent` (api/deal.go 2285-2341) with `n` iterations left; the
request carries the miner of the previous replica into the next iteration. -/
def ReplicateContentLoop (contentSource : DealReplication) :
    Nat → DeltaNode → DealRequest → List ReplicatedContent → List ReplicatedContent × DeltaNode
  | 0, node, _, replicatedContents => (replicatedContents, node)
  | n + 1, node, dealRequest, replicatedContents =>
    match replicateOne contentSource node dealRequest with
    | (none, node) => ([], node)
    | (some replicatedContent, node) =>
      ReplicateContentLoop contentSource n node replicatedContent.DealRequest
        (replicatedContents ++ [replicatedContent])

/-- Go `ReplicateContent` (api/deal.go 2283-2343): `dealRequest.Replication` iterations of
the loop (none when the count is not positive). -/
def ReplicateContent (node : DeltaNode) (contentSource : DealReplication)
    (dealRequest : DealRequest) : List ReplicatedContent × DeltaNode :=
  ReplicateContentLoop contentSource dealRequest.Replication.toNat node dealRequest []

/-- The message of every successful deal response. -/
abbrev dealReceived : String :=
  "Deal request received. Please take note of the content_id. You can use the content_id to check the status of the deal."

/-- The success response of a handler for the transaction `t`. -/
def dealResponse (t : Txn) (replicas : List ReplicatedDealResponse) : DealResponse :=
  { Status := "success", Message := dealReceived, ContentId := t.content.ID
    DealRequest := t.dealRequest, DealProposalParameterRequest := t.dealProposalParam
    ReplicatedContents := replicas }

/-- The value of the `TransferParams` closure of `handleEndToEndDeal` (api/deal.go
773-798) once `announce = AnnounceAddrs[1]` is known. -/
def endToEndTransferParams (announce : String) (t : Txn) : String :=
  match t.node.NewMultiaddr (announce ++ "/p2p/" ++ t.node.HostID) with
  | none => ""
  | some announceAddr =>
    let transferParamsUrl :=
      if t.dealRequest.TransferParameters.URL ≠ "" then t.dealRequest.TransferParameters.URL
      else "libp2p://" ++ announceAddr
    t.node.MarshalTransferParameters { URL := transferParamsUrl }

/-- The end of the transaction of `handleEndToEndDeal` (api/deal.go 802-859): hand the
content, and its replicas if any were asked for, to the dispatcher and respond. -/
def endToEndDispatch (t : Txn) : HandlerResult DealResponse :=
  if t.dealRequest.Replication = 0 then
    let dispatchJobs : IProcessor :=
      if t.pieceCommp.ID ≠ 0 then .StorageDealMakerProcessor t.content t.pieceCommp
      else .PieceCommpProcessor t.content
    { err := none
      response := some (dealResponse t [])
      node := { t.node with Dispatcher := t.node.Dispatcher.AddJobAndDispatch dispatchJobs 1 } }
  else
    let replicated := ReplicateContent t.node
      { Content := t.content, ContentDealProposalParameter := t.dealProposalParam
        DealRequest := t.dealRequest } t.dealRequest
    let contents := replicated.1
    let dispatcher :=
      contents.foldl (fun d contentRep => d.AddJob (.PieceCommpProcessor contentRep.Content))
        replicated.2.Dispatcher
    let dispatcher := dispatcher.AddJob (.PieceCommpProcessor t.content)
    let dispatcher := dispatcher.Start (contents.length + 1)
    { err := none
      response := some (dealResponse t (contents.map ReplicatedContent.DealResponse))
      node := { replicated.2 with Dispatcher := dispatcher } }

/-- The transaction of `handleEndToEndDeal` (api/deal.go 633-860); `cid` is
`addNode.Cid().String()`. Reading `AnnounceAddrs[1]` of a shorter list panics, which
aborts the transaction. -/
def handleEndToEndDealTxn (apiKey : String) (file : FileHeader) (cid : String)
    (dealRequest : DealRequest) (node : DeltaNode) : HandlerResult DealResponse :=
  let t : Txn := { node := node, dealRequest := dealRequest }
  let t := createPieceCommitment cid file.Size COMMP_STATUS_OPEN t
  let t := createContent
    { Name := file.Filename
      Size := file.Size
      Cid := cid
      RequestingApiKey := apiKey
      PieceCommitmentId := t.pieceCommp.ID
      Status := CONTENT_PINNED
      AutoRetry := t.dealRequest.AutoRetry
      ConnectionMode := t.dealRequest.ConnectionMode } t
  match assignMiner file.Size t with
  | (t, some errOnPv) => { err := some errOnPv, response := none, node := t.node }
  | (t, none) =>
    match assignWallet apiKey t with
    | (t, some e) => { err := some e, response := none, node := t.node }
    | (t, none) =>
      match t.node.AnnounceAddrs[1]? with
      | none =>
        { err := some "runtime error: index out of range [1]", response := none, node := t.node }
      | some announce =>
        let t := createProposalParameters
          (proposalParameters (endToEndTransferParams announce t) t) t
        endToEndDispatch t

/-- Go `handleEndToEndDeal` (api/deal.go 588-867). `apiKey` is the second word of the
`Authorization` header, `file` the `data` part and `dealRequest` the decoded
`metadata` part of the request. -/
def handleEndToEndDeal (node : DeltaNode) (apiKey : String) (file : FileHeader)
    (dealRequest : DealRequest) : HandlerResult DealResponse :=
  if dealRequest.ConnectionMode = "import" then
    { err := some "Connection mode import is not supported for end-to-end deal endpoint",
      response := none, node := node }
  else
    -- fail safe
    let dealRequest := { dealRequest with ConnectionMode := "e2e" }
    let err := ValidateMeta dealRequest node.Config
    -- validate the file if it's more than 1mb
    if file.Size < 1000000 ∧ dealRequest.DealVerifyState = DEAL_VERIFIED then
      { err := some "File size is too small", response := none, node := node }
    else
      match err with
      | .error e => { err := some e, response := none, node := node }
      | .ok _ =>
        if node.FileOpens file = false then
          { err := some "Error opening the file", response := none, node := node }
        else
          match node.AddPinFile file with
          | none => { err := some "Error pinning the file", response := none, node := node }
          | some cid =>
            Transaction { node with Pinned := node.Pinned ++ [file] }
              "Error creating the content record"
              (handleEndToEndDealTxn apiKey file cid dealRequest)

/-- The end of the transaction of `handleImportDeal` (api/deal.go 1317-1335): the job
variable is assigned only when a piece commitment was created. -/
def importDispatch (t : Txn) : HandlerResult DealResponse :=
  let dispatchJobs : IProcessor :=
    if t.pieceCommp.ID ≠ 0 then .StorageDealMakerProcessor t.content t.pieceCommp
    else .nil
  { err := none
    response := some (dealResponse t [])
    node := { t.node with Dispatcher := t.node.Dispatcher.AddJobAndDispatch dispatchJobs 1 } }

/-- The transaction of `handleImportDeal` (api/deal.go 1133-1336). -/
def handleImportDealTxn (apiKey : String) (dealRequest : DealRequest) (node : DeltaNode) :
    HandlerResult DealResponse :=
  let t : Txn := { node := node, dealRequest := dealRequest }
  let t := createPieceCommitment t.dealRequest.Cid t.dealRequest.Size COMMP_STATUS_COMITTED t
  let t := createContent
    { Name := t.dealRequest.Cid
      Size := t.dealRequest.Size
      Cid := t.dealRequest.Cid
      RequestingApiKey := apiKey
      PieceCommitmentId := t.pieceCommp.ID
      AutoRetry := t.dealRequest.AutoRetry
      Status := CONTENT_DEAL_MAKING_PROPOSAL
      ConnectionMode := t.dealRequest.ConnectionMode } t
  match assignMiner t.dealRequest.Size t with
  | (t, some errOnPv) => { err := some errOnPv, response := none, node := t.node }
  | (t, none) =>
    match assignWallet apiKey t with
    | (t, some e) => { err := some e, response := none, node := t.node }
    | (t, none) =>
      let t := createProposalParameters
        (proposalParameters
          (t.node.MarshalTransferParameters { URL := t.dealRequest.TransferParameters.URL }) t) t
      importDispatch t

/-- Go `handleImportDeal` (api/deal.go 1105-1342). `apiKey` is the second word of the
`Authorization` header and `dealRequest` the bound request body. -/
def handleImportDeal (node : DeltaNode) (apiKey : String) (dealRequest : DealRequest) :
    HandlerResult DealResponse :=
  if dealRequest.ConnectionMode = "e2e" then
    { err := some "Connection mode e2e is not supported on this import endpoint",
      response := none, node := node }
  else
    let dealRequest := { dealRequest with ConnectionMode := "import" }
    match ValidateMeta dealRequest node.Config with
    | .error e => { err := some e, response := none, node := node }
    | .ok _ =>
      match ValidatePieceCommitmentMeta dealRequest.PieceCommitment with
      | .error e => { err := some e, response := none, node := node }
      | .ok _ =>
        Transaction node "Error creating the piece-commitment record"
          (handleImportDealTxn apiKey dealRequest)

/-- The wallet block of `handleMultipleImportDeals` (api/deal.go 1953-1993): as
`assignWallet`, with its own message when no wallet is found. (The lookup by uuid
names the column `uu_id` there; the model looks the uuid up as in the other
handlers.) -/
def assignWalletMultiple (apiKey : String) (t : Txn) : Txn × Option String :=
  if ({} : WalletRequest) ≠ t.dealRequest.Wallet then
    -- get wallet from wallets database
    let wallet := lookupWallet t.node.DB apiKey t.dealRequest.Wallet
    if wallet.ID = 0 then
      (t, some ("Wallet not found, please make sure the wallet is registered with the API key "
        ++ t.dealRequest.Wallet.Address))
    else
      -- assign the wallet to the content
      let created := t.node.DB.CreateContentWallet
        { WalletId := wallet.ID, Content := t.content.ID }
      ({ t with
         node := { t.node with DB := created.1 }
         dealRequest :=
           { t.dealRequest with
             Wallet := { Id := t.dealRequest.Wallet.Id, Address := wallet.Addr } } }, none)
  else (t, none)

/-- The end of one iteration of `handleMultipleImportDeals` (api/deal.go 2072-2077): the
job variable is assigned only when a piece commitment was created, and is added to
the dispatcher without dispatching. -/
def multipleImportAddJob (t : Txn) : Txn :=
  let dispatchJobs : IProcessor :=
    if t.pieceCommp.ID ≠ 0 then .StorageDealMakerProcessor t.content t.pieceCommp
    else .nil
  { t with node := { t.node with Dispatcher := t.node.Dispatcher.AddJob dispatchJobs } }

/-- One iteration of the loop of `handleMultipleImportDeals` (api/deal.go 1874-2086) on
the transaction `node.DB`: the variables of the iteration at its end, and the error
with which the closure returns, if any. -/
def multipleImportOne (apiKey : String) (dealRequest : DealRequest) (node : DeltaNode) :
    Txn × Option String :=
  if dealRequest.ConnectionMode = "e2e" then
    ({ node := node, dealRequest := dealRequest },
      some "Connection mode e2e is not supported on this import endpoint")
  else
    let dealRequest := { dealRequest with ConnectionMode := "import" }
    let t : Txn := { node := node, dealRequest := dealRequest }
    match ValidateMeta dealRequest node.Config with
    | .error e => (t, some e)
    | .ok _ =>
      match ValidatePieceCommitmentMeta dealRequest.PieceCommitment with
      | .error e => (t, some e)
      | .ok _ =>
        let t := createPieceCommitment t.dealRequest.Cid t.dealRequest.Size
          COMMP_STATUS_COMITTED t
        let t := createContent
          { Name := t.dealRequest.Cid
            Size := t.dealRequest.Size
            Cid := t.dealRequest.Cid
            RequestingApiKey := apiKey
            PieceCommitmentId := t.pieceCommp.ID
            AutoRetry := t.dealRequest.AutoRetry
            Status := CONTENT_DEAL_MAKING_PROPOSAL
            ConnectionMode := t.dealRequest.ConnectionMode } t
        match assignMiner t.dealRequest.Size t with
        | (t, some errOnPv) => (t, some errOnPv)
        | (t, none) =>
          match assignWalletMultiple apiKey t with
          | (t, some e) => (t, some e)
          | (t, none) =>
            let t := createProposalParameters
              (proposalParameters
                (t.node.MarshalTransferParameters { URL := t.dealRequest.TransferParameters.URL })
                t) t
            (multipleImportAddJob t, none)

/-- The loop of `handleMultipleImportDeals` over the requests still to handle, with the
responses collected so far: the error of the closure if an iteration returns one, the
responses, and the node. -/
def multipleImportLoop (apiKey : String) :
    List DealRequest → DeltaNode → List DealResponse → Option String × List DealResponse × DeltaNode
  | [], node, dealResponses => (none, dealResponses, node)
  | dealRequest :: rest, node, dealResponses =>
    match multipleImportOne apiKey dealRequest node with
    | (t, some e) => (some e, dealResponses, t.node)
    | (t, none) => multipleImportLoop apiKey rest t.node (dealResponses ++ [dealResponse t []])

/-- Go `handleMultipleImportDeals` (api/deal.go 1859-2100): all requests of the array in one
transaction; after the loop `Dispatcher.Start(len(dealRequests))` (started in its own
goroutine) and the array of responses. -/
def handleMultipleImportDeals (node : DeltaNode) (apiKey : String)
    (dealRequests : List DealRequest) : HandlerResult (List DealResponse) :=
  Transaction node "Error in making a deal proposal"
    (fun tx =>
      match multipleImportLoop apiKey dealRequests tx [] with
      | (some e, _, tx) => { err := some e, response := none, node := tx }
      | (none, dealResponses, tx) =>
        { err := none
          response := some dealResponses
          node := { tx with Dispatcher := tx.Dispatcher.Start dealRequests.length } })

/-- The block of `handleMultipleBatchImportDeals` that links the content to its batch
(api/deal.go 1675-1681): `tx.Create(&batchContent)`. -/
def createBatchImportContent (batchImportID : Int) (t : Txn) : Txn :=
  let created := t.node.DB.CreateBatchImportContent
    { BatchImportID := batchImportID, ContentID := t.content.ID }
  { t with node := { t.node with DB := created.1 } }

/-- One iteration of the loop that the goroutine of `handleMultipleBatchImportDeals` runs
(api/deal.go 1616-1803): the blocks of `handleMultipleImportDeals`, with the row that
links the content to the batch `batchImportID` inserted after the content. The loop
works on the store itself (`tx := node.DB`, the transaction is commented out), so
`node.DB` is the store and what an iteration inserts before it fails stays. -/
def batchImportOne (apiKey : String) (batchImportID : Int) (dealRequest : DealRequest)
    (node : DeltaNode) : Txn × Option String :=
  if dealRequest.ConnectionMode = "e2e" then
    ({ node := node, dealRequest := dealRequest },
      some "Connection mode e2e is not supported on this import endpoint")
  else
    let dealRequest := { dealRequest with ConnectionMode := "import" }
    let t : Txn := { node := node, dealRequest := dealRequest }
    match ValidateMeta dealRequest node.Config with
    | .error e => (t, some e)
    | .ok _ =>
      match ValidatePieceCommitmentMeta dealRequest.PieceCommitment with
      | .error e => (t, some e)
      | .ok _ =>
        let t := createPieceCommitment t.dealRequest.Cid t.dealRequest.Size
          COMMP_STATUS_COMITTED t
        let t := createContent
          { Name := t.dealRequest.Cid
            Size := t.dealRequest.Size
            Cid := t.dealRequest.Cid
            RequestingApiKey := apiKey
            PieceCommitmentId := t.pieceCommp.ID
            AutoRetry := t.dealRequest.AutoRetry
            Status := CONTENT_DEAL_MAKING_PROPOSAL
            ConnectionMode := t.dealRequest.ConnectionMode } t
        let t := createBatchImportContent batchImportID t
        match assignMiner t.dealRequest.Size t with
        | (t, some errOnPv) => (t, some errOnPv)
        | (t, none) =>
          match assignWalletMultiple apiKey t with
          | (t, some e) => (t, some e)
          | (t, none) =>
            let t := createProposalParameters
              (proposalParameters
                (t.node.MarshalTransferParameters { URL := t.dealRequest.TransferParameters.URL })
                t) t
            (multipleImportAddJob t, none)

/-- The loop of the goroutine of `handleMultipleBatchImportDeals` over the requests still
to handle: it ends at the first iteration that returns an error. -/
def batchImportLoop (apiKey : String) (batchImportID : Int) :
    List DealRequest → DeltaNode → List DealResponse → Option String × List DealResponse × DeltaNode
  | [], node, dealResponses => (none, dealResponses, node)
  | dealRequest :: rest, node, dealResponses =>
    match batchImportOne apiKey batchImportID dealRequest node with
    | (t, some e) => (some e, dealResponses, t.node)
    | (t, none) =>
      batchImportLoop apiKey batchImportID rest t.node (dealResponses ++ [dealResponse t []])

/-- Go `http.StatusForbidden`. -/
abbrev StatusForbidden : Nat := 403

/-- What a request to a route behind `checkMetaFlags` leaves behind: either the response
the middleware wrote itself with `c.JSON(code, body)`, returning what `c.JSON` returns
and leaving the node as it was, or whatever the wrapped handler `next` did. -/
inductive RouteResult (ρ : Type) where
  | JSON (code : Nat) (body : String) (node : DeltaNode)
  | next (result : HandlerResult ρ)

/-- Go `checkMetaFlags` (api/deal.go 102-126); the tracing span has no part in the
outcome. `next` is the wrapped handler, closed over the request, as a function of the
node it runs on. -/
def checkMetaFlags {ρ : Type} (next : DeltaNode → HandlerResult ρ) (node : DeltaNode) :
    RouteResult ρ :=
  let instanceMeta := node.DB.FirstInstanceMeta
  if instanceMeta.DisableRequest then .JSON StatusForbidden "request is disabled" node
  else .next (next node)

/-- The routes `/deal/end-to-end`, `/deal/import` and `/deal/imports` as
`ConfigureDealRouter` installs them (api/deal.go 35-60): the handler behind the
middleware of the `/deal` group. -/
def dealEndToEndRoute (node : DeltaNode) (apiKey : String) (file : FileHeader)
    (dealRequest : DealRequest) : RouteResult DealResponse :=
  checkMetaFlags (fun node => handleEndToEndDeal node apiKey file dealRequest) node

/-- The route `/deal/import` behind the middleware of the `/deal` group. -/
def dealImportRoute (node : DeltaNode) (apiKey : String) (dealRequest : DealRequest) :
    RouteResult DealResponse :=
  checkMetaFlags (fun node => handleImportDeal node apiKey dealRequest) node

/-- The route `/deal/imports` behind the middleware of the `/deal` group. -/
def dealImportsRoute (node : DeltaNode) (apiKey : String) (dealRequests : List DealRequest) :
    RouteResult (List DealResponse) :=
  checkMetaFlags (fun node => handleMultipleImportDeals node apiKey dealRequests) node

/-- The rows of a table of `after` that were not yet in `before` (tables only grow). -/
def inserted {α : Type} (table : DB → List α) (before after : DB) : List α :=
  (table after).drop (table before).length

/-! ## The Piece Commitment job (`jobs/piece_commp_compute.go`) -/

/-- Modelled from the spec: the libraries that `PieceCommpProcessor.Run` calls (go-cid,
filclient) are not among the sources. The model keeps what `Run` reads of them. -/
structure CommpPrimitives where
  /-- Go `cid.Decode(s)` followed by `String()`: the text of the decoded CID, `none` on
  error. -/
  CidDecode : String → Option String
  /-- Go `filclient.GeneratePieceCommitment(ctx, payloadCid, blockstore)` (the CommP
  primitive), for the call with the given index: the text of the piece CID and the two
  unsigned 64-bit sizes `u` and `a` it returns, or the error. -/
  GeneratePieceCommitment : Nat → String → Except String (String × Nat × Nat)

/-- Go `db.Model(&core.Content{}).Where("id = ?", id).Updates(values)` with a struct
`values`: in every row with the given key, each field that is non-zero in `values` is
overwritten, the other fields stay (`Updates` leaves out the zero fields of a struct).
The calls of the sources pass a `values` whose `ID` is zero. -/
def DB.UpdatesContent (tx : DB) (id : Int) (values : Content) : DB :=
  { tx with
    contents := tx.contents.map (fun row =>
      if row.ID = id then
        { ID := row.ID
          Name := if values.Name ≠ "" then values.Name else row.Name
          Size := if values.Size ≠ 0 then values.Size else row.Size
          Cid := if values.Cid ≠ "" then values.Cid else row.Cid
          RequestingApiKey :=
            if values.RequestingApiKey ≠ "" then values.RequestingApiKey
            else row.RequestingApiKey
          PieceCommitmentId :=
            if values.PieceCommitmentId ≠ 0 then values.PieceCommitmentId
            else row.PieceCommitmentId
          AutoRetry := if values.AutoRetry ≠ false then values.AutoRetry else row.AutoRetry
          Status := if values.Status ≠ "" then values.Status else row.Status
          ConnectionMode :=
            if values.ConnectionMode ≠ "" then values.ConnectionMode
            else row.ConnectionMode }
      else row) }

/-- How a call of `Run` ends: with a Go panic, or by returning its error value. -/
inductive RunResult where
  | panic (node : DeltaNode)
  | returned (err : Option String) (node : DeltaNode)

/-- The node after the call. -/
def RunResult.node : RunResult → DeltaNode
  | .panic node => node
  | .returned _ node => node

/-- The error the call returned, if it returned one. -/
def RunResult.err : RunResult → Option String
  | .panic _ => none
  | .returned err _ => err

/-- Whether the call ended with a panic. -/
def RunResult.panicked : RunResult → Bool
  | .panic _ => true
  | .returned _ _ => false

/-- Go `PieceCommpProcessor.Run` (jobs/piece_commp_compute.go 25-61) of the job that
carries `content` (the copy of the row made when the job was built), the call of the
CommP primitive having the index `call`. `int64(u)` and `int64(a)` are the two's
complement readings of the unsigned sizes. -/
def PieceCommpProcessor.Run (prims : CommpPrimitives) (call : Nat) (content : Content)
    (node : DeltaNode) : RunResult :=
  let node := { node with
    DB := node.DB.UpdatesContent content.ID { Status := "piece-computing" } }
  match prims.CidDecode content.Cid with
  | none => .panic node
  | some payloadCid =>
    match prims.GeneratePieceCommitment call payloadCid with
    | .error err =>
      .returned (some err)
        { node with Dispatcher := node.Dispatcher.AddJob (.PieceCommpProcessor content) }
    | .ok (commitment, u, a) =>
      let created := node.DB.CreatePieceCommitment
        { Cid := payloadCid
          Piece := commitment
          Size := wrap64 u
          PaddedPieceSize := wrap64 a
          Status := "open" }
      let commpRec := created.2
      let db := created.1.UpdatesContent content.ID
        { Status := "piece-assigned", PieceCommitmentId := commpRec.ID }
      .returned none
        { node with
          DB := db
          Dispatcher := node.Dispatcher.AddJob (.StorageDealMakerProcessor content commpRec) }

/-- Modelled from the spec: the workers of `core.Dispatcher` are not among the sources;
a worker takes a job off the queue and calls its `Run`. `runRetries` follows a Piece
Commitment job through at most `n` runs: as long as a run returns an error, the next
run is that of the job the failed run put back (`NewPieceCommpProcessor(i.LightNode,
i.Content)`, the same content). The calls of the primitive are numbered from `call`. -/
def runRetries (prims : CommpPrimitives) (content : Content) :
    Nat → Nat → DeltaNode → DeltaNode
  | 0, _, node => node
  | n + 1, call, node =>
    match PieceCommpProcessor.Run prims call content node with
    | .returned (some _) node2 => runRetries prims content n (call + 1) node2
    | .returned none node2 => node2
    | .panic node2 => node2

/-! ## The stats handlers (`api/open_stats.go`) -/

/-- What a stats handler answers: the status code and the body of `c.JSON(code, body)`,
and the dispatchers it created on the way (`core.CreateNewDispatcher()`), each with
the jobs it was given and the worker counts it was started with. The stats handlers do
not write to the store and hand nothing to the dispatcher of the node. -/
structure StatsResult (ρ : Type) where
  code : Nat
  body : ρ
  dispatchers : List Dispatcher := []

/-- The block "check the deal status async" that the stats handlers share
(api/open_stats.go 166-171 and its copies): under the guard on the status of the
content read, a new dispatcher gets a Deal Status Check job for the handler's
`content` variable and is started with one worker. -/
def dealStatusCheckAsync (content : Content) : List Dispatcher :=
  if content.Status = DEAL_STATUS_TRANSFER_STARTED ∨
      content.Status = CONTENT_DEAL_PROPOSAL_SENT ∨
      content.Status = DEAL_STATUS_TRANSFER_FINISHED then
    [(({} : Dispatcher).AddJob (.DealStatusCheck content)).Start 1]
  else []

/-- Go `node.DB.Raw("select * from contents where ...").Scan(&content)` into a struct:
the first row of the result, in the order of the table; the variable keeps its zero
value when there is none. -/
def scanContent (rows : List Content) : Content := rows.head?.getD {}

/-- Go `Raw(...).Scan(&contentDeal)` into a struct. -/
def scanContentDeal (rows : List ContentDeal) : ContentDeal := rows.head?.getD {}

/-- Go `Raw(...).Scan(&contentDealProposal)` into a struct. -/
def scanContentDealProposal (rows : List ContentDealProposal) : ContentDealProposal :=
  rows.head?.getD {}

/-- Go `Raw(...).Scan(&pieceCommitment)` into a struct. -/
def scanPieceCommitment (rows : List PieceCommitment) : PieceCommitment :=
  rows.head?.getD {}

/-- The body of the three deal views: the keys `deal`, `content`, `deal_proposal` and
`piece_commitment` of the JSON object. -/
structure DealView where
  deal : ContentDeal
  content : Content
  deal_proposal : ContentDealProposal
  piece_commitment : PieceCommitment
deriving DecidableEq, Repr

/-- The part that `handleOpenGetDealByDealId` and `handleOpenGetDealByUuid` share, from
the deal they scanned on (api/open_stats.go 186-208, 215-236). -/
def dealViewOfDeal (node : DeltaNode) (contentDeal : ContentDeal) : StatsResult DealView :=
  let content := scanContent (node.DB.contents.filter (fun c => c.ID = contentDeal.Content))
  let content := { content with RequestingApiKey := "" }
  let contentDealProposal := scanContentDealProposal
    (node.DB.content_deal_proposals.filter (fun p => p.Content = content.ID))
  let pieceCommitment := scanPieceCommitment
    (node.DB.piece_commitments.filter (fun pc => pc.ID = content.PieceCommitmentId))
  { code := 200
    body := { deal := contentDeal, content := content, deal_proposal := contentDealProposal
              piece_commitment := pieceCommitment }
    dispatchers := dealStatusCheckAsync content }

/-- Go `handleOpenGetDealByCid` (api/open_stats.go 150-178). -/
def handleOpenGetDealByCid (node : DeltaNode) (cid : String) : StatsResult DealView :=
  let content := scanContent (node.DB.contents.filter (fun c => c.Cid = cid))
  let content := { content with RequestingApiKey := "" }
  let contentDeal := scanContentDeal
    (node.DB.content_deals.filter (fun d => d.Content = content.ID))
  let contentDealProposal := scanContentDealProposal
    (node.DB.content_deal_proposals.filter (fun p => p.Content = content.ID))
  let pieceCommitment := scanPieceCommitment
    (node.DB.piece_commitments.filter (fun pc => pc.ID = content.PieceCommitmentId))
  { code := 200
    body := { deal := contentDeal, content := content, deal_proposal := contentDealProposal
              piece_commitment := pieceCommitment }
    dispatchers := dealStatusCheckAsync content }

/-- Go `handleOpenGetDealByDealId` (api/open_stats.go 182-209). The path parameter is
compared with the integer column `deal_id`; the model takes it as the integer it
denotes. -/
def handleOpenGetDealByDealId (node : DeltaNode) (dealId : Int) : StatsResult DealView :=
  dealViewOfDeal node
    (scanContentDeal (node.DB.content_deals.filter (fun d => d.DealID = dealId)))

/-- Go `handleOpenGetDealByUuid` (api/open_stats.go 211-237). -/
def handleOpenGetDealByUuid (node : DeltaNode) (uuid : String) : StatsResult DealView :=
  dealViewOfDeal node
    (scanContentDeal (node.DB.content_deals.filter (fun d => d.DealUUID = uuid)))

/-- The names in the queries of `handleOpenStatsByMiner` that the data model of the spec
does not have: the table `content_miner` (the layout has `content_miners`) and the
columns `piece_commitments.content_deal` and
`content_deal_proposal_parameters.content_deal_proposal`. Each is given as it is in the
store, `none` when the store has no such table or column; a query that names a missing
one returns an error, which the handler does not read, and its slice stays empty. -/
structure StoreExtras where
  content_miner : Option (List ContentMiner) := none
  piece_commitment_content_deal : Option (PieceCommitment → Int) := none
  parameters_content_deal_proposal : Option (ContentDealProposalParameters → Int) := none

/-- The body of `handleOpenStatsByMiner`. -/
structure MinerStats where
  content : List Content
  deals : List ContentDeal
  piece_commitments : List PieceCommitment
  deal_proposals : List ContentDealProposal
  deal_parameters : List ContentDealProposalParameters
deriving DecidableEq, Repr

/-- Go `handleOpenStatsByMiner` (api/open_stats.go 241-271). A query over several tables
gives one row for every combination of rows that satisfies its condition. -/
def handleOpenStatsByMiner (node : DeltaNode) (extras : StoreExtras) (minerId : String) :
    StatsResult MinerStats :=
  let content : List Content :=
    match extras.content_miner with
    | none => []
    | some content_miner =>
      node.DB.contents.flatMap (fun c =>
        (content_miner.filter (fun cma => c.ID = cma.Content ∧ cma.Miner = minerId)).map
          (fun _ => c))
  let content := content.map (fun c => { c with RequestingApiKey := "" })
  let contentDeal : List ContentDeal :=
    node.DB.content_deals.flatMap (fun cd =>
      (node.DB.content_miners.filter
        (fun cma => cd.Content = cma.Content ∧ cma.Miner = minerId)).map (fun _ => cd))
  let pieceCommitments : List PieceCommitment :=
    match extras.piece_commitment_content_deal with
    | none => []
    | some content_deal =>
      node.DB.piece_commitments.flatMap (fun pc =>
        node.DB.content_deals.flatMap (fun cd =>
          (node.DB.content_miners.filter (fun cma =>
            content_deal pc = cd.ID ∧ cd.Content = cma.Content ∧ cma.Miner = minerId)).map
            (fun _ => pc)))
  let contentDealProposal : List ContentDealProposal :=
    node.DB.content_deal_proposals.flatMap (fun cdp =>
      node.DB.content_deals.flatMap (fun cd =>
        (node.DB.content_miners.filter (fun cma =>
          cdp.Content = cd.Content ∧ cd.Content = cma.Content ∧ cma.Miner = minerId)).map
          (fun _ => cdp)))
  let contentDealProposalParameters : List ContentDealProposalParameters :=
    match extras.parameters_content_deal_proposal with
    | none => []
    | some content_deal_proposal =>
      node.DB.content_deal_proposal_parameters.flatMap (fun cdp =>
        node.DB.content_deal_proposals.flatMap (fun cdp2 =>
          node.DB.content_deals.flatMap (fun cd =>
            (node.DB.content_miners.filter (fun cma =>
              content_deal_proposal cdp = cdp2.ID ∧ cdp2.Content = cd.Content ∧
              cd.Content = cma.Content ∧ cma.Miner = minerId)).map (fun _ => cdp))))
  { code := 200
    body := { content := content, deals := contentDeal, piece_commitments := pieceCommitments
              deal_proposals := contentDealProposal
              deal_parameters := contentDealProposalParameters } }

/-- One element of the body of the per-content handlers: the keys `content`, `deals`,
`piece_commitments`, `deal_proposals` and `deal_proposal_parameters`. -/
structure ContentStats where
  content : Content
  deals : List ContentDeal
  piece_commitments : List PieceCommitment
  deal_proposals : List ContentDealProposal
  deal_proposal_parameters : List ContentDealProposalParameters
deriving DecidableEq, Repr

/-- The queries and the status check that the four per-content handlers run for one
content id (api/open_stats.go 368-398 and its copies): the element of the response and
the dispatchers created. -/
def contentStats (node : DeltaNode) (contentId : Int) : ContentStats × List Dispatcher :=
  let content := scanContent (node.DB.contents.filter (fun c => c.ID = contentId))
  let content := { content with RequestingApiKey := "" }
  let contentDeal : List ContentDeal :=
    node.DB.content_deals.flatMap (fun cd =>
      (node.DB.contents.filter (fun c => cd.Content = c.ID ∧ c.ID = contentId)).map
        (fun _ => cd))
  let pieceCommitments : List PieceCommitment :=
    node.DB.piece_commitments.flatMap (fun pc =>
      (node.DB.contents.filter
        (fun c => c.PieceCommitmentId = pc.ID ∧ c.ID = contentId)).map (fun _ => pc))
  let contentDealProposal : List ContentDealProposal :=
    node.DB.content_deal_proposals.flatMap (fun cdp =>
      (node.DB.contents.filter (fun c => cdp.Content = c.ID ∧ c.ID = contentId)).map
        (fun _ => cdp))
  let contentDealProposalParameters : List ContentDealProposalParameters :=
    node.DB.content_deal_proposal_parameters.flatMap (fun cdp =>
      (node.DB.contents.filter (fun c => cdp.Content = c.ID ∧ c.ID = contentId)).map
        (fun _ => cdp))
  ({ content := content, deals := contentDeal, piece_commitments := pieceCommitments
     deal_proposals := contentDealProposal
     deal_proposal_parameters := contentDealProposalParameters },
   dealStatusCheckAsync content)

/-- The loop `for _, contentId := range contentIds` of the three list handlers. -/
def contentStatsLoop (node : DeltaNode) (contentIds : List Int) :
    StatsResult (List ContentStats) :=
  { code := 200
    body := contentIds.map (fun contentId => (contentStats node contentId).1)
    dispatchers := contentIds.flatMap (fun contentId => (contentStats node contentId).2) }

/-- Go `handleOpenGetStatsByContent` (api/open_stats.go 490-521). The path parameter is
compared with the integer column `id`; the model takes it as the integer it denotes. -/
def handleOpenGetStatsByContent (node : DeltaNode) (contentId : Int) :
    StatsResult ContentStats :=
  { code := 200
    body := (contentStats node contentId).1
    dispatchers := (contentStats node contentId).2 }

/-- Go `handleOpenGetStatsByContents` (api/open_stats.go 446-487); `contentIds` is the
array bound from the body. -/
def handleOpenGetStatsByContents (node : DeltaNode) (contentIds : List Int) :
    StatsResult (List ContentStats) :=
  contentStatsLoop node contentIds

/-- Go `handleOpenGetStatsByAllContents` (api/open_stats.go 402-443). -/
def handleOpenGetStatsByAllContents (node : DeltaNode) : StatsResult (List ContentStats) :=
  contentStatsLoop node (node.DB.contents.map Content.ID)

/-- Go `handleOpenGetStatsByAllContentsFromBatch` (api/open_stats.go 358-400). -/
def handleOpenGetStatsByAllContentsFromBatch (node : DeltaNode) (batchId : Int) :
    StatsResult (List ContentStats) :=
  contentStatsLoop node
    ((node.DB.batch_import_contents.filter (fun b => b.BatchImportID = batchId)).map
      BatchImportContent.ContentID)

/-- Go `strconv.Atoi` (standard library) on a platform whose `int` has 64 bits: an
optional sign followed by one or more decimal digits, the value being in the range of
an `int64`; `none` stands for an error (empty text, a character that is not a digit,
a value out of range). -/
def Atoi (s : String) : Option Int :=
  let cs := s.toList
  let neg := cs.head? = some '-'
  let ds := if cs.head? = some '-' ∨ cs.head? = some '+' then cs.tail else cs
  if ds = [] ∨ ¬ ds.all Char.isDigit then none
  else
    let n : Int := ds.foldl (fun a c => a * 10 + ((c.toNat : Int) - 48)) 0
    let v : Int := if neg then -n else n
    if -9223372036854775808 ≤ v ∧ v ≤ 9223372036854775807 then some v else none

/-- The body of `handleOpenGetDealsWithPaging`. -/
structure DealsPage where
  page : Int
  total : Int
  deals : List ContentDeal
deriving DecidableEq, Repr

/-- The block that reads a paging parameter (api/open_stats.go 105-108, 115-118):
`n, err := strconv.Atoi(param); if err != nil || n < 1 { n = fallback }`. -/
def pagingParam (param : String) (fallback : Int) : Int :=
  match Atoi param with
  | none => fallback
  | some n => if n < 1 then fallback else n

/-- SQL `MAX` over the ids of a group (a group has at least one row). -/
def maxID : List Int → Int
  | [] => 0
  | id :: ids => ids.foldl max id

/-- The subquery `SELECT MAX(id) AS max_id, content FROM content_deals GROUP BY content`:
one row `(max_id, content)` for every content that has a deal. -/
def latestDealSubQuery (content_deals : List ContentDeal) : List (Int × Int) :=
  (content_deals.map ContentDeal.Content).dedup.map (fun content =>
    (maxID ((content_deals.filter (fun d => d.Content = content)).map ContentDeal.ID),
     content))

/-- Go `handleOpenGetDealsWithPaging` (api/open_stats.go 102-146): `pageParam` and
`pageSizeParam` are the texts of the query parameters `page` and `page_size` (empty
when the parameter is missing). The join gives one row for every pair of a deal and a
row of the subquery with `c1.id = c2.max_id`; `ORDER BY c1.id DESC` sorts them. The
product `(page - 1) * pageSize` is that of Go `int`; gorm writes the `OFFSET` clause
only for a positive offset. The queries are taken to succeed. -/
def handleOpenGetDealsWithPaging (node : DeltaNode) (pageParam pageSizeParam : String) :
    StatsResult DealsPage :=
  let page : Int := pagingParam pageParam 1
  let total : Int := node.DB.content_deals.length
  let pageSize : Int := pagingParam pageSizeParam 10
  let subQuery := latestDealSubQuery node.DB.content_deals
  let joined : List ContentDeal :=
    subQuery.flatMap (fun c2 => node.DB.content_deals.filter (fun c1 => c1.ID = c2.1))
  let ordered := joined.insertionSort (fun a b => b.ID ≤ a.ID)
  let offset : Int := wrap64 ((page - 1) * pageSize)
  let deals := (ordered.drop offset.toNat).take pageSize.toNat
  { code := 200, body := { page := page, total := total, deals := deals } }

/-- A Content row with its `requesting_api_key` blanked. -/
def Content.withoutApiKey (c : Content) : Content := { c with RequestingApiKey := "" }

/-- The store as the comparison of C30 sees it: every table as it is, except that the
`requesting_api_key` of every Content row is blanked. Two stores differ at most in the
`requesting_api_key` of their Content rows when they agree after this. -/
def DB.withoutApiKeys (db : DB) : DB :=
  { db with contents := db.contents.map Content.withoutApiKey }

/-! ## Inputs of the examples -/

/-- Validation settings with the largest replication factor the handlers allow. -/
def exampleConfig : Config := { MaxReplicationFactor := 6 }

/-- An import request whose piece commitment names a piece but no piece size, with a
negative `size`. -/
def importRequestWithoutSizes : DealRequest :=
  { Cid := "bafy", ConnectionMode := "import", Size := -1,
    PieceCommitment := { Piece := "baga", PaddedPieceSize := 0, UnPaddedPieceSize := 0 } }

/-- The import request of the happy path of the spec, scaled down. -/
def importRequestComplete : DealRequest :=
  { Cid := "bafy", ConnectionMode := "import", Size := 100, Miner := "f0123",
    PieceCommitment := { Piece := "baga", PaddedPieceSize := 128, UnPaddedPieceSize := 127 } }

/-- A request that sets `start_epoch_in_days` to a negative number and leaves
`duration_in_days` out. -/
def requestNegativeStart : DealRequest :=
  { ConnectionMode := "e2e", StartEpochInDays := -3 }

/-- A request with both day fields set. -/
def requestWithDays : DealRequest :=
  { ConnectionMode := "e2e", StartEpochInDays := 7, DurationInDays := 180 }

/-- An import request with a negative replication count. -/
def importRequestNegativeReplication : DealRequest :=
  { ConnectionMode := "import", Replication := -1 }

/-- An end-to-end request that asks for three replicas. -/
def requestThreeReplicas : DealRequest :=
  { ConnectionMode := "e2e", Replication := 3 }

/-- An unverified request with the given price text. -/
def unverifiedRequest (price : String) : DealRequest :=
  { ConnectionMode := "e2e", DealVerifyState := "unverified", UnverifiedDealMaxPrice := price }

/-- A request that gives a price without declaring the deal unverified. -/
def verifiedRequestWithPrice : DealRequest :=
  { ConnectionMode := "e2e", DealVerifyState := "verified", UnverifiedDealMaxPrice := "0.1" }

/-- A node with an empty store whose collaborators always succeed, for examples. -/
def exampleNode : DeltaNode :=
  { Config := { MaxReplicationFactor := 6 }
    GetSPWithGivenBytes := fun n _ => .ok ("f0" ++ toString (1000 + n))
    FileOpens := fun _ => true
    AddPinFile := fun f => some ("bafy-" ++ f.Filename)
    AnnounceAddrs := ["/ip4/127.0.0.1/tcp/6745", "/ip4/10.0.0.1/tcp/6745"]
    HostID := "12D3KooW"
    NewMultiaddr := fun s => some s
    MarshalTransferParameters := fun t => "url=" ++ t.URL
    Now := 0
    AddDate := fun t d => t + 86400 * d
    DateToHeight := fun t => t / 30
    DEFAULT_DURATION := 1494720 }

/-- The example node with one wallet registered under the key `key`. -/
def nodeWithWallet : DeltaNode :=
  { exampleNode with
    DB := { wallets := [{ ID := 1, Uuid := "u-1", Addr := "f3abc", Owner := "key" }] } }

/-- The example node with a miner assignment service that finds no provider. -/
def nodeWithoutProviders : DeltaNode :=
  { exampleNode with
    GetSPWithGivenBytes := fun _ _ => .error "no storage provider available" }

/-- An import request whose piece commitment gives the unpadded piece size only. -/
def importRequestUnpaddedOnly : DealRequest :=
  { Cid := "bafy", Size := 100, Miner := "f0123",
    PieceCommitment := { Piece := "baga", PaddedPieceSize := 0, UnPaddedPieceSize := 127 } }

/-- The complete import request with the given wallet reference. -/
def importRequestWithWallet (wallet : WalletRequest) : DealRequest :=
  { importRequestComplete with Wallet := wallet }

/-- The complete import request with the given day fields. -/
def importRequestWithDays (start duration : Int) : DealRequest :=
  { importRequestComplete with StartEpochInDays := start, DurationInDays := duration }

/-- An uploaded file of two million bytes. -/
def exampleFile : FileHeader := { Filename := "a.car", Size := 2000000 }

/-- An end-to-end request that names its miner and asks for one replica. -/
def requestOneReplica : DealRequest :=
  { Miner := "f0123", Replication := 1 }

/-- The example node with the kill switch of its instance row set. -/
def nodeRequestsDisabled : DeltaNode :=
  { exampleNode with DB := { instance_metas := [{ ID := 1, DisableRequest := true }] } }

/-- The example node with its instance row as initialised at startup. -/
def nodeRequestsEnabled : DeltaNode :=
  { exampleNode with DB := { instance_metas := [{ ID := 1, DisableRequest := false }] } }

/-- An end-to-end request that declares the deal verified. -/
def verifiedRequest : DealRequest := { DealVerifyState := "verified" }

/-- An uploaded file one byte short of a million bytes. -/
def smallFile : FileHeader := { Filename := "s.car", Size := 999999 }

/-- An uploaded file of exactly a million bytes. -/
def millionByteFile : FileHeader := { Filename := "m.car", Size := 1000000 }

/-- A verified request that names the import mode, as sent to the end-to-end endpoint. -/
def verifiedImportModeRequest : DealRequest :=
  { DealVerifyState := "verified", ConnectionMode := "import" }

/-- The complete import request with a connection mode that is none of the three the
spec names. -/
def unknownModeRequest : DealRequest :=
  { importRequestComplete with ConnectionMode := "http" }

/-- The complete import request with a wallet address nobody registered. -/
def requestUnknownWallet : DealRequest :=
  importRequestWithWallet { Address := "f3-does-not-exist" }

/-- A verified end-to-end request with a wallet address nobody registered. -/
def verifiedRequestUnknownWallet : DealRequest :=
  { verifiedRequest with Wallet := { Address := "f3-does-not-exist" } }

/-- An end-to-end request that leaves the miner to the node and asks for two replicas. -/
def requestTwoReplicas : DealRequest := { Replication := 2 }

/-- The example node with a miner assignment service that finds a provider twice and
then no more. -/
def nodeProvidersRunOut : DeltaNode :=
  { exampleNode with
    GetSPWithGivenBytes := fun n _ =>
      if n < 2 then .ok ("f0" ++ toString (1000 + n)) else .error "no storage provider available" }

/-- The complete import request with a padded piece size that is no power of two and is
smaller than the unpadded piece size. -/
def importRequestOddSizes : DealRequest :=
  { importRequestComplete with
    PieceCommitment := { Piece := "baga", PaddedPieceSize := 100, UnPaddedPieceSize := 127 } }

/-- The example node with a second announce address that has no IP (the lookup of the
public address came back empty), so that it does not parse as a multiaddr. -/
def nodeBadAnnounce : DeltaNode :=
  { exampleNode with
    AnnounceAddrs := ["/ip4/127.0.0.1/tcp/6745", "/ip4//tcp/6745"]
    NewMultiaddr := fun s => if s = "/ip4//tcp/6745/p2p/12D3KooW" then none else some s }

/-- An end-to-end request that brings a transfer URL of its own. -/
def requestWithTransferURL : DealRequest :=
  { ConnectionMode := "e2e", TransferParameters := { URL := "http://example.org/a.car" } }

/-- An end-to-end request that says nothing of the verify state. -/
def requestNoVerifyState : DealRequest := { Miner := "f0123" }

/-- An end-to-end request with a verify state that is neither of the two the spec names. -/
def requestOtherVerifyState : DealRequest := { Miner := "f0123", DealVerifyState := "maybe" }

/-- An end-to-end request with the registered wallet that asks for two replicas. -/
def requestWalletTwoReplicas : DealRequest :=
  { Wallet := { Address := "f3abc" }, Replication := 2 }

/-- An import request that fails validation: its duration is longer than 540 days. -/
def importRequestTooLong : DealRequest :=
  importRequestWithDays 7 600

/-- Primitives that decode every CID text to itself and compute a piece commitment. -/
def examplePrimitives : CommpPrimitives :=
  { CidDecode := fun s => some s
    GeneratePieceCommitment := fun _ c => .ok ("baga-" ++ c, 2000000, 2080768) }

/-- Primitives whose CommP computation fails on every call. -/
def failingPrimitives : CommpPrimitives :=
  { CidDecode := fun s => some s
    GeneratePieceCommitment := fun _ _ => .error "commp failed" }

/-- The Content row of an end-to-end upload, as stored after pinning. -/
def pinnedContent : Content :=
  { ID := 1, Name := "a.car", Size := 2000000, Cid := "bafy-a.car",
    RequestingApiKey := "key", Status := CONTENT_PINNED, ConnectionMode := "e2e" }

/-- The example node whose store holds the pinned content. -/
def nodeWithPinnedContent : DeltaNode :=
  { exampleNode with DB := { contents := [pinnedContent] } }

/-- The Content row of a sealed deal, with its piece commitment. -/
def sealedContent : Content :=
  { pinnedContent with Status := "sealed", PieceCommitmentId := 1 }

/-- The example node whose store holds the sealed content and its piece commitment. -/
def nodeWithSealedContent : DeltaNode :=
  { exampleNode with
    DB := { contents := [sealedContent]
            piece_commitments :=
              [{ ID := 1, Cid := "bafy-a.car", Piece := "baga-bafy-a.car", Size := 2000000,
                 PaddedPieceSize := 2080768, Status := "open" }] } }

/-- A deal of the pinned content. -/
def exampleDeal : ContentDeal :=
  { ID := 1, Content := 1, DealUUID := "uuid-1", DealID := 77, Miner := "f0123" }

/-- The example node whose store holds the pinned content and a deal of it. -/
def nodeWithPinnedContentAndDeal : DeltaNode :=
  { exampleNode with DB := { contents := [pinnedContent], content_deals := [exampleDeal] } }

/-- The example node whose store holds the content, in the status `transfer-started`,
and a deal of it. -/
def nodeWithTransferStarted : DeltaNode :=
  { exampleNode with
    DB := { contents := [{ pinnedContent with Status := DEAL_STATUS_TRANSFER_STARTED }]
            content_deals := [exampleDeal] } }

/-- The node of `nodeWithTransferStarted` with another key on the content row. -/
def nodeWithOtherApiKey : DeltaNode :=
  { exampleNode with
    DB := { contents := [{ pinnedContent with Status := DEAL_STATUS_TRANSFER_STARTED,
                                              RequestingApiKey := "other-key" }]
            content_deals := [exampleDeal] } }

/-- The text of the page number 2 ^ 62 + 1. -/
def hugePage : String := "4611686018427387905"

/-- The example node with three deals, two of them of the content 1. -/
def nodeWithThreeDeals : DeltaNode :=
  { exampleNode with
    DB := { contents := [pinnedContent]
            content_deals :=
              [exampleDeal,
               { ID := 2, Content := 2, DealUUID := "uuid-2", DealID := 78, Miner := "f0123" },
               { ID := 3, Content := 1, DealUUID := "uuid-3", DealID := 79, Miner := "f0456" }] } }

/-! ## Properties -/

/-! ## Validation: what an accepted request satisfies -/

theorem float64Overflow_eq : float64Overflow = 2 ^ 1024 - 2 ^ 970 := by
  norm_num [float64Overflow]

theorem ite_error_eq_ok {c : Prop} [Decidable c] {e : String} {x : Except String Unit} :
    (if c then (Except.error e) else x) = Except.ok () ↔ ¬ c ∧ x = Except.ok () := by
  by_cases hc : c <;> simp [hc]

theorem withVerifyStateDefault_ne (r : DealRequest) :
    ({} : DealRequest) ≠ withVerifyStateDefault r := by
  intro h
  have h2 := congrArg DealRequest.DealVerifyState h
  unfold withVerifyStateDefault at h2
  split at h2
  · exact absurd (show "" = DEAL_UNVERIFIED from h2) (by decide)
  · exact absurd (show "" = DEAL_VERIFIED from h2) (by decide)

theorem withVerifyStateDefault_fields (r : DealRequest) :
    (withVerifyStateDefault r).ConnectionMode = r.ConnectionMode ∧
    (withVerifyStateDefault r).TransferParameters = r.TransferParameters ∧
    (withVerifyStateDefault r).PieceCommitment = r.PieceCommitment ∧
    (withVerifyStateDefault r).Size = r.Size ∧
    (withVerifyStateDefault r).Wallet = r.Wallet := by
  unfold withVerifyStateDefault
  split <;> simp

theorem withConnectionModeDefault_ok {r r2 : DealRequest} (hne : ({} : DealRequest) ≠ r)
    (h : withConnectionModeDefault r = .ok r2) :
    (r.ConnectionMode = "" ∨ r.ConnectionMode = CONNECTION_MODE_E2E ∨
      r.ConnectionMode = CONNECTION_MODE_IMPORT) ∧
    r2.ConnectionMode = (if r.ConnectionMode = "" then CONNECTION_MODE_E2E else r.ConnectionMode) ∧
    r2.TransferParameters = r.TransferParameters ∧
    r2.PieceCommitment = r.PieceCommitment ∧
    r2.Size = r.Size ∧
    r2.Wallet = r.Wallet := by
  unfold withConnectionModeDefault at h
  rw [if_pos hne] at h
  split_ifs at h with h1 h2 h3
  · cases h; simp [h1]
  · cases h; exact ⟨Or.inr (Or.inl h2), (if_neg h1).symm, rfl, rfl, rfl, rfl⟩
  · cases h; exact ⟨Or.inr (Or.inr h3), (if_neg h1).symm, rfl, rfl, rfl, rfl⟩

theorem validateReferences_ok {r : DealRequest} (h : validateReferences r = .ok ()) :
    (r.ConnectionMode = CONNECTION_MODE_E2E → r.TransferParameters.URL = "") ∧
    (r.PieceCommitment ≠ {} → r.PieceCommitment.Piece ≠ "" ∧ r.Size ≠ 0) ∧
    (r.Wallet ≠ {} → r.Wallet.Address ≠ "") := by
  unfold validateReferences at h
  simp only [ite_error_eq_ok] at h
  obtain ⟨h1, h2, -, h4, h5, -⟩ := h
  refine ⟨fun hm => ?_, fun hp => ⟨fun hq => h2 ⟨fun e => hp e.symm, hq⟩,
    fun hs => h4 ⟨fun e => hp e.symm, hs⟩⟩, fun hw ha => h5 ⟨fun e => hw e.symm, ha⟩⟩
  by_contra hu
  exact h1 ⟨hm, hu⟩

/-- What `ValidateMeta` has checked of a request it accepts. -/
theorem ValidateMeta_ok {dealRequest : DealRequest} {config : Config}
    (h : ValidateMeta dealRequest config = .ok ()) :
    dealRequest ≠ {} ∧
    (dealRequest.UnverifiedDealMaxPrice ≠ "" → dealRequest.DealVerifyState = DEAL_UNVERIFIED) ∧
    (dealRequest.DealVerifyState = DEAL_UNVERIFIED → dealRequest.UnverifiedDealMaxPrice ≠ "") ∧
    (dealRequest.UnverifiedDealMaxPrice ≠ "" → ParseFloat dealRequest.UnverifiedDealMaxPrice = true) ∧
    (dealRequest.ConnectionMode = CONNECTION_MODE_IMPORT → dealRequest.Replication ≤ 0) ∧
    (0 < dealRequest.DurationInDays → dealRequest.StartEpochInDays ≠ 0) ∧
    dealRequest.Replication ≤ config.MaxReplicationFactor ∧
    (0 < dealRequest.StartEpochInDays → dealRequest.DurationInDays ≠ 0) ∧
    dealRequest.StartEpochInDays ≤ 14 ∧
    dealRequest.DurationInDays ≤ 540 ∧
    dealRequest.StartEpochInDays ≤ dealRequest.DurationInDays ∧
    dealRequest.Replication ≤ 6 ∧
    dealRequest.Label.utf8ByteSize ≤ 100 ∧
    (dealRequest.ConnectionMode = "" ∨ dealRequest.ConnectionMode = CONNECTION_MODE_E2E ∨
      dealRequest.ConnectionMode = CONNECTION_MODE_IMPORT) ∧
    (dealRequest.ConnectionMode ≠ CONNECTION_MODE_IMPORT → dealRequest.TransferParameters.URL = "") ∧
    (dealRequest.PieceCommitment ≠ {} →
      dealRequest.PieceCommitment.Piece ≠ "" ∧ dealRequest.Size ≠ 0) ∧
    (dealRequest.Wallet ≠ {} → dealRequest.Wallet.Address ≠ "") := by
  unfold ValidateMeta at h
  simp only [ite_error_eq_ok] at h
  obtain ⟨h0, h1, h2, h3, h4, h5, h6, h7, h8, h9, h10, h11, h12, ht⟩ := h
  have hne : ({} : DealRequest) ≠ dealRequest := h0
  simp only [hne, ne_eq, not_false_eq_true, true_and, not_and, Decidable.not_not, gt_iff_lt,
    not_lt] at h1 h2 h3 h4 h5 h6 h7 h8 h9 h10 h11 h12
  obtain ⟨f1, f2, f3, f4, f5⟩ := withVerifyStateDefault_fields dealRequest
  cases hm : withConnectionModeDefault (withVerifyStateDefault dealRequest) with
  | error e => rw [hm] at ht; simp at ht
  | ok r2 =>
    rw [hm] at ht
    obtain ⟨m1, m2, m3, m4, m5, m6⟩ :=
      withConnectionModeDefault_ok (withVerifyStateDefault_ne dealRequest) hm
    obtain ⟨v1, v2, v3⟩ := validateReferences_ok ht
    rw [f1] at m1 m2
    rw [m3, f2] at v1
    rw [m4, f3, m5, f4] at v2
    rw [m6, f5] at v3
    refine ⟨fun e => h0 e.symm, h1, h2, ?_, ?_, ?_, h6, ?_, h8, h9, h10, h11, h12, m1, ?_, v2, v3⟩
    · intro hp
      have := h3 hp
      simpa using this
    · intro hi
      by_contra hr
      exact absurd hi (h4 (not_le.mp hr))
    · intro hd hs
      exact absurd hs (h5 hd)
    · intro hs hd
      exact absurd hd (h7 hs)
    · intro hi
      apply v1
      rw [m2]
      rcases m1 with m | m | m
      · simp [m]
      · simp [m]
      · exact absurd m hi

/-! ## C2: what validation guarantees of an import piece commitment -/

/-- C2, counterexample: `ValidateMeta` and `ValidatePieceCommitmentMeta` both accept an import
request whose piece commitment has `padded_piece_size = 0` and
`unpadded_piece_size = 0` and whose `size` is `-1`; neither "one of the piece sizes is
positive" nor "size > 0" holds of it. -/
theorem validation_accepts_import_without_sizes :
    ValidateMeta importRequestWithoutSizes exampleConfig = .ok () ∧
    ValidatePieceCommitmentMeta importRequestWithoutSizes.PieceCommitment = .ok () ∧
    importRequestWithoutSizes.ConnectionMode = CONNECTION_MODE_IMPORT ∧
    ¬ (0 < importRequestWithoutSizes.PieceCommitment.PaddedPieceSize ∨
        0 < importRequestWithoutSizes.PieceCommitment.UnPaddedPieceSize) ∧
    ¬ (0 < importRequestWithoutSizes.Size) :=
  ⟨rfl, rfl, rfl, by decide, by decide⟩

/-- A request both validations accept has a piece commitment with a piece, and a size. -/
theorem piece_commitment_of_accepted {dealRequest : DealRequest} {config : Config}
    (hv : ValidateMeta dealRequest config = .ok ())
    (hp : ValidatePieceCommitmentMeta dealRequest.PieceCommitment = .ok ()) :
    dealRequest.PieceCommitment ≠ {} ∧ dealRequest.PieceCommitment.Piece ≠ "" ∧
      dealRequest.Size ≠ 0 := by
  have hne : dealRequest.PieceCommitment ≠ {} := by
    intro he
    unfold ValidatePieceCommitmentMeta at hp
    rw [if_pos he.symm] at hp
    cases hp
  have h := (ValidateMeta_ok hv).2.2.2.2.2.2.2.2.2.2.2.2.2.2.2.1 hne
  exact ⟨hne, h.1, h.2⟩

/-- C2, amended: every request that `ValidateMeta` and `ValidatePieceCommitmentMeta`
both accept (import mode included) has a non-empty piece commitment with `piece ≠ ""`,
and `size ≠ 0`. -/
theorem validation_import_piece_commitment (dealRequest : DealRequest) (config : Config)
    (hv : ValidateMeta dealRequest config = .ok ())
    (hp : ValidatePieceCommitmentMeta dealRequest.PieceCommitment = .ok ()) :
    dealRequest.PieceCommitment ≠ {} ∧ dealRequest.PieceCommitment.Piece ≠ "" ∧
      dealRequest.Size ≠ 0 := by
  obtain ⟨-, -, -, -, -, -, -, -, -, -, -, -, -, -, -, hpc, -⟩ := ValidateMeta_ok hv
  have hne : dealRequest.PieceCommitment ≠ {} := by
    intro he
    unfold ValidatePieceCommitmentMeta at hp
    rw [if_pos he.symm] at hp
    cases hp
  exact ⟨hne, (hpc hne).1, (hpc hne).2⟩

/-- C2, amended, at the import request of the happy path. -/
theorem validation_import_piece_commitment_witness :
    importRequestComplete.PieceCommitment ≠ {} ∧
      importRequestComplete.PieceCommitment.Piece ≠ "" ∧ importRequestComplete.Size ≠ 0 :=
  validation_import_piece_commitment importRequestComplete exampleConfig rfl rfl

/-! ## C6: the day fields of an accepted request -/

/-- C6, counterexample: `ValidateMeta` accepts `start_epoch_in_days = -3` together with
`duration_in_days = 0`, so the two fields are neither both zero nor both non-zero. -/
theorem validation_accepts_negative_start_alone :
    ValidateMeta requestNegativeStart exampleConfig = .ok () ∧
    ¬ ((requestNegativeStart.StartEpochInDays = 0 ∧ requestNegativeStart.DurationInDays = 0) ∨
       (requestNegativeStart.StartEpochInDays ≠ 0 ∧ requestNegativeStart.DurationInDays ≠ 0)) :=
  ⟨rfl, by decide⟩

/-- C6, amended: for every request `ValidateMeta` accepts, `start_epoch_in_days ≤ 14`,
`duration_in_days ≤ 540`, `start_epoch_in_days ≤ duration_in_days`, and, when
`start_epoch_in_days` is not negative, the two fields are both zero or both non-zero. -/
theorem validation_day_fields (dealRequest : DealRequest) (config : Config)
    (hv : ValidateMeta dealRequest config = .ok ()) :
    dealRequest.StartEpochInDays ≤ 14 ∧ dealRequest.DurationInDays ≤ 540 ∧
    dealRequest.StartEpochInDays ≤ dealRequest.DurationInDays ∧
    (0 ≤ dealRequest.StartEpochInDays →
      (dealRequest.StartEpochInDays = 0 ∧ dealRequest.DurationInDays = 0) ∨
      (dealRequest.StartEpochInDays ≠ 0 ∧ dealRequest.DurationInDays ≠ 0)) := by
  obtain ⟨-, -, -, -, -, h5, -, h7, h8, h9, h10, -⟩ := ValidateMeta_ok hv
  refine ⟨h8, h9, h10, fun h0 => ?_⟩
  by_cases hs : dealRequest.StartEpochInDays = 0
  · left
    refine ⟨hs, ?_⟩
    by_contra hd
    have hpos : 0 < dealRequest.DurationInDays := by omega
    exact h5 hpos hs
  · right
    exact ⟨hs, h7 (by omega)⟩

/-- C6, amended, at a request with `start_epoch_in_days = 7`, `duration_in_days = 180`. -/
theorem validation_day_fields_witness :
    requestWithDays.StartEpochInDays ≤ 14 ∧ requestWithDays.DurationInDays ≤ 540 ∧
    requestWithDays.StartEpochInDays ≤ requestWithDays.DurationInDays ∧
    (0 ≤ requestWithDays.StartEpochInDays →
      (requestWithDays.StartEpochInDays = 0 ∧ requestWithDays.DurationInDays = 0) ∨
      (requestWithDays.StartEpochInDays ≠ 0 ∧ requestWithDays.DurationInDays ≠ 0)) :=
  validation_day_fields requestWithDays exampleConfig rfl

/-! ## C7: the replication count of an accepted request -/

/-- C7, counterexample: `ValidateMeta` accepts an import request with
`replication = -1`: the count is negative, and it is not zero in import mode. -/
theorem validation_accepts_negative_replication :
    ValidateMeta importRequestNegativeReplication exampleConfig = .ok () ∧
    importRequestNegativeReplication.ConnectionMode = CONNECTION_MODE_IMPORT ∧
    ¬ (0 ≤ importRequestNegativeReplication.Replication) ∧
    importRequestNegativeReplication.Replication ≠ 0 :=
  ⟨rfl, rfl, by decide, by decide⟩

/-- C7, amended: for every request `ValidateMeta` accepts,
`replication ≤ min(6, MaxReplicationFactor)`, and `replication ≤ 0` whenever the
connection mode is `import`. -/
theorem validation_replication (dealRequest : DealRequest) (config : Config)
    (hv : ValidateMeta dealRequest config = .ok ()) :
    dealRequest.Replication ≤ min 6 config.MaxReplicationFactor ∧
    (dealRequest.ConnectionMode = CONNECTION_MODE_IMPORT → dealRequest.Replication ≤ 0) := by
  obtain ⟨-, -, -, -, h4, -, h6, -, -, -, -, h11, -⟩ := ValidateMeta_ok hv
  exact ⟨le_min h11 h6, h4⟩

/-- C7, amended, at an end-to-end request with `replication = 3`. -/
theorem validation_replication_witness :
    requestThreeReplicas.Replication ≤ min 6 exampleConfig.MaxReplicationFactor ∧
    (requestThreeReplicas.ConnectionMode = CONNECTION_MODE_IMPORT →
      requestThreeReplicas.Replication ≤ 0) :=
  validation_replication requestThreeReplicas exampleConfig rfl

/-! ## C8: the price is present exactly for unverified deals -/

/-- C8: `ValidateMeta` rejects every non-empty request whose `unverified_deal_max_price` is
non-empty while `deal_verify_state` is not `unverified`, rejects every request whose
`deal_verify_state` is `unverified` while the price is empty, and so every request it
accepts has a price if and only if its `deal_verify_state` is `unverified`. -/
theorem validation_price_iff_unverified (dealRequest : DealRequest) (config : Config) :
    (dealRequest ≠ {} → dealRequest.UnverifiedDealMaxPrice ≠ "" →
      dealRequest.DealVerifyState ≠ DEAL_UNVERIFIED →
      ValidateMeta dealRequest config = .error "unverified_deal_max_price is only valid for unverified deals, make sure to pass deal_verify_state as unverified") ∧
    (dealRequest.DealVerifyState = DEAL_UNVERIFIED → dealRequest.UnverifiedDealMaxPrice = "" →
      ValidateMeta dealRequest config =
        .error "unverified_deal_max_price is required for unverified deals") ∧
    (ValidateMeta dealRequest config = .ok () →
      (dealRequest.UnverifiedDealMaxPrice ≠ "" ↔
        dealRequest.DealVerifyState = DEAL_UNVERIFIED)) := by
  refine ⟨fun hne hp hs => ?_, fun hs hp => ?_, fun hv => ?_⟩
  · have hne2 : ¬ (({} : DealRequest) = dealRequest) := fun e => hne e.symm
    unfold ValidateMeta
    rw [if_neg hne2, if_pos ⟨hne2, hp, hs⟩]
  · have hne2 : ¬ (({} : DealRequest) = dealRequest) := by
      intro e
      have h2 := congrArg DealRequest.DealVerifyState e
      rw [hs] at h2
      exact absurd (show "" = DEAL_UNVERIFIED from h2) (by decide)
    unfold ValidateMeta
    rw [if_neg hne2, if_neg (fun h => h.2.1 hp), if_pos ⟨hne2, hs, hp⟩]
  · obtain ⟨-, h1, h2, -⟩ := ValidateMeta_ok hv
    exact ⟨h1, h2⟩

/-- C8 at three requests: a price on a verified deal, an unverified deal without a
price, an unverified deal with a price. -/
theorem validation_price_iff_unverified_witness :
    ValidateMeta verifiedRequestWithPrice exampleConfig = .error "unverified_deal_max_price is only valid for unverified deals, make sure to pass deal_verify_state as unverified" ∧
    ValidateMeta (unverifiedRequest "") exampleConfig =
      .error "unverified_deal_max_price is required for unverified deals" ∧
    ((unverifiedRequest "0.1").UnverifiedDealMaxPrice ≠ "" ↔
      (unverifiedRequest "0.1").DealVerifyState = DEAL_UNVERIFIED) :=
  ⟨(validation_price_iff_unverified verifiedRequestWithPrice exampleConfig).1
      (by decide) (by decide) (by decide),
   (validation_price_iff_unverified (unverifiedRequest "") exampleConfig).2.1 rfl rfl,
   (validation_price_iff_unverified (unverifiedRequest "0.1") exampleConfig).2.2 rfl⟩

/-! ## C9: which prices validation lets through -/

/-- C9, counterexample: `ValidateMeta` accepts unverified requests whose price is
`"-1"`, `"NaN"` or `"Inf"`: `strconv.ParseFloat` parses each of them without error. -/
theorem validation_accepts_negative_and_special_prices :
    ValidateMeta (unverifiedRequest "-1") exampleConfig = .ok () ∧
    ValidateMeta (unverifiedRequest "NaN") exampleConfig = .ok () ∧
    ValidateMeta (unverifiedRequest "Inf") exampleConfig = .ok () :=
  ⟨rfl, rfl, rfl⟩

/-- C9, amended: for every request with `deal_verify_state = unverified`, if `ValidateMeta`
accepts it then the price is non-empty and `strconv.ParseFloat` parses it without
error, and if the price is non-empty and `strconv.ParseFloat` fails on it then
`ValidateMeta` rejects it with "unverified_deal_max_price is not a valid number". -/
theorem validation_price_parses (dealRequest : DealRequest) (config : Config)
    (hs : dealRequest.DealVerifyState = DEAL_UNVERIFIED) :
    (ValidateMeta dealRequest config = .ok () →
      dealRequest.UnverifiedDealMaxPrice ≠ "" ∧
        ParseFloat dealRequest.UnverifiedDealMaxPrice = true) ∧
    (dealRequest.UnverifiedDealMaxPrice ≠ "" →
      ParseFloat dealRequest.UnverifiedDealMaxPrice = false →
      ValidateMeta dealRequest config =
        .error "unverified_deal_max_price is not a valid number") := by
  refine ⟨fun hv => ?_, fun hp hf => ?_⟩
  · obtain ⟨-, -, h2, h3, -⟩ := ValidateMeta_ok hv
    exact ⟨h2 hs, h3 (h2 hs)⟩
  · have hne2 : ¬ (({} : DealRequest) = dealRequest) := by
      intro e
      have h2 := congrArg DealRequest.DealVerifyState e
      rw [hs] at h2
      exact absurd (show "" = DEAL_UNVERIFIED from h2) (by decide)
    unfold ValidateMeta
    rw [if_neg hne2, if_neg (fun h => h.2.2 hs), if_neg (fun h => hp h.2.2),
      if_pos ⟨hne2, hp, hf⟩]

/-- C9, amended, at the prices `"0.5"` (accepted) and `"abc"` (rejected). -/
theorem validation_price_parses_witness :
    ((unverifiedRequest "0.5").UnverifiedDealMaxPrice ≠ "" ∧
      ParseFloat (unverifiedRequest "0.5").UnverifiedDealMaxPrice = true) ∧
    ValidateMeta (unverifiedRequest "abc") exampleConfig =
      .error "unverified_deal_max_price is not a valid number" :=
  ⟨(validation_price_parses (unverifiedRequest "0.5") exampleConfig rfl).1 rfl,
   (validation_price_parses (unverifiedRequest "abc") exampleConfig rfl).2
      (by decide) (by decide)⟩

/-! ## The store: fresh keys, inserted rows -/

theorem le_foldl_max (ids : List Int) (a : Int) : a ≤ ids.foldl max a := by
  induction ids generalizing a with
  | nil => exact le_refl a
  | cons x xs ih => exact le_trans (le_max_left a x) (ih (max a x))

theorem nextID_pos (ids : List Int) : 0 < nextID ids := by
  have := le_foldl_max ids 0
  unfold nextID
  omega

theorem nextID_ne_zero (ids : List Int) : nextID ids ≠ 0 :=
  ne_of_gt (nextID_pos ids)

theorem inserted_append {α : Type} (table : DB → List α) (before after : DB) (rows : List α)
    (h : table after = table before ++ rows) : inserted table before after = rows := by
  unfold inserted
  rw [h, List.drop_left]

theorem Transaction_of_ok {ρ : Type} {node : DeltaNode} {wrap : String}
    {fc : DeltaNode → HandlerResult ρ}
    (h : (Transaction node wrap fc).err = none) : Transaction node wrap fc = fc node := by
  unfold Transaction at h ⊢
  cases he : (fc node).err with
  | none => simp [he]
  | some e => simp [he] at h

theorem Transaction_err {ρ : Type} {node : DeltaNode} {wrap : String}
    {fc : DeltaNode → HandlerResult ρ}
    (h : (fc node).err = none) : (Transaction node wrap fc).err = none := by
  unfold Transaction
  simp [h]

/-! ## The steps of a transaction, one by one -/

theorem createPieceCommitment_of_cond {cid : String} {size : Int} {status : String} {t t2 : Txn}
    (h2 : createPieceCommitment cid size status t = t2)
    (h : (({} : PieceCommitmentRequest) ≠ t.dealRequest.PieceCommitment ∧
        t.dealRequest.PieceCommitment.Piece ≠ "") ∧
      t.dealRequest.PieceCommitment.PaddedPieceSize ≠ 0 ∧ t.dealRequest.Size ≠ 0) :
    t2.node.DB.piece_commitments = t.node.DB.piece_commitments ++ [t2.pieceCommp] ∧
    t2.pieceCommp.ID ≠ 0 ∧ t2.pieceCommp.Status = status ∧ t2.pieceCommp.Cid = cid ∧
    t2.pieceCommp.Piece = t.dealRequest.PieceCommitment.Piece ∧
    t2.pieceCommp.PaddedPieceSize = t.dealRequest.PieceCommitment.PaddedPieceSize ∧
    t2.pieceCommp.UnPaddedPieceSize = t.dealRequest.PieceCommitment.UnPaddedPieceSize ∧
    t2.pieceCommp.Size = size := by
  subst h2
  simp [createPieceCommitment, h, DB.CreatePieceCommitment, nextID_ne_zero]

theorem createPieceCommitment_of_not_cond (cid : String) (size : Int) (status : String) (t : Txn)
    (h : ¬ ((({} : PieceCommitmentRequest) ≠ t.dealRequest.PieceCommitment ∧
        t.dealRequest.PieceCommitment.Piece ≠ "") ∧
      t.dealRequest.PieceCommitment.PaddedPieceSize ≠ 0 ∧ t.dealRequest.Size ≠ 0)) :
    createPieceCommitment cid size status t = t := by
  simp only [createPieceCommitment, if_neg h]

/-- What `createPieceCommitment` leaves alone. -/
theorem createPieceCommitment_frame {cid : String} {size : Int} {status : String} {t t2 : Txn}
    (h2 : createPieceCommitment cid size status t = t2) :
    t2.node.DB.contents = t.node.DB.contents ∧
    t2.node.DB.content_miners = t.node.DB.content_miners ∧
    t2.node.DB.content_wallets = t.node.DB.content_wallets ∧
    t2.node.DB.content_deal_proposal_parameters = t.node.DB.content_deal_proposal_parameters ∧
    t2.node.DB.wallets = t.node.DB.wallets ∧
    t2.node.Dispatcher = t.node.Dispatcher ∧
    t2.node.Config = t.node.Config ∧
    t2.dealRequest.StartEpochInDays = t.dealRequest.StartEpochInDays ∧
    t2.dealRequest.DurationInDays = t.dealRequest.DurationInDays ∧
    t2.dealRequest.Miner = t.dealRequest.Miner ∧
    t2.dealRequest.Wallet = t.dealRequest.Wallet ∧
    t2.dealRequest.Size = t.dealRequest.Size ∧
    t2.dealRequest.Cid = t.dealRequest.Cid ∧
    t2.dealRequest.Replication = t.dealRequest.Replication ∧
    t2.node.DateToHeight = t.node.DateToHeight ∧ t2.node.AddDate = t.node.AddDate ∧
    t2.node.Now = t.node.Now ∧ t2.node.DEFAULT_DURATION = t.node.DEFAULT_DURATION ∧
    t2.node.GetSPWithGivenBytes = t.node.GetSPWithGivenBytes ∧
    t2.node.MinerAssignmentCalls = t.node.MinerAssignmentCalls := by
  subst h2
  simp only [createPieceCommitment, DB.CreatePieceCommitment]
  split <;> simp

theorem createContent_spec {content : Content} {t t2 : Txn}
    (h2 : createContent content t = t2) :
    t2.node.DB.contents = t.node.DB.contents ++ [t2.content] ∧
    t2.content = { content with ID := nextID (t.node.DB.contents.map Content.ID) } ∧
    t2.node.DB.piece_commitments = t.node.DB.piece_commitments ∧
    t2.node.DB.content_miners = t.node.DB.content_miners ∧
    t2.node.DB.content_wallets = t.node.DB.content_wallets ∧
    t2.node.DB.content_deal_proposal_parameters = t.node.DB.content_deal_proposal_parameters ∧
    t2.node.DB.wallets = t.node.DB.wallets ∧
    t2.node.Dispatcher = t.node.Dispatcher ∧
    t2.pieceCommp = t.pieceCommp ∧
    t2.dealRequest.StartEpochInDays = t.dealRequest.StartEpochInDays ∧
    t2.dealRequest.DurationInDays = t.dealRequest.DurationInDays ∧
    t2.dealRequest.Miner = t.dealRequest.Miner ∧
    t2.dealRequest.Wallet = t.dealRequest.Wallet ∧
    t2.dealRequest.Size = t.dealRequest.Size ∧
    t2.dealRequest.Replication = t.dealRequest.Replication ∧
    t2.node.DateToHeight = t.node.DateToHeight ∧ t2.node.AddDate = t.node.AddDate ∧
    t2.node.Now = t.node.Now ∧ t2.node.DEFAULT_DURATION = t.node.DEFAULT_DURATION ∧
    t2.node.GetSPWithGivenBytes = t.node.GetSPWithGivenBytes ∧
    t2.node.MinerAssignmentCalls = t.node.MinerAssignmentCalls ∧
    t2.node.Config = t.node.Config := by
  subst h2
  simp [createContent, DB.CreateContent]

theorem assignMiner_frame (size : Int) (t t2 : Txn) (e : Option String)
    (h : assignMiner size t = (t2, e)) :
    t2.node.DB.piece_commitments = t.node.DB.piece_commitments ∧
    t2.node.DB.contents = t.node.DB.contents ∧
    t2.node.DB.content_wallets = t.node.DB.content_wallets ∧
    t2.node.DB.content_deal_proposal_parameters = t.node.DB.content_deal_proposal_parameters ∧
    t2.node.DB.wallets = t.node.DB.wallets ∧
    t2.node.Dispatcher = t.node.Dispatcher ∧
    t2.pieceCommp = t.pieceCommp ∧
    t2.content = t.content ∧
    t2.dealRequest.StartEpochInDays = t.dealRequest.StartEpochInDays ∧
    t2.dealRequest.DurationInDays = t.dealRequest.DurationInDays ∧
    t2.dealRequest.Wallet = t.dealRequest.Wallet ∧
    t2.dealRequest.Replication = t.dealRequest.Replication ∧
    t2.node.DateToHeight = t.node.DateToHeight ∧ t2.node.AddDate = t.node.AddDate ∧
    t2.node.Now = t.node.Now ∧ t2.node.DEFAULT_DURATION = t.node.DEFAULT_DURATION ∧
    t2.node.Config = t.node.Config := by
  unfold assignMiner at h
  by_cases hmi : t.dealRequest.Miner = ""
  · rw [if_pos hmi] at h
    simp only at h
    cases hp : t.node.GetSPWithGivenBytes t.node.MinerAssignmentCalls size with
    | error e => rw [hp] at h; simp only at h; cases h; simp
    | ok a => rw [hp] at h; simp only at h; split at h <;> (cases h; simp [DB.CreateContentMiner])
  · rw [if_neg hmi] at h; simp only at h; cases h; simp [DB.CreateContentMiner]

theorem assignWallet_frame (apiKey : String) (t t2 : Txn) (e : Option String)
    (h : assignWallet apiKey t = (t2, e)) :
    t2.node.DB.piece_commitments = t.node.DB.piece_commitments ∧
    t2.node.DB.contents = t.node.DB.contents ∧
    t2.node.DB.content_miners = t.node.DB.content_miners ∧
    t2.node.DB.content_deal_proposal_parameters = t.node.DB.content_deal_proposal_parameters ∧
    t2.node.DB.wallets = t.node.DB.wallets ∧
    t2.node.Dispatcher = t.node.Dispatcher ∧
    t2.pieceCommp = t.pieceCommp ∧
    t2.content = t.content ∧
    t2.dealRequest.StartEpochInDays = t.dealRequest.StartEpochInDays ∧
    t2.dealRequest.DurationInDays = t.dealRequest.DurationInDays ∧
    t2.dealRequest.Replication = t.dealRequest.Replication ∧
    t2.node.DateToHeight = t.node.DateToHeight ∧ t2.node.AddDate = t.node.AddDate ∧
    t2.node.Now = t.node.Now ∧ t2.node.DEFAULT_DURATION = t.node.DEFAULT_DURATION ∧
    t2.node.Config = t.node.Config := by
  unfold assignWallet at h
  by_cases hw : ({} : WalletRequest) ≠ t.dealRequest.Wallet
  · rw [if_pos hw] at h
    simp only at h
    split at h <;> (cases h; simp [DB.CreateContentWallet])
  · rw [if_neg hw] at h; cases h; simp

theorem assignWalletMultiple_frame (apiKey : String) (t t2 : Txn) (e : Option String)
    (h : assignWalletMultiple apiKey t = (t2, e)) :
    t2.node.DB.piece_commitments = t.node.DB.piece_commitments ∧
    t2.node.DB.contents = t.node.DB.contents ∧
    t2.node.DB.content_miners = t.node.DB.content_miners ∧
    t2.node.DB.content_deal_proposal_parameters = t.node.DB.content_deal_proposal_parameters ∧
    t2.node.DB.wallets = t.node.DB.wallets ∧
    t2.node.Dispatcher = t.node.Dispatcher ∧
    t2.pieceCommp = t.pieceCommp ∧
    t2.content = t.content ∧
    t2.dealRequest.StartEpochInDays = t.dealRequest.StartEpochInDays ∧
    t2.dealRequest.DurationInDays = t.dealRequest.DurationInDays ∧
    t2.dealRequest.Replication = t.dealRequest.Replication ∧
    t2.node.DateToHeight = t.node.DateToHeight ∧ t2.node.AddDate = t.node.AddDate ∧
    t2.node.Now = t.node.Now ∧ t2.node.DEFAULT_DURATION = t.node.DEFAULT_DURATION ∧
    t2.node.Config = t.node.Config := by
  unfold assignWalletMultiple at h
  by_cases hw : ({} : WalletRequest) ≠ t.dealRequest.Wallet
  · rw [if_pos hw] at h
    simp only at h
    split at h <;> (cases h; simp [DB.CreateContentWallet])
  · rw [if_neg hw] at h; cases h; simp

theorem createProposalParameters_spec {row : ContentDealProposalParameters} {t t2 : Txn}
    (h2 : createProposalParameters row t = t2) :
    t2.node.DB.content_deal_proposal_parameters =
      t.node.DB.content_deal_proposal_parameters ++ [t2.dealProposalParam] ∧
    t2.dealProposalParam =
      { row with ID := nextID (t.node.DB.content_deal_proposal_parameters.map
          ContentDealProposalParameters.ID) } ∧
    t2.node.DB.piece_commitments = t.node.DB.piece_commitments ∧
    t2.node.DB.contents = t.node.DB.contents ∧
    t2.node.DB.content_miners = t.node.DB.content_miners ∧
    t2.node.DB.content_wallets = t.node.DB.content_wallets ∧
    t2.node.DB.wallets = t.node.DB.wallets ∧
    t2.node.Dispatcher = t.node.Dispatcher ∧
    t2.pieceCommp = t.pieceCommp ∧
    t2.content = t.content ∧
    t2.dealRequest = t.dealRequest ∧
    t2.node.DateToHeight = t.node.DateToHeight ∧ t2.node.AddDate = t.node.AddDate ∧
    t2.node.Now = t.node.Now ∧ t2.node.DEFAULT_DURATION = t.node.DEFAULT_DURATION ∧
    t2.node.Config = t.node.Config := by
  subst h2
  simp [createProposalParameters, DB.CreateContentDealProposalParameters]

/-! ## `handleImportDeal`: what success means -/

theorem handleImportDeal_of_ok {node : DeltaNode} {apiKey : String} {dealRequest : DealRequest}
    (h : (handleImportDeal node apiKey dealRequest).err = none) :
    dealRequest.ConnectionMode ≠ "e2e" ∧
    ValidateMeta { dealRequest with ConnectionMode := "import" } node.Config = .ok () ∧
    ValidatePieceCommitmentMeta dealRequest.PieceCommitment = .ok () ∧
    handleImportDeal node apiKey dealRequest =
      handleImportDealTxn apiKey { dealRequest with ConnectionMode := "import" } node := by
  unfold handleImportDeal at h ⊢
  by_cases hm : dealRequest.ConnectionMode = "e2e"
  · simp [hm] at h
  · simp only [hm, if_false] at h ⊢
    cases hv : ValidateMeta { dealRequest with ConnectionMode := "import" } node.Config with
    | error e => simp [hv] at h
    | ok u =>
      simp only [hv] at h ⊢
      cases hp : ValidatePieceCommitmentMeta dealRequest.PieceCommitment with
      | error e => simp [hp] at h
      | ok u2 =>
        simp only [hp] at h ⊢
        exact ⟨hm, trivial, trivial, Transaction_of_ok h⟩

/-- The successful run of the transaction of `handleImportDeal`, step by step. -/
theorem handleImportDealTxn_of_ok {node : DeltaNode} {apiKey : String} {dealRequest : DealRequest}
    (h : (handleImportDealTxn apiKey dealRequest node).err = none) :
    ∃ t1 t2 t3 t4 t5 : Txn,
      createPieceCommitment dealRequest.Cid dealRequest.Size COMMP_STATUS_COMITTED
        { node := node, dealRequest := dealRequest } = t1 ∧
      createContent
        { Name := t1.dealRequest.Cid
          Size := t1.dealRequest.Size
          Cid := t1.dealRequest.Cid
          RequestingApiKey := apiKey
          PieceCommitmentId := t1.pieceCommp.ID
          AutoRetry := t1.dealRequest.AutoRetry
          Status := CONTENT_DEAL_MAKING_PROPOSAL
          ConnectionMode := t1.dealRequest.ConnectionMode } t1 = t2 ∧
      assignMiner t2.dealRequest.Size t2 = (t3, none) ∧
      assignWallet apiKey t3 = (t4, none) ∧
      createProposalParameters
          (proposalParameters
            (t4.node.MarshalTransferParameters { URL := t4.dealRequest.TransferParameters.URL })
            t4) t4 = t5 ∧
      handleImportDealTxn apiKey dealRequest node = importDispatch t5 := by
  unfold handleImportDealTxn at h ⊢
  simp only at h ⊢
  split at h
  · simp at h
  · rename_i t3 hm
    split at h
    · simp at h
    · rename_i t4 hw
      refine ⟨_, _, t3, t4, _, rfl, rfl, hm, hw, rfl, ?_⟩
      simp only [hm, hw]

theorem handleImportDeal_run {node : DeltaNode} {apiKey : String} {dealRequest : DealRequest}
    (h : (handleImportDeal node apiKey dealRequest).err = none) :
    ∃ t1 t2 t3 t4 t5 : Txn,
      createPieceCommitment dealRequest.Cid dealRequest.Size COMMP_STATUS_COMITTED
        { node := node, dealRequest := { dealRequest with ConnectionMode := "import" } } = t1 ∧
      createContent
        { Name := t1.dealRequest.Cid
          Size := t1.dealRequest.Size
          Cid := t1.dealRequest.Cid
          RequestingApiKey := apiKey
          PieceCommitmentId := t1.pieceCommp.ID
          AutoRetry := t1.dealRequest.AutoRetry
          Status := CONTENT_DEAL_MAKING_PROPOSAL
          ConnectionMode := t1.dealRequest.ConnectionMode } t1 = t2 ∧
      assignMiner t2.dealRequest.Size t2 = (t3, none) ∧
      assignWallet apiKey t3 = (t4, none) ∧
      createProposalParameters
          (proposalParameters
            (t4.node.MarshalTransferParameters { URL := t4.dealRequest.TransferParameters.URL })
            t4) t4 = t5 ∧
      handleImportDeal node apiKey dealRequest = importDispatch t5 ∧
      ValidateMeta { dealRequest with ConnectionMode := "import" } node.Config = .ok () ∧
      ValidatePieceCommitmentMeta dealRequest.PieceCommitment = .ok () := by
  obtain ⟨-, hv, hp, heq⟩ := handleImportDeal_of_ok h
  rw [heq] at h
  obtain ⟨t1, t2, t3, t4, t5, h1, h2, h3, h4, h5, hres⟩ := handleImportDealTxn_of_ok h
  exact ⟨t1, t2, t3, t4, t5, h1, h2, h3, h4, h5, heq.trans hres, hv, hp⟩

/-! ## 64-bit arithmetic -/

theorem wrap64_spec (x : Int) :
    ∃ k : Int, wrap64 x = x + k * 2 ^ 64 ∧ -(2 ^ 63) ≤ wrap64 x ∧ wrap64 x < 2 ^ 63 := by
  refine ⟨-((x + 2 ^ 63) / 2 ^ 64), ?_, ?_, ?_⟩ <;> unfold wrap64 <;> omega

theorem wrap64_of_range {x : Int} (h1 : -(2 ^ 63) ≤ x) (h2 : x < 2 ^ 63) : wrap64 x = x := by
  unfold wrap64
  omega

theorem wrap64_congr {a b : Int} (k : Int) (h : a = b + k * 2 ^ 64) : wrap64 a = wrap64 b := by
  obtain ⟨ka, ha, ha1, ha2⟩ := wrap64_spec a
  obtain ⟨kb, hb, hb1, hb2⟩ := wrap64_spec b
  omega

theorem proposalEpochs_of_days (node : DeltaNode) (r : DealRequest)
    (h : r.StartEpochInDays ≠ 0 ∧ r.DurationInDays ≠ 0) :
    (proposalEpochs node r).1 = node.DateToHeight (node.AddDate node.Now r.StartEpochInDays) ∧
    (proposalEpochs node r).2.1 =
      wrap64 ((proposalEpochs node r).1 + EPOCH_PER_DAY * (r.DurationInDays - r.StartEpochInDays)) ∧
    (proposalEpochs node r).2.2 = wrap64 (EPOCH_PER_DAY * (r.DurationInDays - r.StartEpochInDays)) := by
  unfold proposalEpochs
  rw [if_pos h]
  simp only [EPOCH_PER_DAY]
  obtain ⟨k1, h1, -, -⟩ := wrap64_spec (r.DurationInDays - r.StartEpochInDays)
  obtain ⟨k2, h2, -, -⟩ := wrap64_spec (2880 * wrap64 (r.DurationInDays - r.StartEpochInDays))
  generalize node.DateToHeight (node.AddDate node.Now r.StartEpochInDays) = s
  obtain ⟨k3, h3, -, -⟩ := wrap64_spec (s + wrap64 (2880 * wrap64 (r.DurationInDays - r.StartEpochInDays)))
  refine ⟨trivial, ?_, ?_⟩
  · apply wrap64_congr (k2 + 2880 * k1)
    omega
  · apply wrap64_congr (k3 + k2 + 2880 * k1)
    omega

theorem proposalEpochs_of_no_days (node : DeltaNode) (r : DealRequest)
    (h : ¬ (r.StartEpochInDays ≠ 0 ∧ r.DurationInDays ≠ 0)) :
    proposalEpochs node r = (0, 0, node.DEFAULT_DURATION) := by
  unfold proposalEpochs
  rw [if_neg h]

/-! ## The wallet lookup -/

theorem foldl_least_mem (ws : List Wallet) (w : Wallet) :
    ws.foldl (fun best x => if x.ID < best.ID then x else best) w ∈ w :: ws := by
  induction ws generalizing w with
  | nil => simp
  | cons x xs ih =>
    simp only [List.foldl_cons]
    have h := ih (if x.ID < w.ID then x else w)
    rcases List.mem_cons.mp h with h1 | h1
    · rw [h1]
      split
      · exact List.mem_cons_of_mem _ (List.mem_cons_self _ _)
      · exact List.mem_cons_self _ _
    · exact List.mem_cons_of_mem _ (List.mem_cons_of_mem _ h1)

/-- When some row matches, `First` returns a matching row of the table. -/
theorem FirstWallet_of_match (tx : DB) (cond : Wallet → Bool) (w : Wallet)
    (hw : w ∈ tx.wallets) (hc : cond w = true) :
    tx.FirstWallet cond ∈ tx.wallets ∧ cond (tx.FirstWallet cond) = true := by
  unfold DB.FirstWallet
  have hmem : w ∈ tx.wallets.filter cond := List.mem_filter.mpr ⟨hw, hc⟩
  cases hf : tx.wallets.filter cond with
  | nil => rw [hf] at hmem; cases hmem
  | cons x xs =>
    simp only
    have h := foldl_least_mem xs x
    rw [← hf] at h
    exact ⟨(List.mem_filter.mp h).1, (List.mem_filter.mp h).2⟩

/-! ## Miner and wallet assignment: when they succeed -/

theorem assignMiner_of_resolves (size : Int) (t : Txn)
    (h : t.dealRequest.Miner ≠ "" ∨
      ∃ a, t.node.GetSPWithGivenBytes t.node.MinerAssignmentCalls size = .ok a) :
    (assignMiner size t).2 = none := by
  unfold assignMiner
  by_cases hm : t.dealRequest.Miner = ""
  · rcases h with h | ⟨a, ha⟩
    · exact absurd hm h
    · rw [if_pos hm]
      simp only [ha]
      split <;> rfl
  · rw [if_neg hm]

theorem assignWallet_of_found (apiKey : String) (t : Txn)
    (hne : ({} : WalletRequest) ≠ t.dealRequest.Wallet)
    (hid : (lookupWallet t.node.DB apiKey t.dealRequest.Wallet).ID ≠ 0) :
    (assignWallet apiKey t).2 = none ∧
    (assignWallet apiKey t).1.node.DB.content_wallets =
      t.node.DB.content_wallets ++
        [{ ID := nextID (t.node.DB.content_wallets.map ContentWallet.ID)
           WalletId := (lookupWallet t.node.DB apiKey t.dealRequest.Wallet).ID
           Content := t.content.ID }] := by
  unfold assignWallet
  rw [if_pos hne]
  simp only [if_neg hid, DB.CreateContentWallet]
  exact ⟨trivial, trivial⟩

/-! ## `handleImportDeal`: from the steps to the outcome -/

theorem handleImportDealTxn_of_steps {node : DeltaNode} {apiKey : String}
    {dealRequest : DealRequest} {t1 t2 t3 t4 : Txn}
    (h1 : createPieceCommitment dealRequest.Cid dealRequest.Size COMMP_STATUS_COMITTED
        { node := node, dealRequest := dealRequest } = t1)
    (h2 : createContent
        { Name := t1.dealRequest.Cid
          Size := t1.dealRequest.Size
          Cid := t1.dealRequest.Cid
          RequestingApiKey := apiKey
          PieceCommitmentId := t1.pieceCommp.ID
          AutoRetry := t1.dealRequest.AutoRetry
          Status := CONTENT_DEAL_MAKING_PROPOSAL
          ConnectionMode := t1.dealRequest.ConnectionMode } t1 = t2)
    (h3 : assignMiner t2.dealRequest.Size t2 = (t3, none))
    (h4 : assignWallet apiKey t3 = (t4, none)) :
    handleImportDealTxn apiKey dealRequest node =
      importDispatch (createProposalParameters
          (proposalParameters
            (t4.node.MarshalTransferParameters { URL := t4.dealRequest.TransferParameters.URL })
            t4) t4) := by
  unfold handleImportDealTxn
  simp only
  subst h1
  subst h2
  simp only [h3, h4]

theorem handleImportDeal_of_valid {node : DeltaNode} {apiKey : String} {dealRequest : DealRequest}
    (hm : dealRequest.ConnectionMode ≠ "e2e")
    (hv : ValidateMeta { dealRequest with ConnectionMode := "import" } node.Config = .ok ())
    (hp : ValidatePieceCommitmentMeta dealRequest.PieceCommitment = .ok ()) :
    handleImportDeal node apiKey dealRequest =
      Transaction node "Error creating the piece-commitment record"
        (handleImportDealTxn apiKey { dealRequest with ConnectionMode := "import" }) := by
  unfold handleImportDeal
  simp only [hm, if_false, hv, hp]

/-! ## `handleEndToEndDeal`: what success means -/

theorem handleEndToEndDeal_of_ok {node : DeltaNode} {apiKey : String} {file : FileHeader}
    {dealRequest : DealRequest}
    (h : (handleEndToEndDeal node apiKey file dealRequest).err = none) :
    dealRequest.ConnectionMode ≠ "import" ∧
    ¬ (file.Size < 1000000 ∧ dealRequest.DealVerifyState = DEAL_VERIFIED) ∧
    ValidateMeta { dealRequest with ConnectionMode := "e2e" } node.Config = .ok () ∧
    ∃ cid, node.AddPinFile file = some cid ∧
      handleEndToEndDeal node apiKey file dealRequest =
        handleEndToEndDealTxn apiKey file cid { dealRequest with ConnectionMode := "e2e" }
          { node with Pinned := node.Pinned ++ [file] } := by
  unfold handleEndToEndDeal at h ⊢
  by_cases hm : dealRequest.ConnectionMode = "import"
  · simp [hm] at h
  · simp only [hm, if_false] at h ⊢
    by_cases hs : file.Size < 1000000 ∧ dealRequest.DealVerifyState = DEAL_VERIFIED
    · simp [hs] at h
    · simp only [hs, if_false] at h ⊢
      cases hv : ValidateMeta { dealRequest with ConnectionMode := "e2e" } node.Config with
      | error e => simp [hv] at h
      | ok u =>
        simp only [hv] at h ⊢
        by_cases ho : node.FileOpens file = false
        · simp [ho] at h
        · simp only [ho, if_false] at h ⊢
          cases hpin : node.AddPinFile file with
          | none => simp [hpin] at h
          | some cid =>
            simp only [hpin] at h ⊢
            exact ⟨hm, not_false, trivial, cid, rfl, Transaction_of_ok h⟩

/-- The successful run of the transaction of `handleEndToEndDeal`, step by step. -/
theorem handleEndToEndDealTxn_of_ok {node : DeltaNode} {apiKey : String} {file : FileHeader}
    {cid : String} {dealRequest : DealRequest}
    (h : (handleEndToEndDealTxn apiKey file cid dealRequest node).err = none) :
    ∃ (t1 t2 t3 t4 t5 : Txn) (announce : String),
      createPieceCommitment cid file.Size COMMP_STATUS_OPEN
        { node := node, dealRequest := dealRequest } = t1 ∧
      createContent
        { Name := file.Filename
          Size := file.Size
          Cid := cid
          RequestingApiKey := apiKey
          PieceCommitmentId := t1.pieceCommp.ID
          Status := CONTENT_PINNED
          AutoRetry := t1.dealRequest.AutoRetry
          ConnectionMode := t1.dealRequest.ConnectionMode } t1 = t2 ∧
      assignMiner file.Size t2 = (t3, none) ∧
      assignWallet apiKey t3 = (t4, none) ∧
      createProposalParameters
          (proposalParameters (endToEndTransferParams announce t4) t4) t4 = t5 ∧
      handleEndToEndDealTxn apiKey file cid dealRequest node = endToEndDispatch t5 := by
  unfold handleEndToEndDealTxn at h ⊢
  simp only at h ⊢
  split at h
  · simp at h
  · rename_i t3 hm
    split at h
    · simp at h
    · rename_i t4 hw
      split at h
      · simp at h
      · rename_i announce ha
        refine ⟨_, _, t3, t4, _, announce, rfl, rfl, hm, hw, rfl, ?_⟩
        simp only [hm, hw, ha]

/-! ## Replication: the parameter rows of the replicas -/

theorem replicateOne_parameters (contentSource : DealReplication) (node : DeltaNode)
    (dealRequest : DealRequest) :
    ∃ p : ContentDealProposalParameters,
      (replicateOne contentSource node dealRequest).2.DB.content_deal_proposal_parameters
        = node.DB.content_deal_proposal_parameters ++ [p] ∧
      p.StartEpoch = contentSource.ContentDealProposalParameter.StartEpoch ∧
      p.EndEpoch = contentSource.ContentDealProposalParameter.EndEpoch ∧
      p.Duration = contentSource.ContentDealProposalParameter.Duration := by
  unfold replicateOne
  simp only
  split <;>
    exact ⟨{ contentSource.ContentDealProposalParameter with
        ID := nextID (node.DB.content_deal_proposal_parameters.map ContentDealProposalParameters.ID)
        Content := nextID (node.DB.contents.map Content.ID) },
      by simp only [DB.CreateContentDealProposalParameters, DB.CreateContent,
        DB.CreateContentMiner], rfl, rfl, rfl⟩

/-- Every parameter row `ReplicateContent` inserts carries the epochs of its source. -/
theorem ReplicateContentLoop_parameters (contentSource : DealReplication) (n : Nat) :
    ∀ (node : DeltaNode) (dealRequest : DealRequest) (acc : List ReplicatedContent),
    ∃ rows : List ContentDealProposalParameters,
      (ReplicateContentLoop contentSource n node dealRequest acc).2.DB.content_deal_proposal_parameters
        = node.DB.content_deal_proposal_parameters ++ rows ∧
      ∀ p ∈ rows,
        p.StartEpoch = contentSource.ContentDealProposalParameter.StartEpoch ∧
        p.EndEpoch = contentSource.ContentDealProposalParameter.EndEpoch ∧
        p.Duration = contentSource.ContentDealProposalParameter.Duration := by
  induction n with
  | zero =>
    intro node dealRequest acc
    exact ⟨[], by simp [ReplicateContentLoop], by simp⟩
  | succ n ih =>
    intro node dealRequest acc
    obtain ⟨p, hp, hp1⟩ := replicateOne_parameters contentSource node dealRequest
    unfold ReplicateContentLoop
    rcases hone : replicateOne contentSource node dealRequest with ⟨rc, node2⟩
    rw [hone] at hp
    cases rc with
    | none =>
      refine ⟨[p], hp, ?_⟩
      intro q hq
      rw [List.mem_singleton] at hq
      subst hq
      exact hp1
    | some rc =>
      simp only at hp ⊢
      obtain ⟨rows, hrows, hall⟩ := ih node2 rc.DealRequest (acc ++ [rc])
      refine ⟨p :: rows, ?_, ?_⟩
      · rw [hrows, hp, List.append_assoc, List.singleton_append]
      · intro q hq
        rcases List.mem_cons.mp hq with hq | hq
        · subst hq
          exact hp1
        · exact hall q hq

/-! ## C1: what an accepted import inserts and enqueues -/

/-- C1, counterexample: `handleImportDeal` accepts an import request whose piece commitment
has `padded_piece_size = 0` (the unpadded size is set); it inserts no PieceCommitment,
the Content it inserts has `piece_commitment_id = 0`, and the job it hands to the
dispatcher is the nil processor, not a Deal Maker job. -/
theorem handleImportDeal_unpadded_only_inserts_no_commitment :
    (handleImportDeal exampleNode "key" importRequestUnpaddedOnly).err = none ∧
    inserted DB.piece_commitments exampleNode.DB
      (handleImportDeal exampleNode "key" importRequestUnpaddedOnly).node.DB = [] ∧
    (inserted DB.contents exampleNode.DB
      (handleImportDeal exampleNode "key" importRequestUnpaddedOnly).node.DB).map
        Content.PieceCommitmentId = [0] ∧
    (handleImportDeal exampleNode "key" importRequestUnpaddedOnly).node.Dispatcher.jobs =
      [IProcessor.nil] := by
  refine ⟨rfl, ?_, ?_, ?_⟩ <;> decide

/-- C1, amended: for every import request that `handleImportDeal` accepts and whose piece
commitment has `padded_piece_size ≠ 0`, exactly one PieceCommitment is inserted, with
status `committed` and the piece of the request, exactly one Content is inserted, with
status `deal-making-proposal` and `piece_commitment_id` the id of that PieceCommitment,
and exactly one job is handed to the dispatcher, a Deal Maker job for that Content and
that PieceCommitment. -/
theorem handleImportDeal_inserts_commitment_content_job (node : DeltaNode) (apiKey : String)
    (dealRequest : DealRequest)
    (hok : (handleImportDeal node apiKey dealRequest).err = none)
    (hpad : dealRequest.PieceCommitment.PaddedPieceSize ≠ 0) :
    ∃ pc c,
      inserted DB.piece_commitments node.DB (handleImportDeal node apiKey dealRequest).node.DB
        = [pc] ∧
      pc.Status = COMMP_STATUS_COMITTED ∧ pc.ID ≠ 0 ∧
      pc.Piece = dealRequest.PieceCommitment.Piece ∧
      inserted DB.contents node.DB (handleImportDeal node apiKey dealRequest).node.DB = [c] ∧
      c.Status = CONTENT_DEAL_MAKING_PROPOSAL ∧
      c.PieceCommitmentId = pc.ID ∧
      (handleImportDeal node apiKey dealRequest).node.Dispatcher.jobs =
        node.Dispatcher.jobs ++ [.StorageDealMakerProcessor c pc] := by
  obtain ⟨t1, t2, t3, t4, t5, h1, h2, h3, h4, h5, hres, hv, hp⟩ := handleImportDeal_run hok
  obtain ⟨hne, hpiece, hsize⟩ := piece_commitment_of_accepted hv hp
  rw [hres]
  obtain ⟨c1, c2, c3, -, c5, -⟩ :=
    createPieceCommitment_of_cond h1 ⟨⟨fun e => hne e.symm, hpiece⟩, hpad, hsize⟩
  obtain ⟨f1, -, -, -, -, f6, -⟩ := createPieceCommitment_frame h1
  obtain ⟨g1, g2, g3, -, -, -, -, g8, g9, -⟩ := createContent_spec h2
  obtain ⟨m1, m2, -, -, -, m6, m7, m8, -⟩ := assignMiner_frame _ _ _ _ h3
  obtain ⟨w1, w2, -, -, -, w6, w7, w8, -⟩ := assignWallet_frame _ _ _ _ h4
  obtain ⟨-, -, p3, p4, -, -, -, p8, p9, p10, -, -⟩ := createProposalParameters_spec h5
  refine ⟨t1.pieceCommp, t2.content, ?_, c3, c2, c5, ?_, ?_, ?_, ?_⟩
  · apply inserted_append
    simp only [importDispatch]
    rw [p3, w1, m1, g3, c1]
  · apply inserted_append
    simp only [importDispatch]
    rw [p4, w2, m2, g1, f1]
  · rw [g2]
  · rw [g2]
  · simp only [importDispatch, Dispatcher.AddJobAndDispatch, Dispatcher.AddJob, Dispatcher.Start]
    rw [p9, p10, w7, w8, m7, m8, g9, if_pos c2, p8, w6, m6, g8, f6]

/-- C1, amended, at the import request of the happy path. -/
theorem handleImportDeal_inserts_commitment_content_job_witness :
    ∃ pc c,
      inserted DB.piece_commitments exampleNode.DB
        (handleImportDeal exampleNode "key" importRequestComplete).node.DB = [pc] ∧
      pc.Status = COMMP_STATUS_COMITTED ∧ pc.ID ≠ 0 ∧
      pc.Piece = importRequestComplete.PieceCommitment.Piece ∧
      inserted DB.contents exampleNode.DB
        (handleImportDeal exampleNode "key" importRequestComplete).node.DB = [c] ∧
      c.Status = CONTENT_DEAL_MAKING_PROPOSAL ∧
      c.PieceCommitmentId = pc.ID ∧
      (handleImportDeal exampleNode "key" importRequestComplete).node.Dispatcher.jobs =
        exampleNode.Dispatcher.jobs ++ [.StorageDealMakerProcessor c pc] :=
  handleImportDeal_inserts_commitment_content_job exampleNode "key" importRequestComplete
    rfl (by decide)

/-! ## C3: how a request may name its wallet -/

theorem lookupWallet_of_address (tx : DB) (apiKey : String) (wallet : WalletRequest)
    (ha : wallet.Address ≠ "") :
    lookupWallet tx apiKey wallet =
      tx.FirstWallet (fun w => decide (w.Addr = wallet.Address ∧ w.Owner = apiKey)) := by
  unfold lookupWallet
  rw [if_pos ha]

theorem FirstWallet_congr (tx1 tx2 : DB) (cond : Wallet → Bool) (h : tx1.wallets = tx2.wallets) :
    tx1.FirstWallet cond = tx2.FirstWallet cond := by
  unfold DB.FirstWallet
  rw [h]

/-- C3, counterexample: the wallet `u-1` with id 1 is registered under the caller's key,
yet `handleImportDeal` rejects the request that names it by uuid only, and the request
that names it by id only, with "wallet address is required", and inserts no
ContentWallet row. -/
theorem handleImportDeal_rejects_wallet_by_uuid_or_id :
    (handleImportDeal nodeWithWallet "key" (importRequestWithWallet { Uuid := "u-1" })).err
      = some "wallet address is required" ∧
    inserted DB.content_wallets nodeWithWallet.DB
      (handleImportDeal nodeWithWallet "key"
        (importRequestWithWallet { Uuid := "u-1" })).node.DB = [] ∧
    (handleImportDeal nodeWithWallet "key" (importRequestWithWallet { Id := 1 })).err
      = some "wallet address is required" ∧
    inserted DB.content_wallets nodeWithWallet.DB
      (handleImportDeal nodeWithWallet "key"
        (importRequestWithWallet { Id := 1 })).node.DB = [] := by
  refine ⟨rfl, ?_, rfl, ?_⟩ <;> decide

/-- C3, amended: a deal request must name its wallet by address. `handleImportDeal` rejects
every request whose wallet reference is non-empty but has no address (so one that
carries only a uuid or only an id), leaving the store as it was. For every request
that passes validation, whose miner resolves and whose wallet address is that of a
Wallet owned by the caller's API key, `handleImportDeal` accepts the request and
inserts exactly one ContentWallet row, linking the new Content to a Wallet with that
address and owner. -/
theorem handleImportDeal_wallet_by_address (node : DeltaNode) (apiKey : String)
    (dealRequest : DealRequest) :
    (dealRequest.Wallet ≠ {} → dealRequest.Wallet.Address = "" →
      (handleImportDeal node apiKey dealRequest).err ≠ none ∧
      (handleImportDeal node apiKey dealRequest).node.DB = node.DB) ∧
    (∀ w ∈ node.DB.wallets, w.Addr = dealRequest.Wallet.Address → w.Owner = apiKey →
      dealRequest.Wallet.Address ≠ "" →
      (∀ x ∈ node.DB.wallets, x.ID ≠ 0) →
      dealRequest.ConnectionMode ≠ "e2e" →
      ValidateMeta { dealRequest with ConnectionMode := "import" } node.Config = .ok () →
      ValidatePieceCommitmentMeta dealRequest.PieceCommitment = .ok () →
      (dealRequest.Miner ≠ "" ∨
        ∃ a, node.GetSPWithGivenBytes node.MinerAssignmentCalls dealRequest.Size = .ok a) →
      (handleImportDeal node apiKey dealRequest).err = none ∧
      ∃ c w2 cw,
        inserted DB.contents node.DB (handleImportDeal node apiKey dealRequest).node.DB = [c] ∧
        w2 ∈ node.DB.wallets ∧ w2.Addr = dealRequest.Wallet.Address ∧ w2.Owner = apiKey ∧
        inserted DB.content_wallets node.DB (handleImportDeal node apiKey dealRequest).node.DB
          = [cw] ∧
        cw.WalletId = w2.ID ∧ cw.Content = c.ID) := by
  constructor
  · intro hw ha
    unfold handleImportDeal
    by_cases hm : dealRequest.ConnectionMode = "e2e"
    · simp [hm]
    · simp only [hm, if_false]
      cases hv : ValidateMeta { dealRequest with ConnectionMode := "import" } node.Config with
      | error e => simp
      | ok u =>
        have h := (ValidateMeta_ok hv).2.2.2.2.2.2.2.2.2.2.2.2.2.2.2.2 hw
        exact absurd ha h
  · intro w hw haddr hown hane hids hm hv hp hminer
    -- the steps of the transaction
    obtain ⟨t1, h1⟩ : ∃ t1, createPieceCommitment dealRequest.Cid dealRequest.Size
        COMMP_STATUS_COMITTED
        { node := node, dealRequest := { dealRequest with ConnectionMode := "import" } } = t1 :=
      ⟨_, rfl⟩
    obtain ⟨t2, h2⟩ : ∃ t2, createContent
        { Name := t1.dealRequest.Cid
          Size := t1.dealRequest.Size
          Cid := t1.dealRequest.Cid
          RequestingApiKey := apiKey
          PieceCommitmentId := t1.pieceCommp.ID
          AutoRetry := t1.dealRequest.AutoRetry
          Status := CONTENT_DEAL_MAKING_PROPOSAL
          ConnectionMode := t1.dealRequest.ConnectionMode } t1 = t2 := ⟨_, rfl⟩
    obtain ⟨f1, -, f3, -, f5, -, -, -, -, f10, f11, f12, -, -, -, -, -, -, f19, f20⟩ :=
      createPieceCommitment_frame h1
    obtain ⟨g1, -, -, -, g5, -, g7, -, -, -, -, g12, g13, g14, -, -, -, -, -, g20, g21, -⟩ :=
      createContent_spec h2
    simp only at f1 f3 f5 f10 f11 f12 f19 f20
    -- the miner resolves
    have hmin : (assignMiner t2.dealRequest.Size t2).2 = none := by
      apply assignMiner_of_resolves
      rw [g12, f10, g14, f12, g20, f19, g21, f20]
      exact hminer
    obtain ⟨t3, h3⟩ : ∃ t3, assignMiner t2.dealRequest.Size t2 = (t3, none) :=
      ⟨(assignMiner t2.dealRequest.Size t2).1, Prod.ext rfl hmin⟩
    obtain ⟨-, m2, m3, -, m5, -, -, m8, -, -, m11, -⟩ := assignMiner_frame _ _ _ _ h3
    -- the wallet is found
    have hwal : t3.dealRequest.Wallet = dealRequest.Wallet := by rw [m11, g13, f11]
    have hne : ({} : WalletRequest) ≠ t3.dealRequest.Wallet := by
      rw [hwal]
      intro e
      rw [← e] at hane
      exact hane rfl
    have hlook : lookupWallet t3.node.DB apiKey t3.dealRequest.Wallet =
        node.DB.FirstWallet
          (fun x => decide (x.Addr = dealRequest.Wallet.Address ∧ x.Owner = apiKey)) := by
      rw [hwal, lookupWallet_of_address _ _ _ hane]
      exact FirstWallet_congr _ _ _ (by rw [m5, g7, f5])
    obtain ⟨hfmem, hfcond⟩ := FirstWallet_of_match node.DB
      (fun x => decide (x.Addr = dealRequest.Wallet.Address ∧ x.Owner = apiKey)) w hw
      (by simp [haddr, hown])
    have hfid := hids _ hfmem
    rw [← hlook] at hfmem hfcond hfid
    obtain ⟨hwnone, hwrows⟩ := assignWallet_of_found apiKey t3 hne hfid
    obtain ⟨t4, h4⟩ : ∃ t4, assignWallet apiKey t3 = (t4, none) :=
      ⟨(assignWallet apiKey t3).1, Prod.ext rfl hwnone⟩
    rw [h4] at hwrows
    simp only at hwrows
    obtain ⟨-, w2, -⟩ := assignWallet_frame _ _ _ _ h4
    -- the outcome
    have htxn := handleImportDealTxn_of_steps h1 h2 h3 h4
    have herr : (handleImportDeal node apiKey dealRequest).err = none := by
      rw [handleImportDeal_of_valid hm hv hp]
      apply Transaction_err
      rw [htxn]
      rfl
    have hres : handleImportDeal node apiKey dealRequest = _ :=
      (handleImportDeal_of_valid hm hv hp).trans ((Transaction_of_ok (by
        rw [← handleImportDeal_of_valid hm hv hp]; exact herr)).trans htxn)
    refine ⟨herr, t2.content, lookupWallet t3.node.DB apiKey t3.dealRequest.Wallet,
      { ID := nextID (t3.node.DB.content_wallets.map ContentWallet.ID)
        WalletId := (lookupWallet t3.node.DB apiKey t3.dealRequest.Wallet).ID
        Content := t3.content.ID },
      ?_, hfmem, ?_, ?_, ?_, rfl, ?_⟩
    · apply inserted_append
      rw [hres]
      simp only [importDispatch, createProposalParameters,
        DB.CreateContentDealProposalParameters]
      rw [w2, m2, g1, f1]
    · simpa using (of_decide_eq_true hfcond).1
    · simpa using (of_decide_eq_true hfcond).2
    · apply inserted_append
      rw [hres]
      simp only [importDispatch, createProposalParameters,
        DB.CreateContentDealProposalParameters]
      rw [hwrows, m3, g5, f3]
    · simp only
      rw [m8]

/-- C3, amended, at a request naming the registered wallet by uuid only (rejected) and
at one naming it by its address (accepted). -/
theorem handleImportDeal_wallet_by_address_witness :
    ((handleImportDeal nodeWithWallet "key" (importRequestWithWallet { Uuid := "u-1" })).err
        ≠ none ∧
      (handleImportDeal nodeWithWallet "key"
        (importRequestWithWallet { Uuid := "u-1" })).node.DB = nodeWithWallet.DB) ∧
    ((handleImportDeal nodeWithWallet "key"
        (importRequestWithWallet { Address := "f3abc" })).err = none ∧
      ∃ c w2 cw,
        inserted DB.contents nodeWithWallet.DB (handleImportDeal nodeWithWallet "key"
          (importRequestWithWallet { Address := "f3abc" })).node.DB = [c] ∧
        w2 ∈ nodeWithWallet.DB.wallets ∧
        w2.Addr = (importRequestWithWallet { Address := "f3abc" }).Wallet.Address ∧
        w2.Owner = "key" ∧
        inserted DB.content_wallets nodeWithWallet.DB (handleImportDeal nodeWithWallet "key"
          (importRequestWithWallet { Address := "f3abc" })).node.DB = [cw] ∧
        cw.WalletId = w2.ID ∧ cw.Content = c.ID) :=
  ⟨(handleImportDeal_wallet_by_address nodeWithWallet "key"
      (importRequestWithWallet { Uuid := "u-1" })).1 (by decide) rfl,
   (handleImportDeal_wallet_by_address nodeWithWallet "key"
      (importRequestWithWallet { Address := "f3abc" })).2
      { ID := 1, Uuid := "u-1", Addr := "f3abc", Owner := "key" }
      (by decide) rfl rfl (by decide) (by decide) (by decide) rfl rfl (Or.inl (by decide))⟩

/-! ## C4, C5: the epochs of the deal proposal parameters -/

theorem proposalEpochs_congr {n1 n2 : DeltaNode} {r1 r2 : DealRequest}
    (hs : r1.StartEpochInDays = r2.StartEpochInDays)
    (hd : r1.DurationInDays = r2.DurationInDays)
    (h1 : n1.DateToHeight = n2.DateToHeight) (h2 : n1.AddDate = n2.AddDate)
    (h3 : n1.Now = n2.Now) (h4 : n1.DEFAULT_DURATION = n2.DEFAULT_DURATION) :
    proposalEpochs n1 r1 = proposalEpochs n2 r2 := by
  unfold proposalEpochs
  rw [hs, hd, h1, h2, h3, h4]

/-- The four steps before the parameter row is built do not touch what the epochs are
computed from. -/
theorem proposalEpochs_after_steps {cid : String} {size size2 : Int} {status apiKey : String}
    {content : Content} {t0 t1 t2 t3 t4 : Txn}
    (h1 : createPieceCommitment cid size status t0 = t1)
    (h2 : createContent content t1 = t2)
    (h3 : assignMiner size2 t2 = (t3, none))
    (h4 : assignWallet apiKey t3 = (t4, none)) :
    proposalEpochs t4.node t4.dealRequest = proposalEpochs t0.node t0.dealRequest := by
  obtain ⟨-, -, -, -, -, -, -, a8, a9, -, -, -, -, -, a15, a16, a17, a18, -⟩ :=
    createPieceCommitment_frame h1
  obtain ⟨-, -, -, -, -, -, -, -, -, b10, b11, -, -, -, -, b16, b17, b18, b19, -⟩ :=
    createContent_spec h2
  obtain ⟨-, -, -, -, -, -, -, -, c9, c10, -, -, c13, c14, c15, c16, -⟩ :=
    assignMiner_frame _ _ _ _ h3
  obtain ⟨-, -, -, -, -, -, -, -, d9, d10, -, d12, d13, d14, d15, -⟩ :=
    assignWallet_frame _ _ _ _ h4
  exact proposalEpochs_congr (by rw [d9, c9, b10, a8]) (by rw [d10, c10, b11, a9])
    (by rw [d12, c13, b16, a15]) (by rw [d13, c14, b17, a16]) (by rw [d14, c15, b18, a17])
    (by rw [d15, c16, b19, a18])

/-- The epochs of an accepted request: the values the block computes, and the exact
values where the 64-bit arithmetic does not wrap. -/
theorem proposalEpochs_of_valid (node : DeltaNode) (r : DealRequest) (config : Config)
    (hv : ValidateMeta r config = .ok ()) :
    (r.StartEpochInDays ≠ 0 ∧ r.DurationInDays ≠ 0 →
      (proposalEpochs node r).1 =
        node.DateToHeight (node.AddDate node.Now r.StartEpochInDays) ∧
      (proposalEpochs node r).2.1 = wrap64 ((proposalEpochs node r).1 +
        EPOCH_PER_DAY * (r.DurationInDays - r.StartEpochInDays)) ∧
      (proposalEpochs node r).2.2 =
        wrap64 (EPOCH_PER_DAY * (r.DurationInDays - r.StartEpochInDays))) ∧
    (r.StartEpochInDays ≠ 0 ∧ r.DurationInDays ≠ 0 →
      EPOCH_PER_DAY * (r.DurationInDays - r.StartEpochInDays) < 2 ^ 63 →
      (proposalEpochs node r).2.2 = EPOCH_PER_DAY * (r.DurationInDays - r.StartEpochInDays) ∧
      (-(2 ^ 62) ≤ (proposalEpochs node r).1 → (proposalEpochs node r).1 ≤ 2 ^ 62 →
        0 ≤ r.StartEpochInDays →
        (proposalEpochs node r).2.1 = (proposalEpochs node r).1 +
          EPOCH_PER_DAY * (r.DurationInDays - r.StartEpochInDays))) ∧
    (¬ (r.StartEpochInDays ≠ 0 ∧ r.DurationInDays ≠ 0) →
      (proposalEpochs node r).1 = 0 ∧ (proposalEpochs node r).2.1 = 0 ∧
      (proposalEpochs node r).2.2 = node.DEFAULT_DURATION) := by
  obtain ⟨-, -, -, -, -, -, -, -, h8, h9, h10, -⟩ := ValidateMeta_ok hv
  refine ⟨proposalEpochs_of_days node r, fun hd hno => ?_, fun hn => ?_⟩
  · obtain ⟨e1, e2, e3⟩ := proposalEpochs_of_days node r hd
    simp only [EPOCH_PER_DAY] at hno e2 e3 ⊢
    refine ⟨?_, fun hlo hhi hs => ?_⟩
    · rw [e3]
      exact wrap64_of_range (by omega) hno
    · rw [e2]
      exact wrap64_of_range (by omega) (by omega)
  · rw [proposalEpochs_of_no_days node r hn]
    exact ⟨rfl, rfl, rfl⟩

/-- C4, counterexample: for `start_epoch_in_days = 7` and `duration_in_days = 180` the row
written by `handleImportDeal` has `start_epoch = 20160` (the height of now + 7 days on
the example node) and `end_epoch = 518400`, which is not
`start_epoch + EPOCH_PER_DAY × 180`. -/
theorem handleImportDeal_end_epoch_not_start_plus_duration :
    (handleImportDeal exampleNode "key" (importRequestWithDays 7 180)).response.map
      (fun resp => (resp.DealProposalParameterRequest.StartEpoch,
        resp.DealProposalParameterRequest.EndEpoch)) = some (20160, 518400) ∧
    exampleNode.DateToHeight (exampleNode.AddDate exampleNode.Now 7) = 20160 ∧
    (20160 : Int) + EPOCH_PER_DAY * 180 ≠ 518400 := by
  refine ⟨?_, ?_, ?_⟩ <;> decide

/-- The parameter row of an accepted import: it is the row of the response, the one row
inserted, and its epochs are those of the request. -/
theorem handleImportDeal_parameters {node : DeltaNode} {apiKey : String}
    {dealRequest : DealRequest}
    (hok : (handleImportDeal node apiKey dealRequest).err = none) :
    ∃ resp p,
      (handleImportDeal node apiKey dealRequest).response = some resp ∧
      resp.DealProposalParameterRequest = p ∧
      inserted DB.content_deal_proposal_parameters node.DB
        (handleImportDeal node apiKey dealRequest).node.DB = [p] ∧
      (handleImportDeal node apiKey dealRequest).node.DB.content_deal_proposal_parameters =
        node.DB.content_deal_proposal_parameters ++ [p] ∧
      (p.StartEpoch, p.EndEpoch, p.Duration) = proposalEpochs node dealRequest ∧
      ValidateMeta { dealRequest with ConnectionMode := "import" } node.Config = .ok () := by
  obtain ⟨t1, t2, t3, t4, t5, h1, h2, h3, h4, h5, hres, hv, -⟩ := handleImportDeal_run hok
  have he := proposalEpochs_after_steps h1 h2 h3 h4
  obtain ⟨-, -, -, f4, -⟩ := createPieceCommitment_frame h1
  obtain ⟨-, -, -, -, -, g6, -⟩ := createContent_spec h2
  obtain ⟨-, -, -, m4, -⟩ := assignMiner_frame _ _ _ _ h3
  obtain ⟨-, -, -, w4, -⟩ := assignWallet_frame _ _ _ _ h4
  obtain ⟨p1, p2, -⟩ := createProposalParameters_spec h5
  have htab : t5.node.DB.content_deal_proposal_parameters =
      node.DB.content_deal_proposal_parameters ++ [t5.dealProposalParam] := by
    rw [p1, w4, m4, g6, f4]
  rw [hres]
  refine ⟨dealResponse t5 [], t5.dealProposalParam, rfl, rfl, ?_, htab, ?_, hv⟩
  · exact inserted_append _ _ _ _ htab
  · rw [p2]
    simp only [proposalParameters]
    rw [he]
    exact proposalEpochs_congr rfl rfl rfl rfl rfl rfl

theorem endToEndDispatch_parameters (t : Txn) :
    ∃ rows : List ContentDealProposalParameters,
      (endToEndDispatch t).response = some (dealResponse t
        ((endToEndDispatch t).response.elim [] DealResponse.ReplicatedContents)) ∧
      (endToEndDispatch t).node.DB.content_deal_proposal_parameters =
        t.node.DB.content_deal_proposal_parameters ++ rows ∧
      ∀ p ∈ rows,
        p.StartEpoch = t.dealProposalParam.StartEpoch ∧
        p.EndEpoch = t.dealProposalParam.EndEpoch ∧
        p.Duration = t.dealProposalParam.Duration := by
  unfold endToEndDispatch
  split
  · exact ⟨[], rfl, by simp, by simp⟩
  · obtain ⟨rows, hrows, hall⟩ := ReplicateContentLoop_parameters
      { Content := t.content, ContentDealProposalParameter := t.dealProposalParam
        DealRequest := t.dealRequest } t.dealRequest.Replication.toNat t.node t.dealRequest []
    exact ⟨rows, rfl, hrows, hall⟩

/-- The parameter rows of an accepted end-to-end deal: the row of the response, then the
rows of the replicas, all with the epochs of the request. -/
theorem handleEndToEndDeal_parameters {node : DeltaNode} {apiKey : String} {file : FileHeader}
    {dealRequest : DealRequest}
    (hok : (handleEndToEndDeal node apiKey file dealRequest).err = none) :
    ∃ resp p rows,
      (handleEndToEndDeal node apiKey file dealRequest).response = some resp ∧
      resp.DealProposalParameterRequest = p ∧
      inserted DB.content_deal_proposal_parameters node.DB
        (handleEndToEndDeal node apiKey file dealRequest).node.DB = p :: rows ∧
      (handleEndToEndDeal node apiKey file dealRequest).node.DB.content_deal_proposal_parameters =
        node.DB.content_deal_proposal_parameters ++ p :: rows ∧
      (p.StartEpoch, p.EndEpoch, p.Duration) = proposalEpochs node dealRequest ∧
      (∀ q ∈ rows, q.StartEpoch = p.StartEpoch ∧ q.EndEpoch = p.EndEpoch ∧
        q.Duration = p.Duration) ∧
      ValidateMeta { dealRequest with ConnectionMode := "e2e" } node.Config = .ok () := by
  obtain ⟨-, -, hv, cid, -, heq⟩ := handleEndToEndDeal_of_ok hok
  rw [heq] at hok
  obtain ⟨t1, t2, t3, t4, t5, announce, h1, h2, h3, h4, h5, hres⟩ :=
    handleEndToEndDealTxn_of_ok hok
  have he := proposalEpochs_after_steps h1 h2 h3 h4
  obtain ⟨-, -, -, f4, -⟩ := createPieceCommitment_frame h1
  obtain ⟨-, -, -, -, -, g6, -⟩ := createContent_spec h2
  obtain ⟨-, -, -, m4, -⟩ := assignMiner_frame _ _ _ _ h3
  obtain ⟨-, -, -, w4, -⟩ := assignWallet_frame _ _ _ _ h4
  obtain ⟨p1, p2, -⟩ := createProposalParameters_spec h5
  obtain ⟨rows, d1, d2, d3⟩ := endToEndDispatch_parameters t5
  have htab : (endToEndDispatch t5).node.DB.content_deal_proposal_parameters =
      node.DB.content_deal_proposal_parameters ++ t5.dealProposalParam :: rows := by
    rw [d2, p1, w4, m4, g6, f4, List.append_assoc, List.singleton_append]
  rw [heq, hres]
  refine ⟨_, t5.dealProposalParam, rows, d1, rfl, ?_, htab, ?_, d3, hv⟩
  · exact inserted_append _ _ _ _ htab
  · rw [p2]
    simp only [proposalParameters]
    rw [he]
    exact proposalEpochs_congr rfl rfl rfl rfl rfl rfl

/-- C4, amended: when an ingestion handler (`handleImportDeal`, `handleEndToEndDeal`)
accepts a request, the ContentDealProposalParameters row it writes (the row of its
response) has, when both `start_epoch_in_days = S` and `duration_in_days = D` are
non-zero, `start_epoch = DateToHeight(now + S days)`,
`end_epoch = start_epoch + EPOCH_PER_DAY × (D − S)` and
`duration = EPOCH_PER_DAY × (D − S)` in 64-bit arithmetic (exactly so when `S ≥ 0` and
`|start_epoch| ≤ 2^62`), and otherwise `start_epoch = 0`, `end_epoch = 0` and
`duration = DEFAULT_DURATION`. -/
theorem handler_writes_proposal_epochs (node : DeltaNode) (apiKey : String)
    (file : FileHeader) (dealRequest : DealRequest) (res : HandlerResult DealResponse)
    (hres : res = handleImportDeal node apiKey dealRequest ∨
      res = handleEndToEndDeal node apiKey file dealRequest)
    (hok : res.err = none) :
    ∃ resp p,
      res.response = some resp ∧ resp.DealProposalParameterRequest = p ∧
      p ∈ res.node.DB.content_deal_proposal_parameters ∧
      (dealRequest.StartEpochInDays ≠ 0 ∧ dealRequest.DurationInDays ≠ 0 →
        p.StartEpoch =
          node.DateToHeight (node.AddDate node.Now dealRequest.StartEpochInDays) ∧
        p.EndEpoch = wrap64 (p.StartEpoch +
          EPOCH_PER_DAY * (dealRequest.DurationInDays - dealRequest.StartEpochInDays)) ∧
        p.Duration =
          wrap64 (EPOCH_PER_DAY * (dealRequest.DurationInDays - dealRequest.StartEpochInDays))) ∧
      (dealRequest.StartEpochInDays ≠ 0 ∧ dealRequest.DurationInDays ≠ 0 →
        0 ≤ dealRequest.StartEpochInDays →
        p.Duration = EPOCH_PER_DAY * (dealRequest.DurationInDays - dealRequest.StartEpochInDays) ∧
        (-(2 ^ 62) ≤ p.StartEpoch → p.StartEpoch ≤ 2 ^ 62 →
          p.EndEpoch = p.StartEpoch +
            EPOCH_PER_DAY * (dealRequest.DurationInDays - dealRequest.StartEpochInDays))) ∧
      (¬ (dealRequest.StartEpochInDays ≠ 0 ∧ dealRequest.DurationInDays ≠ 0) →
        p.StartEpoch = 0 ∧ p.EndEpoch = 0 ∧ p.Duration = node.DEFAULT_DURATION) := by
  have key : ∀ (mode : String) (p : ContentDealProposalParameters),
      ValidateMeta { dealRequest with ConnectionMode := mode } node.Config = .ok () →
      (p.StartEpoch, p.EndEpoch, p.Duration) = proposalEpochs node dealRequest →
      (dealRequest.StartEpochInDays ≠ 0 ∧ dealRequest.DurationInDays ≠ 0 →
        p.StartEpoch =
          node.DateToHeight (node.AddDate node.Now dealRequest.StartEpochInDays) ∧
        p.EndEpoch = wrap64 (p.StartEpoch +
          EPOCH_PER_DAY * (dealRequest.DurationInDays - dealRequest.StartEpochInDays)) ∧
        p.Duration =
          wrap64 (EPOCH_PER_DAY * (dealRequest.DurationInDays - dealRequest.StartEpochInDays))) ∧
      (dealRequest.StartEpochInDays ≠ 0 ∧ dealRequest.DurationInDays ≠ 0 →
        0 ≤ dealRequest.StartEpochInDays →
        p.Duration = EPOCH_PER_DAY * (dealRequest.DurationInDays - dealRequest.StartEpochInDays) ∧
        (-(2 ^ 62) ≤ p.StartEpoch → p.StartEpoch ≤ 2 ^ 62 →
          p.EndEpoch = p.StartEpoch +
            EPOCH_PER_DAY * (dealRequest.DurationInDays - dealRequest.StartEpochInDays))) ∧
      (¬ (dealRequest.StartEpochInDays ≠ 0 ∧ dealRequest.DurationInDays ≠ 0) →
        p.StartEpoch = 0 ∧ p.EndEpoch = 0 ∧ p.Duration = node.DEFAULT_DURATION) := by
    intro mode p hv hp
    have hcongr : proposalEpochs node dealRequest =
        proposalEpochs node { dealRequest with ConnectionMode := mode } :=
      proposalEpochs_congr rfl rfl rfl rfl rfl rfl
    obtain ⟨v1, v2, v3⟩ := proposalEpochs_of_valid node _ node.Config hv
    obtain ⟨-, -, -, -, -, -, -, -, b8, b9, b10, -⟩ := ValidateMeta_ok hv
    simp only at v1 v2 v3 b8 b9 b10
    rw [← hcongr, ← hp] at v1 v2 v3
    simp only at v1 v2 v3
    refine ⟨v1, fun hd hs => ?_, v3⟩
    have hno : EPOCH_PER_DAY * (dealRequest.DurationInDays - dealRequest.StartEpochInDays)
        < 2 ^ 63 := by
      simp only [EPOCH_PER_DAY]
      omega
    exact ⟨(v2 hd hno).1, fun hlo hhi => (v2 hd hno).2 hlo hhi hs⟩
  rcases hres with hres | hres
  · subst hres
    obtain ⟨resp, p, r1, r2, -, r4, r5, hv⟩ := handleImportDeal_parameters hok
    exact ⟨resp, p, r1, r2, by rw [r4]; simp, key _ p hv r5⟩
  · subst hres
    obtain ⟨resp, p, rows, r1, r2, -, r4, r5, -, hv⟩ := handleEndToEndDeal_parameters hok
    exact ⟨resp, p, r1, r2, by rw [r4]; simp, key _ p hv r5⟩

/-! ## `handleMultipleImportDeals`: the parameter rows of the array -/

theorem proposalEpochs_after_steps_multiple {cid : String} {size size2 : Int}
    {status apiKey : String} {content : Content} {t0 t1 t2 t3 t4 : Txn}
    (h1 : createPieceCommitment cid size status t0 = t1)
    (h2 : createContent content t1 = t2)
    (h3 : assignMiner size2 t2 = (t3, none))
    (h4 : assignWalletMultiple apiKey t3 = (t4, none)) :
    proposalEpochs t4.node t4.dealRequest = proposalEpochs t0.node t0.dealRequest ∧
    t4.node.DB.content_deal_proposal_parameters = t0.node.DB.content_deal_proposal_parameters ∧
    t4.node.DateToHeight = t0.node.DateToHeight ∧ t4.node.AddDate = t0.node.AddDate ∧
    t4.node.Now = t0.node.Now ∧ t4.node.DEFAULT_DURATION = t0.node.DEFAULT_DURATION ∧
    t4.node.Config = t0.node.Config := by
  obtain ⟨-, -, -, a4, -, -, a7, a8, a9, -, -, -, -, -, a15, a16, a17, a18, -⟩ :=
    createPieceCommitment_frame h1
  obtain ⟨-, -, -, -, -, b6, -, -, -, b10, b11, -, -, -, -, b16, b17, b18, b19, -, -, b22⟩ :=
    createContent_spec h2
  obtain ⟨-, -, -, c4, -, -, -, -, c9, c10, -, -, c13, c14, c15, c16, c17⟩ :=
    assignMiner_frame _ _ _ _ h3
  obtain ⟨-, -, -, d4, -, -, -, -, d9, d10, -, d12, d13, d14, d15, d16⟩ :=
    assignWalletMultiple_frame _ _ _ _ h4
  refine ⟨proposalEpochs_congr (by rw [d9, c9, b10, a8]) (by rw [d10, c10, b11, a9])
    (by rw [d12, c13, b16, a15]) (by rw [d13, c14, b17, a16]) (by rw [d14, c15, b18, a17])
    (by rw [d15, c16, b19, a18]), ?_, ?_, ?_, ?_, ?_, ?_⟩
  · rw [d4, c4, b6, a4]
  · rw [d12, c13, b16, a15]
  · rw [d13, c14, b17, a16]
  · rw [d14, c15, b18, a17]
  · rw [d15, c16, b19, a18]
  · rw [d16, c17, b22, a7]

/-- One accepted request of the array: it passed validation, one parameter row was
inserted for it, and the epochs of that row are those of the request. -/
theorem multipleImportOne_of_ok {apiKey : String} {dealRequest : DealRequest}
    {node : DeltaNode} {t : Txn}
    (h : multipleImportOne apiKey dealRequest node = (t, none)) :
    ValidateMeta { dealRequest with ConnectionMode := "import" } node.Config = .ok () ∧
    t.node.DB.content_deal_proposal_parameters =
      node.DB.content_deal_proposal_parameters ++ [t.dealProposalParam] ∧
    (t.dealProposalParam.StartEpoch, t.dealProposalParam.EndEpoch, t.dealProposalParam.Duration)
      = proposalEpochs node dealRequest ∧
    t.node.DateToHeight = node.DateToHeight ∧ t.node.AddDate = node.AddDate ∧
    t.node.Now = node.Now ∧ t.node.DEFAULT_DURATION = node.DEFAULT_DURATION ∧
    t.node.Config = node.Config := by
  unfold multipleImportOne at h
  by_cases hm : dealRequest.ConnectionMode = "e2e"
  · simp [hm] at h
  · simp only [hm, if_false] at h
    cases hv : ValidateMeta { dealRequest with ConnectionMode := "import" } node.Config with
    | error e => simp [hv] at h
    | ok u =>
      simp only [hv] at h
      cases hp : ValidatePieceCommitmentMeta dealRequest.PieceCommitment with
      | error e => simp [hp] at h
      | ok u2 =>
        simp only [hp] at h
        split at h
        · simp at h
        · rename_i t3 h3
          split at h
          · simp at h
          · rename_i t4 h4
            obtain ⟨e1, e2, e3, e4, e5, e6, e7⟩ :=
              proposalEpochs_after_steps_multiple rfl rfl h3 h4
            simp only at e1 e2 e3 e4 e5 e6 e7
            simp only [Prod.mk.injEq, and_true] at h
            subst h
            simp only [multipleImportAddJob, createProposalParameters,
              DB.CreateContentDealProposalParameters, proposalParameters]
            refine ⟨trivial, ?_, ?_, e3, e4, e5, e6, e7⟩
            · rw [e2]
            · rw [e1]
              exact proposalEpochs_congr rfl rfl rfl rfl rfl rfl

/-- The loop of `handleMultipleImportDeals`, when it ends without error: one parameter
row per request, in the order of the requests. -/
theorem multipleImportLoop_parameters (apiKey : String) (dealRequests : List DealRequest) :
    ∀ (node node2 : DeltaNode) (acc out : List DealResponse),
    multipleImportLoop apiKey dealRequests node acc = (none, out, node2) →
    ∃ rows : List ContentDealProposalParameters,
      node2.DB.content_deal_proposal_parameters =
        node.DB.content_deal_proposal_parameters ++ rows ∧
      List.Forall₂ (fun r p =>
        ValidateMeta { r with ConnectionMode := "import" } node.Config = .ok () ∧
        (p.StartEpoch, p.EndEpoch, p.Duration) = proposalEpochs node r) dealRequests rows := by
  induction dealRequests with
  | nil =>
    intro node node2 acc out h
    simp only [multipleImportLoop, Prod.mk.injEq, true_and] at h
    exact ⟨[], by rw [← h.2]; simp, List.Forall₂.nil⟩
  | cons r rest ih =>
    intro node node2 acc out h
    unfold multipleImportLoop at h
    rcases hone : multipleImportOne apiKey r node with ⟨t, e⟩
    rw [hone] at h
    cases e with
    | some e => simp at h
    | none =>
      simp only at h
      obtain ⟨o1, o2, o3, o4, o5, o6, o7, o8⟩ := multipleImportOne_of_ok hone
      obtain ⟨rows, hrows, hall⟩ := ih t.node node2 _ out h
      refine ⟨t.dealProposalParam :: rows, ?_, List.Forall₂.cons ⟨o1, o3⟩ ?_⟩
      · rw [hrows, o2, List.append_assoc, List.singleton_append]
      · refine List.Forall₂.imp ?_ hall
        intro a b hab
        rw [o8] at hab
        exact ⟨hab.1, hab.2.trans (proposalEpochs_congr rfl rfl o4 o5 o6 o7)⟩

theorem handleMultipleImportDeals_parameters {node : DeltaNode} {apiKey : String}
    {dealRequests : List DealRequest}
    (hok : (handleMultipleImportDeals node apiKey dealRequests).err = none) :
    List.Forall₂ (fun r p =>
        ValidateMeta { r with ConnectionMode := "import" } node.Config = .ok () ∧
        (p.StartEpoch, p.EndEpoch, p.Duration) = proposalEpochs node r) dealRequests
      (inserted DB.content_deal_proposal_parameters node.DB
        (handleMultipleImportDeals node apiKey dealRequests).node.DB) := by
  unfold handleMultipleImportDeals at hok ⊢
  rw [Transaction_of_ok hok]
  rw [Transaction_of_ok hok] at hok
  rcases hloop : multipleImportLoop apiKey dealRequests node [] with ⟨e, out, node2⟩
  rw [hloop] at hok
  cases e with
  | some e => simp at hok
  | none =>
    simp only
    obtain ⟨rows, hrows, hall⟩ := multipleImportLoop_parameters apiKey dealRequests _ _ _ _ hloop
    rw [inserted_append DB.content_deal_proposal_parameters _ _ rows hrows]
    exact hall

/-- The duration of a row with the epochs of an accepted request. -/
theorem duration_pos_iff (node : DeltaNode) (dealRequest : DealRequest) (mode : String)
    (p : ContentDealProposalParameters)
    (hv : ValidateMeta { dealRequest with ConnectionMode := mode } node.Config = .ok ())
    (hp : (p.StartEpoch, p.EndEpoch, p.Duration) = proposalEpochs node dealRequest)
    (hdef : 0 < node.DEFAULT_DURATION)
    (hfit : EPOCH_PER_DAY * (dealRequest.DurationInDays - dealRequest.StartEpochInDays)
      < 2 ^ 63) :
    (0 < p.Duration ↔
      ¬ (dealRequest.StartEpochInDays = dealRequest.DurationInDays ∧
        dealRequest.StartEpochInDays ≠ 0)) := by
  have hcongr : proposalEpochs node dealRequest =
      proposalEpochs node { dealRequest with ConnectionMode := mode } :=
    proposalEpochs_congr rfl rfl rfl rfl rfl rfl
  obtain ⟨-, v2, v3⟩ := proposalEpochs_of_valid node _ node.Config hv
  obtain ⟨-, -, -, -, -, -, -, -, b8, b9, b10, -⟩ := ValidateMeta_ok hv
  simp only at v2 v3 b8 b9 b10
  rw [← hcongr, ← hp] at v2 v3
  simp only at v2 v3
  by_cases hd : dealRequest.StartEpochInDays ≠ 0 ∧ dealRequest.DurationInDays ≠ 0
  · rw [(v2 hd hfit).1]
    simp only [EPOCH_PER_DAY]
    constructor
    · intro h hc
      rw [hc.1] at h
      simp at h
    · intro h
      have : dealRequest.StartEpochInDays ≠ dealRequest.DurationInDays := fun e => h ⟨e, hd.1⟩
      omega
  · rw [(v3 hd).2.2]
    constructor
    · intro _ hc
      exact hd ⟨hc.2, fun e => hc.2 (by rw [hc.1, e])⟩
    · intro _
      exact hdef

/-- C4, amended, at the import request with `start_epoch_in_days = 7` and
`duration_in_days = 180` on the example node. -/
theorem handler_writes_proposal_epochs_witness :
    ∃ resp p,
      (handleImportDeal exampleNode "key" (importRequestWithDays 7 180)).response = some resp ∧
      resp.DealProposalParameterRequest = p ∧
      p ∈ (handleImportDeal exampleNode "key"
        (importRequestWithDays 7 180)).node.DB.content_deal_proposal_parameters ∧
      ((importRequestWithDays 7 180).StartEpochInDays ≠ 0 ∧
          (importRequestWithDays 7 180).DurationInDays ≠ 0 →
        p.StartEpoch = exampleNode.DateToHeight (exampleNode.AddDate exampleNode.Now
          (importRequestWithDays 7 180).StartEpochInDays) ∧
        p.EndEpoch = wrap64 (p.StartEpoch + EPOCH_PER_DAY *
          ((importRequestWithDays 7 180).DurationInDays -
            (importRequestWithDays 7 180).StartEpochInDays)) ∧
        p.Duration = wrap64 (EPOCH_PER_DAY *
          ((importRequestWithDays 7 180).DurationInDays -
            (importRequestWithDays 7 180).StartEpochInDays))) ∧
      ((importRequestWithDays 7 180).StartEpochInDays ≠ 0 ∧
          (importRequestWithDays 7 180).DurationInDays ≠ 0 →
        0 ≤ (importRequestWithDays 7 180).StartEpochInDays →
        p.Duration = EPOCH_PER_DAY *
          ((importRequestWithDays 7 180).DurationInDays -
            (importRequestWithDays 7 180).StartEpochInDays) ∧
        (-(2 ^ 62) ≤ p.StartEpoch → p.StartEpoch ≤ 2 ^ 62 →
          p.EndEpoch = p.StartEpoch + EPOCH_PER_DAY *
            ((importRequestWithDays 7 180).DurationInDays -
              (importRequestWithDays 7 180).StartEpochInDays))) ∧
      (¬ ((importRequestWithDays 7 180).StartEpochInDays ≠ 0 ∧
          (importRequestWithDays 7 180).DurationInDays ≠ 0) →
        p.StartEpoch = 0 ∧ p.EndEpoch = 0 ∧ p.Duration = exampleNode.DEFAULT_DURATION) :=
  handler_writes_proposal_epochs exampleNode "key" exampleFile (importRequestWithDays 7 180)
    (handleImportDeal exampleNode "key" (importRequestWithDays 7 180)) (Or.inl rfl) rfl

/-- C5, counterexample: `handleImportDeal` accepts `start_epoch_in_days = 5` together with
`duration_in_days = 5`, and the row it writes has `duration = 0`, although the default
duration of the node is positive. -/
theorem handleImportDeal_equal_days_zero_duration :
    (handleImportDeal exampleNode "key" (importRequestWithDays 5 5)).err = none ∧
    ValidateMeta (importRequestWithDays 5 5) exampleNode.Config = .ok () ∧
    (inserted DB.content_deal_proposal_parameters exampleNode.DB
      (handleImportDeal exampleNode "key" (importRequestWithDays 5 5)).node.DB).map
        ContentDealProposalParameters.Duration = [0] ∧
    0 < exampleNode.DEFAULT_DURATION := by
  refine ⟨rfl, rfl, ?_, ?_⟩ <;> decide

/-- C5, amended: every ContentDealProposalParameters row written by an ingestion handler
(`handleImportDeal`; `handleEndToEndDeal`, the rows of its replicas included;
`handleMultipleImportDeals`, one row per request of the array) for a request the
handler accepts has `duration > 0` exactly when `start_epoch_in_days` and
`duration_in_days` differ or are both zero, assuming the default duration is positive
and `EPOCH_PER_DAY × (duration_in_days − start_epoch_in_days)` fits a signed 64-bit
integer (it does whenever `start_epoch_in_days ≥ 0`); when the two fields are equal
and non-zero the duration is not positive. -/
theorem handler_writes_positive_duration (node : DeltaNode) (apiKey : String)
    (file : FileHeader) (dealRequest : DealRequest) (dealRequests : List DealRequest)
    (hdef : 0 < node.DEFAULT_DURATION) :
    ((handleImportDeal node apiKey dealRequest).err = none →
      EPOCH_PER_DAY * (dealRequest.DurationInDays - dealRequest.StartEpochInDays) < 2 ^ 63 →
      ∀ p ∈ inserted DB.content_deal_proposal_parameters node.DB
          (handleImportDeal node apiKey dealRequest).node.DB,
        (0 < p.Duration ↔
          ¬ (dealRequest.StartEpochInDays = dealRequest.DurationInDays ∧
            dealRequest.StartEpochInDays ≠ 0))) ∧
    ((handleEndToEndDeal node apiKey file dealRequest).err = none →
      EPOCH_PER_DAY * (dealRequest.DurationInDays - dealRequest.StartEpochInDays) < 2 ^ 63 →
      ∀ p ∈ inserted DB.content_deal_proposal_parameters node.DB
          (handleEndToEndDeal node apiKey file dealRequest).node.DB,
        (0 < p.Duration ↔
          ¬ (dealRequest.StartEpochInDays = dealRequest.DurationInDays ∧
            dealRequest.StartEpochInDays ≠ 0))) ∧
    ((handleMultipleImportDeals node apiKey dealRequests).err = none →
      (∀ r ∈ dealRequests,
        EPOCH_PER_DAY * (r.DurationInDays - r.StartEpochInDays) < 2 ^ 63) →
      List.Forall₂ (fun r p =>
          (0 < p.Duration ↔ ¬ (r.StartEpochInDays = r.DurationInDays ∧ r.StartEpochInDays ≠ 0)))
        dealRequests
        (inserted DB.content_deal_proposal_parameters node.DB
          (handleMultipleImportDeals node apiKey dealRequests).node.DB)) := by
  refine ⟨fun hok hfit => ?_, fun hok hfit => ?_, fun hok hfit => ?_⟩
  · obtain ⟨resp, p, -, -, r3, -, r5, hv⟩ := handleImportDeal_parameters hok
    intro q hq
    rw [r3, List.mem_singleton] at hq
    subst hq
    exact duration_pos_iff node dealRequest _ q hv r5 hdef hfit
  · obtain ⟨resp, p, rows, -, -, r3, -, r5, r6, hv⟩ := handleEndToEndDeal_parameters hok
    intro q hq
    rw [r3] at hq
    rcases List.mem_cons.mp hq with hq | hq
    · subst hq
      exact duration_pos_iff node dealRequest _ q hv r5 hdef hfit
    · have hq2 := (r6 q hq).2.2
      rw [hq2]
      exact duration_pos_iff node dealRequest _ p hv r5 hdef hfit
  · have hall := handleMultipleImportDeals_parameters hok
    generalize inserted DB.content_deal_proposal_parameters node.DB
      (handleMultipleImportDeals node apiKey dealRequests).node.DB = rows at hall
    clear hok
    induction hall with
    | nil => exact List.Forall₂.nil
    | @cons a b l1 l2 hab _ ih =>
      refine List.Forall₂.cons ?_ (ih (fun r hr => hfit r (List.mem_cons_of_mem _ hr)))
      exact duration_pos_iff node a _ b hab.1 hab.2 hdef (hfit a (List.mem_cons_self _ _))

/-- C5, amended, at an import request with the default duration, an end-to-end request
with three replicas, and an array of two import requests of which the second has
`start_epoch_in_days = duration_in_days = 3`. -/
theorem handler_writes_positive_duration_witness :
    (∀ p ∈ inserted DB.content_deal_proposal_parameters exampleNode.DB
        (handleImportDeal exampleNode "key" importRequestComplete).node.DB,
      (0 < p.Duration ↔
        ¬ (importRequestComplete.StartEpochInDays = importRequestComplete.DurationInDays ∧
          importRequestComplete.StartEpochInDays ≠ 0))) ∧
    (∀ p ∈ inserted DB.content_deal_proposal_parameters exampleNode.DB
        (handleEndToEndDeal exampleNode "key" exampleFile requestThreeReplicas).node.DB,
      (0 < p.Duration ↔
        ¬ (requestThreeReplicas.StartEpochInDays = requestThreeReplicas.DurationInDays ∧
          requestThreeReplicas.StartEpochInDays ≠ 0))) ∧
    List.Forall₂ (fun r p =>
        (0 < p.Duration ↔ ¬ (r.StartEpochInDays = r.DurationInDays ∧ r.StartEpochInDays ≠ 0)))
      [importRequestComplete, importRequestWithDays 3 3]
      (inserted DB.content_deal_proposal_parameters exampleNode.DB
        (handleMultipleImportDeals exampleNode "key"
          [importRequestComplete, importRequestWithDays 3 3]).node.DB) :=
  ⟨(handler_writes_positive_duration exampleNode "key" exampleFile importRequestComplete
      [] (by decide)).1 rfl (by decide),
   (handler_writes_positive_duration exampleNode "key" exampleFile requestThreeReplicas
      [] (by decide)).2.1 rfl (by decide),
   (handler_writes_positive_duration exampleNode "key" exampleFile importRequestComplete
      [importRequestComplete, importRequestWithDays 3 3] (by decide)).2.2 rfl (by decide)⟩

/-! ## C10: replication -/

/-- C10, at the failing input: the miner assignment service finds no provider for the one
replica of an end-to-end request. `handleEndToEndDeal` still responds with success and
without replicas; two Content rows and two parameter rows are in the store, but only
the original has a ContentMiner row, only one Piece Commitment Computer job is
enqueued, and `Dispatcher.Start` is called with 1. -/
theorem handleEndToEndDeal_replica_without_miner :
    (handleEndToEndDeal nodeWithoutProviders "key" exampleFile requestOneReplica).err = none ∧
    (handleEndToEndDeal nodeWithoutProviders "key" exampleFile requestOneReplica).response.map
      (fun resp => (resp.Status, resp.ReplicatedContents)) = some ("success", []) ∧
    (inserted DB.contents nodeWithoutProviders.DB
      (handleEndToEndDeal nodeWithoutProviders "key" exampleFile requestOneReplica).node.DB).map
        Content.ID = [1, 2] ∧
    (inserted DB.content_deal_proposal_parameters nodeWithoutProviders.DB
      (handleEndToEndDeal nodeWithoutProviders "key" exampleFile requestOneReplica).node.DB).map
        ContentDealProposalParameters.Content = [1, 2] ∧
    (inserted DB.content_miners nodeWithoutProviders.DB
      (handleEndToEndDeal nodeWithoutProviders "key" exampleFile requestOneReplica).node.DB).map
        ContentMiner.Content = [1] ∧
    (handleEndToEndDeal nodeWithoutProviders "key" exampleFile
      requestOneReplica).node.Dispatcher.jobs.length = 1 ∧
    (handleEndToEndDeal nodeWithoutProviders "key" exampleFile
      requestOneReplica).node.Dispatcher.starts = [1] := by
  refine ⟨rfl, ?_, ?_, ?_, ?_, ?_, ?_⟩ <;> decide

/-! ## Error messages -/

theorem ite_error_ne {c : Prop} [Decidable c] {e m : String} {x : Except String Unit}
    (he : e ≠ m) (hx : x ≠ .error m) : (if c then (Except.error e) else x) ≠ .error m := by
  split
  · intro h
    injection h with h
    exact he h
  · exact hx

theorem withConnectionModeDefault_error {r : DealRequest} {e : String}
    (h : withConnectionModeDefault r = .error e) :
    e = "connection mode can only be e2e or import" := by
  unfold withConnectionModeDefault at h
  split_ifs at h
  cases h
  rfl

theorem validateReferences_ne_file_size (r : DealRequest) :
    validateReferences r ≠ .error "File size is too small" := by
  unfold validateReferences
  iterate 5 refine ite_error_ne (by decide) ?_
  intro h
  cases h

/-- No check of `ValidateMeta` answers with the message of the file size rule. -/
theorem ValidateMeta_ne_file_size (r : DealRequest) (config : Config) :
    ValidateMeta r config ≠ .error "File size is too small" := by
  unfold ValidateMeta
  iterate 6 refine ite_error_ne (by decide) ?_
  refine ite_error_ne ?_ ?_
  · intro h
    have h2 := congrArg String.length h
    rw [String.length_append] at h2
    have h3 : "replication factor can only be up to ".length = 37 := by decide
    have h4 : "File size is too small".length = 22 := by decide
    omega
  iterate 6 refine ite_error_ne (by decide) ?_
  cases hm : withConnectionModeDefault (withVerifyStateDefault r) with
  | error e =>
    simp only
    rw [withConnectionModeDefault_error hm]
    intro h
    injection h with h
    exact absurd h (by decide)
  | ok r2 => exact validateReferences_ne_file_size r2

/-- The error of a failed transaction starts with the handler's wrapping text, so it is
none of the shorter messages. -/
theorem Transaction_err_ne {ρ : Type} (node : DeltaNode) (wrap m : String)
    (fc : DeltaNode → HandlerResult ρ) (h : m.length ≤ wrap.length) :
    (Transaction node wrap fc).err ≠ some m := by
  unfold Transaction
  simp only
  split
  · rename_i e he
    intro h2
    injection h2 with h2
    have h3 := congrArg String.length h2
    rw [String.length_append, String.length_append] at h3
    have h4 : " ".length = 1 := by decide
    omega
  · rename_i he
    rw [he]
    exact fun h2 => Option.noConfusion h2

/-! ## C13: the kill switch -/

/-- C13: when the store holds its one InstanceMeta row, a request routed through
`checkMetaFlags` is answered as follows. If the row has `disable_request = true`, the
middleware writes HTTP 403 with the body "request is disabled", whatever the wrapped
handler is, and the node is as it was (the handler is not invoked: nothing is
validated, no row written). If the row has `disable_request = false`, the outcome is
exactly that of the wrapped handler run on the node. -/
theorem checkMetaFlags_disable_request {ρ : Type} (next : DeltaNode → HandlerResult ρ)
    (node : DeltaNode) (instanceMeta : InstanceMeta)
    (h : node.DB.instance_metas = [instanceMeta]) :
    (instanceMeta.DisableRequest = true →
      checkMetaFlags next node = .JSON 403 "request is disabled" node) ∧
    (instanceMeta.DisableRequest = false → checkMetaFlags next node = .next (next node)) := by
  have hfirst : node.DB.FirstInstanceMeta = instanceMeta := by
    unfold DB.FirstInstanceMeta
    rw [h]
    rfl
  unfold checkMetaFlags
  simp only [hfirst]
  constructor
  · intro hd
    rw [if_pos hd]
  · intro hd
    rw [if_neg (by rw [hd]; exact Bool.false_ne_true)]

/-- C13, witness: with the kill switch set, `/deal/import` answers 403 for the complete import
request and leaves the node alone; with the switch off, the same request gets the
outcome of `handleImportDeal`. -/
theorem checkMetaFlags_disable_request_witness :
    nodeRequestsDisabled.DB.instance_metas = [{ ID := 1, DisableRequest := true }] ∧
    nodeRequestsEnabled.DB.instance_metas = [{ ID := 1, DisableRequest := false }] ∧
    dealImportRoute nodeRequestsDisabled "key" importRequestComplete =
      .JSON 403 "request is disabled" nodeRequestsDisabled ∧
    dealImportRoute nodeRequestsEnabled "key" importRequestComplete =
      .next (handleImportDeal nodeRequestsEnabled "key" importRequestComplete) :=
  ⟨rfl, rfl,
    (checkMetaFlags_disable_request
      (fun node => handleImportDeal node "key" importRequestComplete) nodeRequestsDisabled
      { ID := 1, DisableRequest := true } rfl).1 rfl,
    (checkMetaFlags_disable_request
      (fun node => handleImportDeal node "key" importRequestComplete) nodeRequestsEnabled
      { ID := 1, DisableRequest := false } rfl).2 rfl⟩

/-! ## C17: the import endpoint refuses the end-to-end mode -/

/-- C17: for every request whose `connection_mode` is "e2e", `handleImportDeal` returns the
error "Connection mode e2e is not supported on this import endpoint", writes no
response body, and leaves the node exactly as it was (no row, no job, no miner
assignment call); this holds whatever else the request says, valid or not, since the
test precedes validation. -/
theorem handleImportDeal_rejects_e2e_mode (node : DeltaNode) (apiKey : String)
    (dealRequest : DealRequest) (h : dealRequest.ConnectionMode = "e2e") :
    (handleImportDeal node apiKey dealRequest).err =
      some "Connection mode e2e is not supported on this import endpoint" ∧
    (handleImportDeal node apiKey dealRequest).response = none ∧
    (handleImportDeal node apiKey dealRequest).node = node := by
  unfold handleImportDeal
  rw [if_pos h]
  exact ⟨rfl, rfl, rfl⟩

/-- C17, witness: the end-to-end request with both day fields, sent to the import
endpoint. -/
theorem handleImportDeal_rejects_e2e_mode_witness :
    requestWithDays.ConnectionMode = "e2e" ∧
    (handleImportDeal exampleNode "key" requestWithDays).err =
      some "Connection mode e2e is not supported on this import endpoint" ∧
    (handleImportDeal exampleNode "key" requestWithDays).response = none ∧
    (handleImportDeal exampleNode "key" requestWithDays).node = exampleNode :=
  ⟨rfl, handleImportDeal_rejects_e2e_mode exampleNode "key" requestWithDays rfl⟩

/-! ## C14: the file size rule of verified end-to-end deals -/

/-- C14, counterexample: a verified request with `connection_mode = "import"` and a file of
999,999 bytes is refused by `handleEndToEndDeal` with the error of the connection mode
test, which comes first, not with "File size is too small". -/
theorem handleEndToEndDeal_import_mode_before_file_size :
    verifiedImportModeRequest.DealVerifyState = "verified" ∧
    smallFile.Size < 1000000 ∧
    (handleEndToEndDeal exampleNode "key" smallFile verifiedImportModeRequest).err =
      some "Connection mode import is not supported for end-to-end deal endpoint" ∧
    (handleEndToEndDeal exampleNode "key" smallFile verifiedImportModeRequest).err ≠
      some "File size is too small" := by
  refine ⟨rfl, ?_, ?_, ?_⟩ <;> decide

/-- C14, amended: for every request to `handleEndToEndDeal` whose `deal_verify_state` is
"verified": if the file has fewer than 1,000,000 bytes the handler returns an error,
writes no response and leaves the node exactly as it was (nothing pinned, no row, no
job), and the error is "File size is too small" whenever the connection mode is not
"import" (a mode the endpoint refuses one test earlier), whether or not the rest of
the request is valid; a file of 1,000,000 bytes or more never gets that error. -/
theorem handleEndToEndDeal_file_size_rule (node : DeltaNode) (apiKey : String)
    (file : FileHeader) (dealRequest : DealRequest)
    (hv : dealRequest.DealVerifyState = "verified") :
    (file.Size < 1000000 →
      (dealRequest.ConnectionMode ≠ "import" →
        (handleEndToEndDeal node apiKey file dealRequest).err = some "File size is too small") ∧
      (handleEndToEndDeal node apiKey file dealRequest).err ≠ none ∧
      (handleEndToEndDeal node apiKey file dealRequest).response = none ∧
      (handleEndToEndDeal node apiKey file dealRequest).node = node) ∧
    (1000000 ≤ file.Size →
      (handleEndToEndDeal node apiKey file dealRequest).err ≠ some "File size is too small") := by
  constructor
  · intro hs
    unfold handleEndToEndDeal
    by_cases hm : dealRequest.ConnectionMode = "import"
    · rw [if_pos hm]
      exact ⟨fun h => absurd hm h, fun h => Option.noConfusion h, rfl, rfl⟩
    · rw [if_neg hm]
      simp only
      rw [if_pos ⟨hs, hv⟩]
      exact ⟨fun _ => rfl, fun h => Option.noConfusion h, rfl, rfl⟩
  · intro hs
    unfold handleEndToEndDeal
    by_cases hm : dealRequest.ConnectionMode = "import"
    · rw [if_pos hm]
      exact fun h => absurd (Option.some.inj h) (by decide)
    · rw [if_neg hm]
      simp only
      rw [if_neg (fun h => absurd h.1 (not_lt.mpr hs))]
      cases hval : ValidateMeta { dealRequest with ConnectionMode := "e2e" } node.Config with
      | error e =>
        simp only
        intro h
        have he : e = "File size is too small" := Option.some.inj h
        rw [he] at hval
        exact ValidateMeta_ne_file_size _ _ hval
      | ok u =>
        simp only
        by_cases ho : node.FileOpens file = false
        · rw [if_pos ho]
          exact fun h => absurd (Option.some.inj h) (by decide)
        · rw [if_neg ho]
          cases hpin : node.AddPinFile file with
          | none => exact fun h => absurd (Option.some.inj h) (by decide)
          | some cid => exact Transaction_err_ne _ _ _ _ (by decide)

/-- C14, amended, witness: a verified request with a file of 999,999 bytes is refused with "File
size is too small" and the node is untouched; the same request with a file of exactly
1,000,000 bytes is accepted. -/
theorem handleEndToEndDeal_file_size_rule_witness :
    verifiedRequest.DealVerifyState = "verified" ∧
    (handleEndToEndDeal exampleNode "key" smallFile verifiedRequest).err =
      some "File size is too small" ∧
    (handleEndToEndDeal exampleNode "key" smallFile verifiedRequest).node = exampleNode ∧
    (handleEndToEndDeal exampleNode "key" millionByteFile verifiedRequest).err ≠
      some "File size is too small" ∧
    (handleEndToEndDeal exampleNode "key" millionByteFile verifiedRequest).err = none :=
  ⟨rfl,
    ((handleEndToEndDeal_file_size_rule exampleNode "key" smallFile verifiedRequest rfl).1
      (by decide)).1 (by decide),
    ((handleEndToEndDeal_file_size_rule exampleNode "key" smallFile verifiedRequest rfl).1
      (by decide)).2.2.2,
    (handleEndToEndDeal_file_size_rule exampleNode "key" millionByteFile verifiedRequest rfl).2
      (by decide),
    by decide⟩

/-! ## C16: connection modes other than `e2e` and `import` -/

theorem withConnectionModeDefault_of_unknown_mode {r : DealRequest}
    (hm1 : r.ConnectionMode ≠ "") (hm2 : r.ConnectionMode ≠ "e2e")
    (hm3 : r.ConnectionMode ≠ "import") :
    withConnectionModeDefault (withVerifyStateDefault r) =
      .error "connection mode can only be e2e or import" := by
  obtain ⟨f1, -⟩ := withVerifyStateDefault_fields r
  unfold withConnectionModeDefault
  rw [if_pos (withVerifyStateDefault_ne r), f1, if_neg hm1, if_neg hm2, if_neg hm3]

/-- When the request with some connection mode put in place of its own passes
`ValidateMeta`, the request itself gets as far as the connection mode switch. -/
theorem ValidateMeta_of_unknown_mode {r : DealRequest} {config : Config} {mode : String}
    (hm1 : r.ConnectionMode ≠ "") (hm2 : r.ConnectionMode ≠ "e2e")
    (hm3 : r.ConnectionMode ≠ "import")
    (h : ValidateMeta { r with ConnectionMode := mode } config = .ok ()) :
    ValidateMeta r config = .error "connection mode can only be e2e or import" := by
  have hne : ({} : DealRequest) ≠ r :=
    fun e => hm1 (congrArg DealRequest.ConnectionMode e).symm
  unfold ValidateMeta at h ⊢
  simp only [ite_error_eq_ok] at h
  obtain ⟨h0, h1, h2, h3, -, h5, h6, h7, h8, h9, h10, h11, h12, -⟩ := h
  have hne2 : ({} : DealRequest) ≠ { r with ConnectionMode := mode } := h0
  simp only [hne2, ne_eq, not_false_eq_true, true_and] at h1 h2 h3 h5 h6 h7 h8 h9 h10 h11 h12
  rw [if_neg hne, if_neg (fun e => h1 e.2), if_neg (fun e => h2 e.2), if_neg (fun e => h3 e.2),
    if_neg (fun e => hm3 e.2.2), if_neg (fun e => h5 e.2), if_neg (fun e => h6 e.2),
    if_neg (fun e => h7 e.2), if_neg (fun e => h8 e.2), if_neg (fun e => h9 e.2), if_neg h10,
    if_neg (fun e => h11 e.2), if_neg (fun e => h12 e.2),
    withConnectionModeDefault_of_unknown_mode hm1 hm2 hm3]

/-- C16, counterexample: for the complete import request with `connection_mode = "http"`,
`ValidateMeta` returns "connection mode can only be e2e or import", yet both
`handleImportDeal` and `handleEndToEndDeal` accept the request and each inserts a
Content for it (with connection mode `import` and `e2e`). -/
theorem handlers_accept_unknown_connection_mode :
    unknownModeRequest.ConnectionMode = "http" ∧
    ValidateMeta unknownModeRequest exampleNode.Config =
      .error "connection mode can only be e2e or import" ∧
    (handleImportDeal exampleNode "key" unknownModeRequest).err = none ∧
    (inserted DB.contents exampleNode.DB
      (handleImportDeal exampleNode "key" unknownModeRequest).node.DB).map
        (fun c => (c.ID, c.Cid, c.ConnectionMode)) = [(1, "bafy", "import")] ∧
    (handleEndToEndDeal exampleNode "key" exampleFile unknownModeRequest).err = none ∧
    (inserted DB.contents exampleNode.DB
      (handleEndToEndDeal exampleNode "key" exampleFile unknownModeRequest).node.DB).map
        (fun c => (c.ID, c.Cid, c.ConnectionMode)) = [(1, "bafy-a.car", "e2e")] := by
  refine ⟨rfl, rfl, ?_, ?_, ?_, ?_⟩ <;> decide

/-- C16, amended: `ValidateMeta` rejects every request whose `connection_mode` is not empty,
"e2e" or "import", and the error is "connection mode can only be e2e or import" whenever
the request passes validation once its mode is replaced by an admitted one. The
handlers do not hand the caller's mode to `ValidateMeta`: `handleEndToEndDeal` and
`handleImportDeal` overwrite it with "e2e" and "import" first, so each handles such a
request exactly as it handles the same request in its own mode (and creates a Content
whenever it does so for that one). -/
theorem unknown_connection_mode_is_overwritten (node : DeltaNode) (apiKey : String)
    (file : FileHeader) (dealRequest : DealRequest)
    (hm1 : dealRequest.ConnectionMode ≠ "") (hm2 : dealRequest.ConnectionMode ≠ "e2e")
    (hm3 : dealRequest.ConnectionMode ≠ "import") :
    ValidateMeta dealRequest node.Config ≠ .ok () ∧
    (∀ mode, ValidateMeta { dealRequest with ConnectionMode := mode } node.Config = .ok () →
      ValidateMeta dealRequest node.Config =
        .error "connection mode can only be e2e or import") ∧
    handleEndToEndDeal node apiKey file dealRequest =
      handleEndToEndDeal node apiKey file { dealRequest with ConnectionMode := "e2e" } ∧
    handleImportDeal node apiKey dealRequest =
      handleImportDeal node apiKey { dealRequest with ConnectionMode := "import" } := by
  refine ⟨fun h => ?_, fun mode h => ValidateMeta_of_unknown_mode hm1 hm2 hm3 h, ?_, ?_⟩
  · obtain ⟨-, -, -, -, -, -, -, -, -, -, -, -, -, hmode, -⟩ := ValidateMeta_ok h
    rcases hmode with hmode | hmode | hmode
    · exact hm1 hmode
    · exact hm2 hmode
    · exact hm3 hmode
  · unfold handleEndToEndDeal
    rw [if_neg hm3, if_neg (show ¬ ("e2e" = "import") by decide)]
  · unfold handleImportDeal
    rw [if_neg hm2, if_neg (show ¬ ("import" = "e2e") by decide)]

/-- C16, amended, witness: the request with mode "http" is rejected by `ValidateMeta` with
the message of the mode switch, and both handlers treat it as they treat the request
in their own mode. -/
theorem unknown_connection_mode_is_overwritten_witness :
    unknownModeRequest.ConnectionMode ≠ "" ∧ unknownModeRequest.ConnectionMode ≠ "e2e" ∧
    unknownModeRequest.ConnectionMode ≠ "import" ∧
    ValidateMeta unknownModeRequest exampleNode.Config =
      .error "connection mode can only be e2e or import" ∧
    handleEndToEndDeal exampleNode "key" exampleFile unknownModeRequest =
      handleEndToEndDeal exampleNode "key" exampleFile
        { unknownModeRequest with ConnectionMode := "e2e" } ∧
    handleImportDeal exampleNode "key" unknownModeRequest =
      handleImportDeal exampleNode "key" { unknownModeRequest with ConnectionMode := "import" } :=
  ⟨by decide, by decide, by decide,
    (unknown_connection_mode_is_overwritten exampleNode "key" exampleFile unknownModeRequest
      (by decide) (by decide) (by decide)).2.1 "import" rfl,
    (unknown_connection_mode_is_overwritten exampleNode "key" exampleFile unknownModeRequest
      (by decide) (by decide) (by decide)).2.2⟩

/-! ## The steps of a transaction: what they keep of the request and of the node -/

theorem createPieceCommitment_keeps (cid : String) (size : Int) (status : String) (t : Txn) :
    (createPieceCommitment cid size status t).dealRequest = t.dealRequest ∧
    (createPieceCommitment cid size status t).node =
      { t.node with DB := (createPieceCommitment cid size status t).node.DB } ∧
    (createPieceCommitment cid size status t).content = t.content ∧
    (createPieceCommitment cid size status t).dealProposalParam = t.dealProposalParam := by
  unfold createPieceCommitment
  split
  · exact ⟨rfl, rfl, rfl, rfl⟩
  · exact ⟨rfl, rfl, rfl, rfl⟩

theorem createContent_keeps (content : Content) (t : Txn) :
    (createContent content t).dealRequest = { t.dealRequest with Cid := content.Cid } ∧
    (createContent content t).node = { t.node with DB := (createContent content t).node.DB } ∧
    (createContent content t).dealProposalParam = t.dealProposalParam :=
  ⟨rfl, rfl, rfl⟩

theorem assignMiner_keeps {size : Int} {t t2 : Txn} {e : Option String}
    (h : assignMiner size t = (t2, e)) :
    t2.dealRequest = { t.dealRequest with Miner := t2.dealRequest.Miner } ∧
    t2.node = { t.node with DB := t2.node.DB
                            MinerAssignmentCalls := t2.node.MinerAssignmentCalls } ∧
    t2.dealProposalParam = t.dealProposalParam := by
  unfold assignMiner at h
  by_cases hmi : t.dealRequest.Miner = ""
  · rw [if_pos hmi] at h
    simp only at h
    cases hp : t.node.GetSPWithGivenBytes t.node.MinerAssignmentCalls size with
    | error e => rw [hp] at h; simp only at h; cases h; exact ⟨rfl, rfl, rfl⟩
    | ok a =>
      rw [hp] at h
      simp only at h
      split at h <;> (cases h; exact ⟨rfl, rfl, rfl⟩)
  · rw [if_neg hmi] at h
    cases h
    exact ⟨rfl, rfl, rfl⟩

theorem assignWallet_keeps {apiKey : String} {t t2 : Txn} {e : Option String}
    (h : assignWallet apiKey t = (t2, e) ∨ assignWalletMultiple apiKey t = (t2, e)) :
    t2.dealRequest = { t.dealRequest with Wallet := t2.dealRequest.Wallet } ∧
    t2.node = { t.node with DB := t2.node.DB } ∧
    t2.dealProposalParam = t.dealProposalParam := by
  rcases h with h | h
  · unfold assignWallet at h
    by_cases hw : ({} : WalletRequest) ≠ t.dealRequest.Wallet
    · rw [if_pos hw] at h
      simp only at h
      split at h <;> (cases h; exact ⟨rfl, rfl, rfl⟩)
    · rw [if_neg hw] at h
      cases h
      exact ⟨rfl, rfl, rfl⟩
  · unfold assignWalletMultiple at h
    by_cases hw : ({} : WalletRequest) ≠ t.dealRequest.Wallet
    · rw [if_pos hw] at h
      simp only at h
      split at h <;> (cases h; exact ⟨rfl, rfl, rfl⟩)
    · rw [if_neg hw] at h
      cases h
      exact ⟨rfl, rfl, rfl⟩

/-! ## A wallet address nobody registered under the key -/

theorem FirstWallet_of_no_match (tx : DB) (cond : Wallet → Bool)
    (h : ∀ w ∈ tx.wallets, cond w = false) : tx.FirstWallet cond = {} := by
  unfold DB.FirstWallet
  have hf : tx.wallets.filter cond = [] := by
    rw [List.filter_eq_nil_iff]
    intro w hw
    rw [h w hw]
    exact Bool.false_ne_true
  rw [hf]

theorem assignWallet_of_not_registered (apiKey : String) (t : Txn)
    (haddr : t.dealRequest.Wallet.Address ≠ "")
    (hreg : ∀ w ∈ t.node.DB.wallets,
      ¬ (w.Addr = t.dealRequest.Wallet.Address ∧ w.Owner = apiKey)) :
    assignWallet apiKey t =
      (t, some "Wallet not found, please make sure the wallet is registered") := by
  have hne : ({} : WalletRequest) ≠ t.dealRequest.Wallet :=
    fun e => haddr (congrArg WalletRequest.Address e).symm
  have hlook : lookupWallet t.node.DB apiKey t.dealRequest.Wallet = {} := by
    unfold lookupWallet
    rw [if_pos haddr]
    exact FirstWallet_of_no_match _ _ (fun w hw => decide_eq_false (hreg w hw))
  unfold assignWallet
  rw [if_pos hne]
  simp only [hlook]
  rfl

theorem Transaction_of_err {ρ : Type} {node : DeltaNode} {wrap : String}
    {fc : DeltaNode → HandlerResult ρ} {e : String} (h : (fc node).err = some e) :
    (Transaction node wrap fc).err = some (wrap ++ " " ++ e) ∧
    (Transaction node wrap fc).node.DB = node.DB ∧
    (Transaction node wrap fc).node.Dispatcher = (fc node).node.Dispatcher := by
  unfold Transaction
  simp only [h]
  exact ⟨trivial, trivial, trivial⟩

/-- The transaction of `handleImportDeal` on a request with an unregistered wallet
address: it fails, at the wallet lookup when the miner resolves, and hands nothing to
the dispatcher. -/
theorem handleImportDealTxn_of_not_registered (node : DeltaNode) (apiKey : String)
    (r : DealRequest) (haddr : r.Wallet.Address ≠ "")
    (hreg : ∀ w ∈ node.DB.wallets, ¬ (w.Addr = r.Wallet.Address ∧ w.Owner = apiKey)) :
    (∃ e, (handleImportDealTxn apiKey r node).err = some e) ∧
    (handleImportDealTxn apiKey r node).node.Dispatcher = node.Dispatcher ∧
    ((r.Miner ≠ "" ∨ ∃ a, node.GetSPWithGivenBytes node.MinerAssignmentCalls r.Size = .ok a) →
      (handleImportDealTxn apiKey r node).err =
        some "Wallet not found, please make sure the wallet is registered") := by
  unfold handleImportDealTxn
  simp only
  generalize h1 : createPieceCommitment r.Cid r.Size COMMP_STATUS_COMITTED
    { node := node, dealRequest := r } = t1
  generalize h2 : createContent
    { Name := t1.dealRequest.Cid
      Size := t1.dealRequest.Size
      Cid := t1.dealRequest.Cid
      RequestingApiKey := apiKey
      PieceCommitmentId := t1.pieceCommp.ID
      AutoRetry := t1.dealRequest.AutoRetry
      Status := CONTENT_DEAL_MAKING_PROPOSAL
      ConnectionMode := t1.dealRequest.ConnectionMode } t1 = t2
  obtain ⟨-, -, -, -, a5, a6, -, -, -, a10, a11, a12, -, -, -, -, -, -, a19, a20⟩ :=
    createPieceCommitment_frame h1
  obtain ⟨-, -, -, -, -, -, b7, b8, -, -, -, b12, b13, b14, -, -, -, -, -, b20, b21, -⟩ :=
    createContent_spec h2
  simp only at a5 a6 a10 a11 a12 a19 a20
  rcases h3 : assignMiner t2.dealRequest.Size t2 with ⟨t3, e⟩
  obtain ⟨-, -, -, -, c5, c6, -, -, -, -, c11, -⟩ := assignMiner_frame _ _ _ _ h3
  cases e with
  | some e =>
    simp only
    refine ⟨⟨e, rfl⟩, by rw [c6, b8, a6], fun hres => ?_⟩
    have hnone := assignMiner_of_resolves t2.dealRequest.Size t2
      (by rw [b12, a10, b20, a19, b21, a20, b14, a12]; exact hres)
    rw [h3] at hnone
    cases hnone
  | none =>
    simp only
    have hw := assignWallet_of_not_registered apiKey t3 (by rw [c11, b13, a11]; exact haddr)
      (by rw [c5, b7, a5, c11, b13, a11]; exact hreg)
    rw [hw]
    simp only
    exact ⟨⟨_, rfl⟩, by rw [c6, b8, a6], fun _ => trivial⟩

/-- The transaction of `handleEndToEndDeal` on a request with an unregistered wallet
address. -/
theorem handleEndToEndDealTxn_of_not_registered (node : DeltaNode) (apiKey : String)
    (file : FileHeader) (cid : String) (r : DealRequest) (haddr : r.Wallet.Address ≠ "")
    (hreg : ∀ w ∈ node.DB.wallets, ¬ (w.Addr = r.Wallet.Address ∧ w.Owner = apiKey)) :
    (∃ e, (handleEndToEndDealTxn apiKey file cid r node).err = some e) ∧
    (handleEndToEndDealTxn apiKey file cid r node).node.Dispatcher = node.Dispatcher ∧
    ((r.Miner ≠ "" ∨
        ∃ a, node.GetSPWithGivenBytes node.MinerAssignmentCalls file.Size = .ok a) →
      (handleEndToEndDealTxn apiKey file cid r node).err =
        some "Wallet not found, please make sure the wallet is registered") := by
  unfold handleEndToEndDealTxn
  simp only
  generalize h1 : createPieceCommitment cid file.Size COMMP_STATUS_OPEN
    { node := node, dealRequest := r } = t1
  generalize h2 : createContent
    { Name := file.Filename
      Size := file.Size
      Cid := cid
      RequestingApiKey := apiKey
      PieceCommitmentId := t1.pieceCommp.ID
      Status := CONTENT_PINNED
      AutoRetry := t1.dealRequest.AutoRetry
      ConnectionMode := t1.dealRequest.ConnectionMode } t1 = t2
  obtain ⟨-, -, -, -, a5, a6, -, -, -, a10, a11, a12, -, -, -, -, -, -, a19, a20⟩ :=
    createPieceCommitment_frame h1
  obtain ⟨-, -, -, -, -, -, b7, b8, -, -, -, b12, b13, b14, -, -, -, -, -, b20, b21, -⟩ :=
    createContent_spec h2
  simp only at a5 a6 a10 a11 a12 a19 a20
  rcases h3 : assignMiner file.Size t2 with ⟨t3, e⟩
  obtain ⟨-, -, -, -, c5, c6, -, -, -, -, c11, -⟩ := assignMiner_frame _ _ _ _ h3
  cases e with
  | some e =>
    simp only
    refine ⟨⟨e, rfl⟩, by rw [c6, b8, a6], fun hres => ?_⟩
    have hnone := assignMiner_of_resolves file.Size t2
      (by rw [b12, a10, b20, a19, b21, a20]; exact hres)
    rw [h3] at hnone
    cases hnone
  | none =>
    simp only
    have hw := assignWallet_of_not_registered apiKey t3 (by rw [c11, b13, a11]; exact haddr)
      (by rw [c5, b7, a5, c11, b13, a11]; exact hreg)
    rw [hw]
    simp only
    exact ⟨⟨_, rfl⟩, by rw [c6, b8, a6], fun _ => trivial⟩

/-! ## C12: a wallet address that is not registered under the caller's key -/

/-- C12: when a request references a wallet address that is not registered under the
caller's API key, `handleImportDeal` and `handleEndToEndDeal` return an error, the
store afterwards is the store before (no new Content, PieceCommitment, ContentMiner,
ContentWallet or ContentDealProposalParameters row) and the dispatcher is as it was
(no job enqueued). For every request that gets as far as the wallet lookup (it passes
the endpoint's tests and validation, for the end-to-end endpoint the file opens and is
pinned, and the miner is given or resolves), the error is the transaction's wrapping
text followed by "Wallet not found, please make sure the wallet is registered", and
the transaction is rolled back. -/
theorem handlers_reject_unregistered_wallet (node : DeltaNode) (apiKey : String)
    (file : FileHeader) (dealRequest : DealRequest)
    (haddr : dealRequest.Wallet.Address ≠ "")
    (hreg : ∀ w ∈ node.DB.wallets,
      ¬ (w.Addr = dealRequest.Wallet.Address ∧ w.Owner = apiKey)) :
    ((handleImportDeal node apiKey dealRequest).err ≠ none ∧
      (handleImportDeal node apiKey dealRequest).node.DB = node.DB ∧
      (handleImportDeal node apiKey dealRequest).node.Dispatcher = node.Dispatcher ∧
      (dealRequest.ConnectionMode ≠ "e2e" →
        ValidateMeta { dealRequest with ConnectionMode := "import" } node.Config = .ok () →
        ValidatePieceCommitmentMeta dealRequest.PieceCommitment = .ok () →
        (dealRequest.Miner ≠ "" ∨ ∃ a, node.GetSPWithGivenBytes node.MinerAssignmentCalls
          dealRequest.Size = .ok a) →
        (handleImportDeal node apiKey dealRequest).err = some
          "Error creating the piece-commitment record Wallet not found, please make sure the wallet is registered")) ∧
    ((handleEndToEndDeal node apiKey file dealRequest).err ≠ none ∧
      (handleEndToEndDeal node apiKey file dealRequest).node.DB = node.DB ∧
      (handleEndToEndDeal node apiKey file dealRequest).node.Dispatcher = node.Dispatcher ∧
      (dealRequest.ConnectionMode ≠ "import" →
        ¬ (file.Size < 1000000 ∧ dealRequest.DealVerifyState = DEAL_VERIFIED) →
        ValidateMeta { dealRequest with ConnectionMode := "e2e" } node.Config = .ok () →
        node.FileOpens file = true → (∃ cid, node.AddPinFile file = some cid) →
        (dealRequest.Miner ≠ "" ∨ ∃ a, node.GetSPWithGivenBytes node.MinerAssignmentCalls
          file.Size = .ok a) →
        (handleEndToEndDeal node apiKey file dealRequest).err = some
          "Error creating the content record Wallet not found, please make sure the wallet is registered")) := by
  constructor
  · unfold handleImportDeal
    by_cases hm : dealRequest.ConnectionMode = "e2e"
    · rw [if_pos hm]
      exact ⟨fun h => Option.noConfusion h, rfl, rfl, fun h => absurd hm h⟩
    · rw [if_neg hm]
      simp only
      cases hv : ValidateMeta { dealRequest with ConnectionMode := "import" } node.Config with
      | error e =>
        exact ⟨fun h => Option.noConfusion h, rfl, rfl, fun _ h => Except.noConfusion h⟩
      | ok u =>
        simp only
        cases hp : ValidatePieceCommitmentMeta dealRequest.PieceCommitment with
        | error e =>
          exact ⟨fun h => Option.noConfusion h, rfl, rfl, fun _ _ h => Except.noConfusion h⟩
        | ok u2 =>
          simp only
          obtain ⟨⟨e, he⟩, hd, hmsg⟩ := handleImportDealTxn_of_not_registered node apiKey
            { dealRequest with ConnectionMode := "import" } haddr hreg
          obtain ⟨t1, t2, t3⟩ :=
            @Transaction_of_err _ _ "Error creating the piece-commitment record" _ _ he
          refine ⟨by rw [t1]; exact fun h => Option.noConfusion h, t2, t3.trans hd,
            fun _ _ _ hres => ?_⟩
          have he2 := hmsg hres
          rw [he] at he2
          rw [t1, Option.some.inj he2]
          decide
  · unfold handleEndToEndDeal
    by_cases hm : dealRequest.ConnectionMode = "import"
    · rw [if_pos hm]
      exact ⟨fun h => Option.noConfusion h, rfl, rfl, fun h => absurd hm h⟩
    · rw [if_neg hm]
      simp only
      by_cases hs : file.Size < 1000000 ∧ dealRequest.DealVerifyState = DEAL_VERIFIED
      · rw [if_pos hs]
        exact ⟨fun h => Option.noConfusion h, rfl, rfl, fun _ h => absurd hs h⟩
      · rw [if_neg hs]
        cases hv : ValidateMeta { dealRequest with ConnectionMode := "e2e" } node.Config with
        | error e =>
          exact ⟨fun h => Option.noConfusion h, rfl, rfl, fun _ _ h => Except.noConfusion h⟩
        | ok u =>
          simp only
          by_cases ho : node.FileOpens file = false
          · rw [if_pos ho]
            exact ⟨fun h => Option.noConfusion h, rfl, rfl,
              fun _ _ _ h => absurd (ho.symm.trans h) Bool.false_ne_true⟩
          · rw [if_neg ho]
            cases hpin : node.AddPinFile file with
            | none =>
              exact ⟨fun h => Option.noConfusion h, rfl, rfl,
                fun _ _ _ _ h => by obtain ⟨c, hc⟩ := h; cases hc⟩
            | some cid =>
              simp only
              obtain ⟨⟨e, he⟩, hd, hmsg⟩ := handleEndToEndDealTxn_of_not_registered
                { node with Pinned := node.Pinned ++ [file] } apiKey file cid
                { dealRequest with ConnectionMode := "e2e" } haddr hreg
              obtain ⟨t1, t2, t3⟩ :=
                @Transaction_of_err _ _ "Error creating the content record" _ _ he
              refine ⟨by rw [t1]; exact fun h => Option.noConfusion h, t2, t3.trans hd,
                fun _ _ _ _ _ hres => ?_⟩
              have he2 := hmsg hres
              rw [he] at he2
              rw [t1, Option.some.inj he2]
              decide

/-- C12, witness: on the node whose one wallet is `f3abc`, the complete import
request and the verified end-to-end request with the wallet address
`f3-does-not-exist` are answered with the wrapped "Wallet not found" error, and the
store and the dispatcher are as before. -/
theorem handlers_reject_unregistered_wallet_witness :
    requestUnknownWallet.Wallet.Address ≠ "" ∧
    (∀ w ∈ nodeWithWallet.DB.wallets,
      ¬ (w.Addr = requestUnknownWallet.Wallet.Address ∧ w.Owner = "key")) ∧
    (handleImportDeal nodeWithWallet "key" requestUnknownWallet).err = some
      "Error creating the piece-commitment record Wallet not found, please make sure the wallet is registered" ∧
    (handleImportDeal nodeWithWallet "key" requestUnknownWallet).node.DB = nodeWithWallet.DB ∧
    (handleImportDeal nodeWithWallet "key" requestUnknownWallet).node.Dispatcher =
      nodeWithWallet.Dispatcher ∧
    (handleEndToEndDeal nodeWithWallet "key" exampleFile verifiedRequestUnknownWallet).err = some
      "Error creating the content record Wallet not found, please make sure the wallet is registered" ∧
    (handleEndToEndDeal nodeWithWallet "key" exampleFile verifiedRequestUnknownWallet).node.DB =
      nodeWithWallet.DB :=
  have h := handlers_reject_unregistered_wallet nodeWithWallet "key" exampleFile
    requestUnknownWallet (by decide) (by decide)
  have h2 := handlers_reject_unregistered_wallet nodeWithWallet "key" exampleFile
    verifiedRequestUnknownWallet (by decide) (by decide)
  ⟨by decide, by decide, h.1.2.2.2 (by decide) rfl rfl (Or.inl (by decide)), h.1.2.1,
    h.1.2.2.1,
    h2.2.2.2.2 (by decide) (by decide) rfl rfl ⟨_, rfl⟩ (Or.inr ⟨_, rfl⟩), h2.2.2.1⟩

/-! ## The rows one request leaves in the store -/

/-- The piece commitment block inserts at most one row, made of the caller's values. -/
theorem createPieceCommitment_rows (cid : String) (size : Int) (status : String)
    (node : DeltaNode) (r : DealRequest) :
    ∃ pcs : List PieceCommitment,
      (createPieceCommitment cid size status { node := node, dealRequest := r }).node.DB.piece_commitments
        = node.DB.piece_commitments ++ pcs ∧
      (∀ pc ∈ pcs, pc.ID ≠ 0 ∧ pc.Cid = cid ∧ pc.Status = status ∧ pc.Size = size ∧
        pc.Piece = r.PieceCommitment.Piece ∧ pc.Piece ≠ "" ∧
        pc.PaddedPieceSize = r.PieceCommitment.PaddedPieceSize ∧ pc.PaddedPieceSize ≠ 0 ∧
        pc.UnPaddedPieceSize = r.PieceCommitment.UnPaddedPieceSize) ∧
      ((createPieceCommitment cid size status { node := node, dealRequest := r }).pieceCommp.ID ≠ 0 →
        (createPieceCommitment cid size status { node := node, dealRequest := r }).pieceCommp ∈ pcs) := by
  by_cases hc : (({} : PieceCommitmentRequest) ≠ r.PieceCommitment ∧
        r.PieceCommitment.Piece ≠ "") ∧
      r.PieceCommitment.PaddedPieceSize ≠ 0 ∧ r.Size ≠ 0
  · obtain ⟨c1, c2, c3, c4, c5, c6, c7, c8⟩ :=
      @createPieceCommitment_of_cond cid size status { node := node, dealRequest := r } _ rfl hc
    refine ⟨[_], c1, ?_, fun _ => List.mem_singleton.mpr rfl⟩
    intro pc hpc
    rw [List.mem_singleton] at hpc
    subst hpc
    exact ⟨c2, c4, c3, c8, c5, by rw [c5]; exact hc.1.2, c6, by rw [c6]; exact hc.2.1, c7⟩
  · rw [createPieceCommitment_of_not_cond cid size status _ hc]
    exact ⟨[], by simp, by simp, fun h => absurd rfl h⟩

/-- The five steps of a transaction for one request, on success: the rows they add to the
three tables, and what they leave of the node and of the request. -/
theorem steps_rows {cid : String} {size size2 : Int} {status apiKey tp : String}
    {content : Content} {node : DeltaNode} {r : DealRequest} {t1 t2 t3 t4 t5 : Txn}
    (h1 : createPieceCommitment cid size status { node := node, dealRequest := r } = t1)
    (h2 : createContent content t1 = t2)
    (h3 : assignMiner size2 t2 = (t3, none))
    (h4 : assignWallet apiKey t3 = (t4, none) ∨ assignWalletMultiple apiKey t3 = (t4, none))
    (h5 : createProposalParameters (proposalParameters tp t4) t4 = t5)
    (hcid : content.Cid = cid) (hpc : content.PieceCommitmentId = t1.pieceCommp.ID) :
    ∃ pcs : List PieceCommitment,
      t5.node.DB.piece_commitments = node.DB.piece_commitments ++ pcs ∧
      t5.node.DB.contents = node.DB.contents ++ [t5.content] ∧
      t5.node.DB.content_deal_proposal_parameters =
        node.DB.content_deal_proposal_parameters ++ [t5.dealProposalParam] ∧
      (∀ pc ∈ pcs, pc.ID ≠ 0 ∧ pc.Cid = cid ∧ pc.Status = status ∧ pc.Size = size ∧
        pc.Piece = r.PieceCommitment.Piece ∧ pc.Piece ≠ "" ∧
        pc.PaddedPieceSize = r.PieceCommitment.PaddedPieceSize ∧ pc.PaddedPieceSize ≠ 0 ∧
        pc.UnPaddedPieceSize = r.PieceCommitment.UnPaddedPieceSize) ∧
      t5.content.Cid = cid ∧
      (t5.content.PieceCommitmentId ≠ 0 →
        ∃ pc ∈ pcs, pc.ID = t5.content.PieceCommitmentId ∧ pc.Cid = t5.content.Cid) ∧
      t5.dealProposalParam.UnverifiedDealMaxPrice =
        (if r.UnverifiedDealMaxPrice ≠ "" then r.UnverifiedDealMaxPrice else "0") ∧
      t5.dealProposalParam.VerifiedDeal =
        (if r.DealVerifyState = DEAL_UNVERIFIED then false else true) ∧
      t5.dealProposalParam.TransferParams = tp ∧
      t4.dealRequest.TransferParameters = r.TransferParameters ∧
      t4.node.NewMultiaddr = node.NewMultiaddr ∧ t4.node.HostID = node.HostID ∧
      t4.node.MarshalTransferParameters = node.MarshalTransferParameters ∧
      t4.node.AnnounceAddrs = node.AnnounceAddrs ∧
      t5.node.Config = node.Config ∧
      t5.node.Dispatcher = node.Dispatcher := by
  obtain ⟨pcs, k1, k2, k3⟩ := createPieceCommitment_rows cid size status node r
  rw [h1] at k1 k3
  obtain ⟨a1, -, -, a4, -, a6, a7, -⟩ := createPieceCommitment_frame h1
  obtain ⟨ar, an, -⟩ := createPieceCommitment_keeps cid size status { node := node, dealRequest := r }
  rw [h1] at ar an
  simp only at a1 a4 a6 a7 ar an
  obtain ⟨b1, b2, b3, -, -, b6, -, b8, b9, -, -, -, -, -, -, -, -, -, -, -, -, b22⟩ :=
    createContent_spec h2
  obtain ⟨br, bn, -⟩ := createContent_keeps content t1
  rw [h2] at br bn
  obtain ⟨c1, c2, -, c4, -, c6, c7, c8, -, -, -, -, -, -, -, -, c17⟩ :=
    assignMiner_frame _ _ _ _ h3
  obtain ⟨cr, cn, -⟩ := assignMiner_keeps h3
  have hw : t4.node.DB.piece_commitments = t3.node.DB.piece_commitments ∧
      t4.node.DB.contents = t3.node.DB.contents ∧
      t4.node.DB.content_deal_proposal_parameters = t3.node.DB.content_deal_proposal_parameters ∧
      t4.node.Dispatcher = t3.node.Dispatcher ∧ t4.pieceCommp = t3.pieceCommp ∧
      t4.content = t3.content ∧ t4.node.Config = t3.node.Config := by
    rcases h4 with h4 | h4
    · obtain ⟨d1, d2, -, d4, -, d6, d7, d8, -, -, -, -, -, -, -, d16⟩ :=
        assignWallet_frame _ _ _ _ h4
      exact ⟨d1, d2, d4, d6, d7, d8, d16⟩
    · obtain ⟨d1, d2, -, d4, -, d6, d7, d8, -, -, -, -, -, -, -, d16⟩ :=
        assignWalletMultiple_frame _ _ _ _ h4
      exact ⟨d1, d2, d4, d6, d7, d8, d16⟩
  obtain ⟨d1, d2, d4, d6, d7, d8, d16⟩ := hw
  obtain ⟨dr, dn, -⟩ := assignWallet_keeps h4
  obtain ⟨e1, e2, e3, e4, -, -, -, e8, e9, e10, -, -, -, -, -, e16⟩ :=
    createProposalParameters_spec h5
  have hcontent : t5.content = t2.content := by rw [e10, d8, c8]
  have hreq : t4.dealRequest =
      { r with Cid := content.Cid, Miner := t4.dealRequest.Miner,
               Wallet := t4.dealRequest.Wallet } := by
    rw [dr, cr, br, ar]
  have hnode : t4.node = { node with DB := t4.node.DB
                                     MinerAssignmentCalls := t4.node.MinerAssignmentCalls } := by
    rw [dn, cn, bn, an]
  have hcc : t5.content.Cid = cid := by rw [hcontent, b2]; exact hcid
  refine ⟨pcs, by rw [e3, d1, c1, b3, k1], ?_, by rw [e1, d4, c4, b6, a4], k2, hcc, ?_, ?_, ?_,
    ?_, ?_, ?_, ?_, ?_, ?_, ?_, ?_⟩
  · rw [e4, d2, c2, b1, a1, hcontent]
  · intro hne
    have hid : t5.content.PieceCommitmentId = t1.pieceCommp.ID := by
      rw [hcontent, b2]
      exact hpc
    rw [hid] at hne ⊢
    refine ⟨t1.pieceCommp, k3 hne, rfl, ?_⟩
    rw [hcc]
    exact (k2 _ (k3 hne)).2.1
  · rw [e2]
    simp only [proposalParameters]
    rw [hreq]
  · rw [e2]
    simp only [proposalParameters]
    rw [hreq]
  · rw [e2]
    rfl
  · rw [hreq]
  · have h := congrArg DeltaNode.NewMultiaddr hnode
    exact h
  · have h := congrArg DeltaNode.HostID hnode
    exact h
  · have h := congrArg DeltaNode.MarshalTransferParameters hnode
    exact h
  · have h := congrArg DeltaNode.AnnounceAddrs hnode
    exact h
  · rw [e16, d16, c17, b22, a7]
  · rw [e8, d6, c6, b8, a6]

/-- A row built from a validated request: a verified deal carries the price "0". -/
theorem verified_price_of_valid {r : DealRequest} {config : Config}
    {p : ContentDealProposalParameters} (hv : ValidateMeta r config = .ok ())
    (hprice : p.UnverifiedDealMaxPrice =
      (if r.UnverifiedDealMaxPrice ≠ "" then r.UnverifiedDealMaxPrice else "0"))
    (hver : p.VerifiedDeal = (if r.DealVerifyState = DEAL_UNVERIFIED then false else true))
    (h : p.VerifiedDeal = true) : p.UnverifiedDealMaxPrice = "0" := by
  obtain ⟨-, v1, -⟩ := ValidateMeta_ok hv
  by_cases hs : r.DealVerifyState = DEAL_UNVERIFIED
  · rw [hver, if_pos hs] at h
    exact absurd h Bool.false_ne_true
  · have hp : ¬ r.UnverifiedDealMaxPrice ≠ "" := fun hne => hs (v1 hne)
    rw [hprice, if_neg hp]

/-- The rows of an accepted import: at most one piece commitment, one content, one
parameter row. -/
theorem handleImportDeal_rows {node : DeltaNode} {apiKey : String} {dealRequest : DealRequest}
    (hok : (handleImportDeal node apiKey dealRequest).err = none) :
    ∃ (pcs : List PieceCommitment) (c : Content) (p : ContentDealProposalParameters),
      (handleImportDeal node apiKey dealRequest).node.DB.piece_commitments =
        node.DB.piece_commitments ++ pcs ∧
      (handleImportDeal node apiKey dealRequest).node.DB.contents = node.DB.contents ++ [c] ∧
      (handleImportDeal node apiKey dealRequest).node.DB.content_deal_proposal_parameters =
        node.DB.content_deal_proposal_parameters ++ [p] ∧
      (∀ pc ∈ pcs, pc.ID ≠ 0 ∧ pc.Cid = dealRequest.Cid ∧ pc.Status = COMMP_STATUS_COMITTED ∧
        pc.Size = dealRequest.Size ∧
        pc.Piece = dealRequest.PieceCommitment.Piece ∧ pc.Piece ≠ "" ∧
        pc.PaddedPieceSize = dealRequest.PieceCommitment.PaddedPieceSize ∧
        pc.PaddedPieceSize ≠ 0 ∧
        pc.UnPaddedPieceSize = dealRequest.PieceCommitment.UnPaddedPieceSize) ∧
      c.Cid = dealRequest.Cid ∧
      (c.PieceCommitmentId ≠ 0 → ∃ pc ∈ pcs, pc.ID = c.PieceCommitmentId ∧ pc.Cid = c.Cid) ∧
      (p.VerifiedDeal = true → p.UnverifiedDealMaxPrice = "0") := by
  obtain ⟨t1, t2, t3, t4, t5, h1, h2, h3, h4, h5, hres, hv, -⟩ := handleImportDeal_run hok
  obtain ⟨kr, -⟩ := createPieceCommitment_keeps dealRequest.Cid dealRequest.Size
    COMMP_STATUS_COMITTED
    { node := node, dealRequest := { dealRequest with ConnectionMode := "import" } }
  rw [h1] at kr
  obtain ⟨pcs, s1, s2, s3, s4, s5, s6, s7, s8, -⟩ :=
    steps_rows h1 h2 h3 (Or.inl h4) h5 (by rw [kr]) rfl
  rw [hres]
  exact ⟨pcs, t5.content, t5.dealProposalParam, s1, s2, s3, s4, s5, s6,
    verified_price_of_valid hv s7 s8⟩

/-- The rows of one accepted request of the array of `handleMultipleImportDeals`. -/
theorem multipleImportOne_rows {apiKey : String} {dealRequest : DealRequest}
    {node : DeltaNode} {t : Txn}
    (h : multipleImportOne apiKey dealRequest node = (t, none)) :
    ∃ (pcs : List PieceCommitment) (c : Content) (p : ContentDealProposalParameters),
      t.node.DB.piece_commitments = node.DB.piece_commitments ++ pcs ∧
      t.node.DB.contents = node.DB.contents ++ [c] ∧
      t.node.DB.content_deal_proposal_parameters =
        node.DB.content_deal_proposal_parameters ++ [p] ∧
      (∀ pc ∈ pcs, pc.ID ≠ 0 ∧ pc.Cid = dealRequest.Cid ∧ pc.Status = COMMP_STATUS_COMITTED ∧
        pc.Size = dealRequest.Size ∧
        pc.Piece = dealRequest.PieceCommitment.Piece ∧ pc.Piece ≠ "" ∧
        pc.PaddedPieceSize = dealRequest.PieceCommitment.PaddedPieceSize ∧
        pc.PaddedPieceSize ≠ 0 ∧
        pc.UnPaddedPieceSize = dealRequest.PieceCommitment.UnPaddedPieceSize) ∧
      c.Cid = dealRequest.Cid ∧
      (c.PieceCommitmentId ≠ 0 → ∃ pc ∈ pcs, pc.ID = c.PieceCommitmentId ∧ pc.Cid = c.Cid) ∧
      (p.VerifiedDeal = true → p.UnverifiedDealMaxPrice = "0") := by
  unfold multipleImportOne at h
  by_cases hm : dealRequest.ConnectionMode = "e2e"
  · simp [hm] at h
  · simp only [hm, if_false] at h
    cases hv : ValidateMeta { dealRequest with ConnectionMode := "import" } node.Config with
    | error e => simp [hv] at h
    | ok u =>
      simp only [hv] at h
      cases hp : ValidatePieceCommitmentMeta dealRequest.PieceCommitment with
      | error e => simp [hp] at h
      | ok u2 =>
        simp only [hp] at h
        split at h
        · simp at h
        · rename_i t3 h3
          split at h
          · simp at h
          · rename_i t4 h4
            obtain ⟨kr, -⟩ := createPieceCommitment_keeps dealRequest.Cid dealRequest.Size
              COMMP_STATUS_COMITTED
              { node := node, dealRequest := { dealRequest with ConnectionMode := "import" } }
            obtain ⟨pcs, s1, s2, s3, s4, s5, s6, s7, s8, -⟩ :=
              steps_rows rfl rfl h3 (Or.inr h4) rfl (by rw [kr]) rfl
            simp only [Prod.mk.injEq, and_true] at h
            subst h
            exact ⟨pcs, _, _, s1, s2, s3, s4, s5, s6, verified_price_of_valid hv s7 s8⟩

/-- The loop of `handleMultipleImportDeals`, when it ends without error: the rows it adds
to the three tables. -/
theorem multipleImportLoop_rows (apiKey : String) (dealRequests : List DealRequest) :
    ∀ (node node2 : DeltaNode) (acc out : List DealResponse),
    multipleImportLoop apiKey dealRequests node acc = (none, out, node2) →
    ∃ (pcs : List PieceCommitment) (cs : List Content)
      (ps : List ContentDealProposalParameters),
      node2.DB.piece_commitments = node.DB.piece_commitments ++ pcs ∧
      node2.DB.contents = node.DB.contents ++ cs ∧
      node2.DB.content_deal_proposal_parameters =
        node.DB.content_deal_proposal_parameters ++ ps ∧
      (∀ pc ∈ pcs, ∃ r ∈ dealRequests, pc.ID ≠ 0 ∧ pc.Cid = r.Cid ∧
        pc.Status = COMMP_STATUS_COMITTED ∧ pc.Size = r.Size ∧
        pc.Piece = r.PieceCommitment.Piece ∧ pc.Piece ≠ "" ∧
        pc.PaddedPieceSize = r.PieceCommitment.PaddedPieceSize ∧ pc.PaddedPieceSize ≠ 0 ∧
        pc.UnPaddedPieceSize = r.PieceCommitment.UnPaddedPieceSize) ∧
      (∀ c ∈ cs, c.PieceCommitmentId ≠ 0 →
        ∃ pc ∈ pcs, pc.ID = c.PieceCommitmentId ∧ pc.Cid = c.Cid) ∧
      (∀ p ∈ ps, p.VerifiedDeal = true → p.UnverifiedDealMaxPrice = "0") := by
  induction dealRequests with
  | nil =>
    intro node node2 acc out h
    simp only [multipleImportLoop, Prod.mk.injEq, true_and] at h
    refine ⟨[], [], [], ?_, ?_, ?_, ?_, ?_, ?_⟩ <;> simp [← h.2]
  | cons r rest ih =>
    intro node node2 acc out h
    unfold multipleImportLoop at h
    rcases hone : multipleImportOne apiKey r node with ⟨t, e⟩
    rw [hone] at h
    cases e with
    | some e => simp at h
    | none =>
      simp only at h
      obtain ⟨pcs1, c1, p1, o1, o2, o3, o4, -, o6, o7⟩ := multipleImportOne_rows hone
      obtain ⟨pcs, cs, ps, i1, i2, i3, i4, i5, i6⟩ := ih t.node node2 _ out h
      refine ⟨pcs1 ++ pcs, c1 :: cs, p1 :: ps, ?_, ?_, ?_, ?_, ?_, ?_⟩
      · rw [i1, o1, List.append_assoc]
      · rw [i2, o2, List.append_assoc, List.singleton_append]
      · rw [i3, o3, List.append_assoc, List.singleton_append]
      · intro pc hpc
        rcases List.mem_append.mp hpc with hpc | hpc
        · exact ⟨r, List.mem_cons_self _ _, o4 pc hpc⟩
        · obtain ⟨r2, hr2, hf⟩ := i4 pc hpc
          exact ⟨r2, List.mem_cons_of_mem _ hr2, hf⟩
      · intro c hc hne
        rcases List.mem_cons.mp hc with hc | hc
        · subst hc
          obtain ⟨pc, hpc, hf⟩ := o6 hne
          exact ⟨pc, List.mem_append_left _ hpc, hf⟩
        · obtain ⟨pc, hpc, hf⟩ := i5 c hc hne
          exact ⟨pc, List.mem_append_right _ hpc, hf⟩
      · intro p hp
        rcases List.mem_cons.mp hp with hp | hp
        · subst hp
          exact o7
        · exact i6 p hp

/-- The rows of an accepted array of imports. -/
theorem handleMultipleImportDeals_rows {node : DeltaNode} {apiKey : String}
    {dealRequests : List DealRequest}
    (hok : (handleMultipleImportDeals node apiKey dealRequests).err = none) :
    ∃ (pcs : List PieceCommitment) (cs : List Content)
      (ps : List ContentDealProposalParameters),
      (handleMultipleImportDeals node apiKey dealRequests).node.DB.piece_commitments =
        node.DB.piece_commitments ++ pcs ∧
      (handleMultipleImportDeals node apiKey dealRequests).node.DB.contents =
        node.DB.contents ++ cs ∧
      (handleMultipleImportDeals node apiKey dealRequests).node.DB.content_deal_proposal_parameters =
        node.DB.content_deal_proposal_parameters ++ ps ∧
      (∀ pc ∈ pcs, ∃ r ∈ dealRequests, pc.ID ≠ 0 ∧ pc.Cid = r.Cid ∧
        pc.Status = COMMP_STATUS_COMITTED ∧ pc.Size = r.Size ∧
        pc.Piece = r.PieceCommitment.Piece ∧ pc.Piece ≠ "" ∧
        pc.PaddedPieceSize = r.PieceCommitment.PaddedPieceSize ∧ pc.PaddedPieceSize ≠ 0 ∧
        pc.UnPaddedPieceSize = r.PieceCommitment.UnPaddedPieceSize) ∧
      (∀ c ∈ cs, c.PieceCommitmentId ≠ 0 →
        ∃ pc ∈ pcs, pc.ID = c.PieceCommitmentId ∧ pc.Cid = c.Cid) ∧
      (∀ p ∈ ps, p.VerifiedDeal = true → p.UnverifiedDealMaxPrice = "0") := by
  unfold handleMultipleImportDeals at hok ⊢
  rw [Transaction_of_ok hok]
  rw [Transaction_of_ok hok] at hok
  rcases hloop : multipleImportLoop apiKey dealRequests node [] with ⟨e, out, node2⟩
  rw [hloop] at hok
  cases e with
  | some e => simp at hok
  | none =>
    simp only
    exact multipleImportLoop_rows apiKey dealRequests _ _ _ _ hloop

/-! ## Replication: the rows of the replicas -/

theorem replicateOne_rows (contentSource : DealReplication) (node : DeltaNode)
    (dealRequest : DealRequest) :
    ∃ (c : Content) (p : ContentDealProposalParameters),
      (replicateOne contentSource node dealRequest).2.DB.contents = node.DB.contents ++ [c] ∧
      (replicateOne contentSource node dealRequest).2.DB.content_deal_proposal_parameters
        = node.DB.content_deal_proposal_parameters ++ [p] ∧
      (replicateOne contentSource node dealRequest).2.DB.piece_commitments =
        node.DB.piece_commitments ∧
      c.Cid = contentSource.Content.Cid ∧
      c.PieceCommitmentId = contentSource.Content.PieceCommitmentId ∧
      p.UnverifiedDealMaxPrice = contentSource.ContentDealProposalParameter.UnverifiedDealMaxPrice ∧
      p.VerifiedDeal = contentSource.ContentDealProposalParameter.VerifiedDeal ∧
      p.TransferParams = contentSource.ContentDealProposalParameter.TransferParams := by
  unfold replicateOne
  simp only
  split <;>
    exact ⟨{ contentSource.Content with ID := nextID (node.DB.contents.map Content.ID) },
      { contentSource.ContentDealProposalParameter with
        ID := nextID (node.DB.content_deal_proposal_parameters.map ContentDealProposalParameters.ID)
        Content := nextID (node.DB.contents.map Content.ID) },
      by simp only [DB.CreateContentDealProposalParameters, DB.CreateContent,
        DB.CreateContentMiner],
      by simp only [DB.CreateContentDealProposalParameters, DB.CreateContent,
        DB.CreateContentMiner],
      by simp only [DB.CreateContentDealProposalParameters, DB.CreateContent,
        DB.CreateContentMiner], rfl, rfl, rfl, rfl, rfl⟩

/-- Every row `ReplicateContent` inserts is a copy of its source, but for the keys. -/
theorem ReplicateContentLoop_rows (contentSource : DealReplication) (n : Nat) :
    ∀ (node : DeltaNode) (dealRequest : DealRequest) (acc : List ReplicatedContent),
    ∃ (cs : List Content) (ps : List ContentDealProposalParameters),
      (ReplicateContentLoop contentSource n node dealRequest acc).2.DB.contents
        = node.DB.contents ++ cs ∧
      (ReplicateContentLoop contentSource n node dealRequest acc).2.DB.content_deal_proposal_parameters
        = node.DB.content_deal_proposal_parameters ++ ps ∧
      (ReplicateContentLoop contentSource n node dealRequest acc).2.DB.piece_commitments
        = node.DB.piece_commitments ∧
      (∀ c ∈ cs, c.Cid = contentSource.Content.Cid ∧
        c.PieceCommitmentId = contentSource.Content.PieceCommitmentId) ∧
      (∀ p ∈ ps,
        p.UnverifiedDealMaxPrice =
          contentSource.ContentDealProposalParameter.UnverifiedDealMaxPrice ∧
        p.VerifiedDeal = contentSource.ContentDealProposalParameter.VerifiedDeal ∧
        p.TransferParams = contentSource.ContentDealProposalParameter.TransferParams) := by
  induction n with
  | zero =>
    intro node dealRequest acc
    exact ⟨[], [], by simp [ReplicateContentLoop], by simp [ReplicateContentLoop],
      by simp [ReplicateContentLoop], by simp, by simp⟩
  | succ n ih =>
    intro node dealRequest acc
    obtain ⟨c, p, r1, r2, r3, r4, r5, r6, r7, r8⟩ :=
      replicateOne_rows contentSource node dealRequest
    unfold ReplicateContentLoop
    rcases hone : replicateOne contentSource node dealRequest with ⟨rc, node2⟩
    rw [hone] at r1 r2 r3
    simp only at r1 r2 r3
    have hc : ∀ x ∈ [c], x.Cid = contentSource.Content.Cid ∧
        x.PieceCommitmentId = contentSource.Content.PieceCommitmentId := by
      intro x hx
      rw [List.mem_singleton] at hx
      subst hx
      exact ⟨r4, r5⟩
    have hp : ∀ x ∈ [p],
        x.UnverifiedDealMaxPrice =
          contentSource.ContentDealProposalParameter.UnverifiedDealMaxPrice ∧
        x.VerifiedDeal = contentSource.ContentDealProposalParameter.VerifiedDeal ∧
        x.TransferParams = contentSource.ContentDealProposalParameter.TransferParams := by
      intro x hx
      rw [List.mem_singleton] at hx
      subst hx
      exact ⟨r6, r7, r8⟩
    cases rc with
    | none => exact ⟨[c], [p], r1, r2, r3, hc, hp⟩
    | some rc =>
      simp only
      obtain ⟨cs, ps, i1, i2, i3, i4, i5⟩ := ih node2 rc.DealRequest (acc ++ [rc])
      refine ⟨c :: cs, p :: ps, ?_, ?_, ?_, ?_, ?_⟩
      · rw [i1, r1, List.append_assoc, List.singleton_append]
      · rw [i2, r2, List.append_assoc, List.singleton_append]
      · rw [i3, r3]
      · intro x hx
        rcases List.mem_cons.mp hx with hx | hx
        · exact hc x (by rw [hx]; exact List.mem_singleton.mpr rfl)
        · exact i4 x hx
      · intro x hx
        rcases List.mem_cons.mp hx with hx | hx
        · exact hp x (by rw [hx]; exact List.mem_singleton.mpr rfl)
        · exact i5 x hx

theorem endToEndDispatch_rows (t : Txn) :
    ∃ (cs : List Content) (ps : List ContentDealProposalParameters),
      (endToEndDispatch t).node.DB.contents = t.node.DB.contents ++ cs ∧
      (endToEndDispatch t).node.DB.content_deal_proposal_parameters =
        t.node.DB.content_deal_proposal_parameters ++ ps ∧
      (endToEndDispatch t).node.DB.piece_commitments = t.node.DB.piece_commitments ∧
      (∀ c ∈ cs, c.Cid = t.content.Cid ∧ c.PieceCommitmentId = t.content.PieceCommitmentId) ∧
      (∀ p ∈ ps,
        p.UnverifiedDealMaxPrice = t.dealProposalParam.UnverifiedDealMaxPrice ∧
        p.VerifiedDeal = t.dealProposalParam.VerifiedDeal ∧
        p.TransferParams = t.dealProposalParam.TransferParams) := by
  unfold endToEndDispatch
  split
  · exact ⟨[], [], by simp, by simp, rfl, by simp, by simp⟩
  · exact ReplicateContentLoop_rows
      { Content := t.content, ContentDealProposalParameter := t.dealProposalParam
        DealRequest := t.dealRequest } t.dealRequest.Replication.toNat t.node t.dealRequest []

/-- The successful run of the transaction of `handleEndToEndDeal`, with the announce
address it read. -/
theorem handleEndToEndDealTxn_of_ok_announce {node : DeltaNode} {apiKey : String}
    {file : FileHeader} {cid : String} {dealRequest : DealRequest}
    (h : (handleEndToEndDealTxn apiKey file cid dealRequest node).err = none) :
    ∃ (t1 t2 t3 t4 t5 : Txn) (announce : String),
      createPieceCommitment cid file.Size COMMP_STATUS_OPEN
        { node := node, dealRequest := dealRequest } = t1 ∧
      createContent
        { Name := file.Filename
          Size := file.Size
          Cid := cid
          RequestingApiKey := apiKey
          PieceCommitmentId := t1.pieceCommp.ID
          Status := CONTENT_PINNED
          AutoRetry := t1.dealRequest.AutoRetry
          ConnectionMode := t1.dealRequest.ConnectionMode } t1 = t2 ∧
      assignMiner file.Size t2 = (t3, none) ∧
      assignWallet apiKey t3 = (t4, none) ∧
      t4.node.AnnounceAddrs[1]? = some announce ∧
      createProposalParameters
          (proposalParameters (endToEndTransferParams announce t4) t4) t4 = t5 ∧
      handleEndToEndDealTxn apiKey file cid dealRequest node = endToEndDispatch t5 := by
  unfold handleEndToEndDealTxn at h ⊢
  simp only at h ⊢
  split at h
  · simp at h
  · rename_i t3 hm
    split at h
    · simp at h
    · rename_i t4 hw
      split at h
      · simp at h
      · rename_i announce ha
        refine ⟨_, _, t3, t4, _, announce, rfl, rfl, hm, hw, ha, rfl, ?_⟩
        simp only [hm, hw, ha]

/-- The rows of an accepted end-to-end deal: at most one piece commitment; the content and
its replicas; the parameter row and its copies for the replicas. -/
theorem handleEndToEndDeal_rows {node : DeltaNode} {apiKey : String} {file : FileHeader}
    {dealRequest : DealRequest}
    (hok : (handleEndToEndDeal node apiKey file dealRequest).err = none) :
    ∃ (cid announce : String) (pcs : List PieceCommitment) (cs : List Content)
      (ps : List ContentDealProposalParameters),
      node.AddPinFile file = some cid ∧
      node.AnnounceAddrs[1]? = some announce ∧
      (handleEndToEndDeal node apiKey file dealRequest).node.DB.piece_commitments =
        node.DB.piece_commitments ++ pcs ∧
      (handleEndToEndDeal node apiKey file dealRequest).node.DB.contents =
        node.DB.contents ++ cs ∧
      (handleEndToEndDeal node apiKey file dealRequest).node.DB.content_deal_proposal_parameters =
        node.DB.content_deal_proposal_parameters ++ ps ∧
      (∀ pc ∈ pcs, pc.ID ≠ 0 ∧ pc.Cid = cid ∧ pc.Status = COMMP_STATUS_OPEN ∧
        pc.Size = file.Size ∧
        pc.Piece = dealRequest.PieceCommitment.Piece ∧ pc.Piece ≠ "" ∧
        pc.PaddedPieceSize = dealRequest.PieceCommitment.PaddedPieceSize ∧
        pc.PaddedPieceSize ≠ 0 ∧
        pc.UnPaddedPieceSize = dealRequest.PieceCommitment.UnPaddedPieceSize) ∧
      (∀ c ∈ cs, c.Cid = cid ∧
        (c.PieceCommitmentId ≠ 0 → ∃ pc ∈ pcs, pc.ID = c.PieceCommitmentId ∧ pc.Cid = c.Cid)) ∧
      (∀ p ∈ ps, (p.VerifiedDeal = true → p.UnverifiedDealMaxPrice = "0") ∧
        p.TransferParams =
          match node.NewMultiaddr (announce ++ "/p2p/" ++ node.HostID) with
          | none => ""
          | some announceAddr =>
            node.MarshalTransferParameters { URL := "libp2p://" ++ announceAddr }) ∧
      dealRequest.TransferParameters.URL = "" := by
  obtain ⟨-, -, hv, cid, hpin, heq⟩ := handleEndToEndDeal_of_ok hok
  rw [heq] at hok
  obtain ⟨t1, t2, t3, t4, t5, announce, h1, h2, h3, h4, ha, h5, hres⟩ :=
    handleEndToEndDealTxn_of_ok_announce hok
  obtain ⟨pcs, s1, s2, s3, s4, s5, s6, s7, s8, s9, s10, s11, s12, s13, s14, -⟩ :=
    steps_rows h1 h2 h3 (Or.inl h4) h5 rfl rfl
  simp only at s1 s2 s3 s10 s11 s12 s13 s14
  obtain ⟨cs, ps, d1, d2, d3, d4, d5⟩ := endToEndDispatch_rows t5
  obtain ⟨-, -, -, -, -, -, -, -, -, -, -, -, -, -, hurl, -⟩ := ValidateMeta_ok hv
  have hurl2 : dealRequest.TransferParameters.URL = "" :=
    hurl (show ¬ (("e2e" : String) = "import") by decide)
  have htp : t5.dealProposalParam.TransferParams =
      match node.NewMultiaddr (announce ++ "/p2p/" ++ node.HostID) with
      | none => ""
      | some announceAddr =>
        node.MarshalTransferParameters { URL := "libp2p://" ++ announceAddr } := by
    rw [s9]
    unfold endToEndTransferParams
    rw [s11, s12, s13, s10]
    simp only [hurl2, ne_eq, not_true_eq_false, if_false]
  rw [heq, hres]
  refine ⟨cid, announce, pcs, t5.content :: cs, t5.dealProposalParam :: ps, hpin,
    by rw [← s14]; exact ha, by rw [d3, s1], by rw [d1, s2, List.append_assoc, List.singleton_append],
    by rw [d2, s3, List.append_assoc, List.singleton_append], s4, ?_, ?_, hurl2⟩
  · intro c hc
    rcases List.mem_cons.mp hc with hc | hc
    · subst hc
      exact ⟨s5, s6⟩
    · obtain ⟨e1, e2⟩ := d4 c hc
      rw [e1, e2]
      exact ⟨s5, s6⟩
  · intro p hp
    rcases List.mem_cons.mp hp with hp | hp
    · subst hp
      exact ⟨verified_price_of_valid hv s7 s8, htp⟩
    · obtain ⟨e1, e2, e3⟩ := d5 p hp
      rw [e1, e2, e3]
      exact ⟨verified_price_of_valid hv s7 s8, htp⟩

/-! ## The batch import loop: the piece commitments it inserts -/

/-- One iteration of the batch import loop, however it ends: the piece commitments it
leaves in the store. -/
theorem batchImportOne_piece_commitments (apiKey : String) (batchImportID : Int)
    (r : DealRequest) (node : DeltaNode) :
    ∃ pcs : List PieceCommitment,
      (batchImportOne apiKey batchImportID r node).1.node.DB.piece_commitments =
        node.DB.piece_commitments ++ pcs ∧
      ∀ pc ∈ pcs, pc.ID ≠ 0 ∧ pc.Cid = r.Cid ∧ pc.Status = COMMP_STATUS_COMITTED ∧
        pc.Size = r.Size ∧
        pc.Piece = r.PieceCommitment.Piece ∧ pc.Piece ≠ "" ∧
        pc.PaddedPieceSize = r.PieceCommitment.PaddedPieceSize ∧ pc.PaddedPieceSize ≠ 0 ∧
        pc.UnPaddedPieceSize = r.PieceCommitment.UnPaddedPieceSize := by
  unfold batchImportOne
  by_cases hm : r.ConnectionMode = "e2e"
  · rw [if_pos hm]
    exact ⟨[], by simp, by simp⟩
  · rw [if_neg hm]
    simp only
    cases hv : ValidateMeta { r with ConnectionMode := "import" } node.Config with
    | error e => exact ⟨[], by simp, by simp⟩
    | ok u =>
      simp only
      cases hp : ValidatePieceCommitmentMeta r.PieceCommitment with
      | error e => exact ⟨[], by simp, by simp⟩
      | ok u2 =>
        simp only
        obtain ⟨pcs, k1, k2, -⟩ := createPieceCommitment_rows r.Cid r.Size
          COMMP_STATUS_COMITTED node { r with ConnectionMode := "import" }
        generalize createPieceCommitment r.Cid r.Size COMMP_STATUS_COMITTED
          { node := node, dealRequest := { r with ConnectionMode := "import" } } = t1 at k1 ⊢
        generalize h2 : createContent
          { Name := t1.dealRequest.Cid
            Size := t1.dealRequest.Size
            Cid := t1.dealRequest.Cid
            RequestingApiKey := apiKey
            PieceCommitmentId := t1.pieceCommp.ID
            AutoRetry := t1.dealRequest.AutoRetry
            Status := CONTENT_DEAL_MAKING_PROPOSAL
            ConnectionMode := t1.dealRequest.ConnectionMode } t1 = t2
        obtain ⟨-, -, b3, -⟩ := createContent_spec h2
        have hb : (createBatchImportContent batchImportID t2).node.DB.piece_commitments =
            t2.node.DB.piece_commitments := rfl
        generalize createBatchImportContent batchImportID t2 = t2b at hb ⊢
        rcases h3 : assignMiner t2b.dealRequest.Size t2b with ⟨t3, e3⟩
        obtain ⟨c1, -⟩ := assignMiner_frame _ _ _ _ h3
        cases e3 with
        | some e => exact ⟨pcs, by simp only; rw [c1, hb, b3, k1], k2⟩
        | none =>
          simp only
          rcases h4 : assignWalletMultiple apiKey t3 with ⟨t4, e4⟩
          obtain ⟨d1, -⟩ := assignWalletMultiple_frame _ _ _ _ h4
          cases e4 with
          | some e => exact ⟨pcs, by simp only; rw [d1, c1, hb, b3, k1], k2⟩
          | none =>
            simp only
            refine ⟨pcs, ?_, k2⟩
            simp only [multipleImportAddJob, createProposalParameters,
              DB.CreateContentDealProposalParameters]
            rw [d1, c1, hb, b3, k1]

/-- The batch import loop, however it ends: every piece commitment it leaves in the store
carries the piece sizes of one of the requests. -/
theorem batchImportLoop_piece_commitments (apiKey : String) (batchImportID : Int)
    (dealRequests : List DealRequest) :
    ∀ (node : DeltaNode) (acc : List DealResponse),
    ∃ pcs : List PieceCommitment,
      (batchImportLoop apiKey batchImportID dealRequests node acc).2.2.DB.piece_commitments =
        node.DB.piece_commitments ++ pcs ∧
      ∀ pc ∈ pcs, ∃ r ∈ dealRequests, pc.ID ≠ 0 ∧ pc.Cid = r.Cid ∧
        pc.Status = COMMP_STATUS_COMITTED ∧ pc.Size = r.Size ∧
        pc.Piece = r.PieceCommitment.Piece ∧ pc.Piece ≠ "" ∧
        pc.PaddedPieceSize = r.PieceCommitment.PaddedPieceSize ∧ pc.PaddedPieceSize ≠ 0 ∧
        pc.UnPaddedPieceSize = r.PieceCommitment.UnPaddedPieceSize := by
  induction dealRequests with
  | nil =>
    intro node acc
    exact ⟨[], by simp [batchImportLoop], by simp⟩
  | cons r rest ih =>
    intro node acc
    obtain ⟨pcs1, o1, o2⟩ := batchImportOne_piece_commitments apiKey batchImportID r node
    unfold batchImportLoop
    rcases hone : batchImportOne apiKey batchImportID r node with ⟨t, e⟩
    rw [hone] at o1
    simp only at o1
    cases e with
    | some e =>
      exact ⟨pcs1, o1, fun pc hpc => ⟨r, List.mem_cons_self _ _, o2 pc hpc⟩⟩
    | none =>
      simp only
      obtain ⟨pcs, i1, i2⟩ := ih t.node (acc ++ [dealResponse t []])
      refine ⟨pcs1 ++ pcs, by rw [i1, o1, List.append_assoc], ?_⟩
      intro pc hpc
      rcases List.mem_append.mp hpc with hpc | hpc
      · exact ⟨r, List.mem_cons_self _ _, o2 pc hpc⟩
      · obtain ⟨r2, hr2, hf⟩ := i2 pc hpc
        exact ⟨r2, List.mem_cons_of_mem _ hr2, hf⟩

/-! ## A call that returns an error leaves the store as it was -/

theorem Transaction_db_of_err {ρ : Type} {node : DeltaNode} {wrap : String}
    {fc : DeltaNode → HandlerResult ρ} (h : (Transaction node wrap fc).err ≠ none) :
    (Transaction node wrap fc).node.DB = node.DB := by
  unfold Transaction at h ⊢
  cases he : (fc node).err with
  | none => simp [he] at h
  | some e => simp [he]

theorem handleImportDeal_db_of_err {node : DeltaNode} {apiKey : String}
    {dealRequest : DealRequest} (h : (handleImportDeal node apiKey dealRequest).err ≠ none) :
    (handleImportDeal node apiKey dealRequest).node.DB = node.DB := by
  unfold handleImportDeal at h ⊢
  by_cases hm : dealRequest.ConnectionMode = "e2e"
  · simp only [hm, if_true]
  · simp only [hm, if_false] at h ⊢
    cases hv : ValidateMeta { dealRequest with ConnectionMode := "import" } node.Config with
    | error e => simp only
    | ok u =>
      simp only [hv] at h ⊢
      cases hp : ValidatePieceCommitmentMeta dealRequest.PieceCommitment with
      | error e => simp only
      | ok u2 =>
        simp only [hp] at h ⊢
        exact Transaction_db_of_err h

theorem handleEndToEndDeal_db_of_err {node : DeltaNode} {apiKey : String} {file : FileHeader}
    {dealRequest : DealRequest}
    (h : (handleEndToEndDeal node apiKey file dealRequest).err ≠ none) :
    (handleEndToEndDeal node apiKey file dealRequest).node.DB = node.DB := by
  unfold handleEndToEndDeal at h ⊢
  by_cases hm : dealRequest.ConnectionMode = "import"
  · simp only [hm, if_true]
  · simp only [hm, if_false] at h ⊢
    by_cases hs : file.Size < 1000000 ∧ dealRequest.DealVerifyState = DEAL_VERIFIED
    · simp only [hs, and_self, if_true]
    · simp only [hs, if_false] at h ⊢
      cases hv : ValidateMeta { dealRequest with ConnectionMode := "e2e" } node.Config with
      | error e => simp only
      | ok u =>
        simp only [hv] at h ⊢
        by_cases ho : node.FileOpens file = false
        · simp only [ho, if_true]
        · simp only [ho, if_false] at h ⊢
          cases hpin : node.AddPinFile file with
          | none => simp
          | some cid =>
            simp only [hpin] at h ⊢
            exact Transaction_db_of_err h

theorem handleMultipleImportDeals_db_of_err {node : DeltaNode} {apiKey : String}
    {dealRequests : List DealRequest}
    (h : (handleMultipleImportDeals node apiKey dealRequests).err ≠ none) :
    (handleMultipleImportDeals node apiKey dealRequests).node.DB = node.DB :=
  Transaction_db_of_err h

theorem inserted_self {α : Type} (table : DB → List α) (db : DB) : inserted table db db = [] := by
  unfold inserted
  exact List.drop_length _

/-! ## C11: a clone that fails does not abort the end-to-end transaction -/

/-- C11, at the failing input: an end-to-end request for two replicas on a node whose miner
assignment finds a provider for the content and for the first replica and none for the
second. `handleEndToEndDeal` returns no error and answers "success" with no replicated
contents, and the transaction commits: three Content rows and three
ContentDealProposalParameters rows (the original and both clones) and two ContentMiner
rows persist, the second clone without a miner. -/
theorem handleEndToEndDeal_clone_failure_commits :
    (handleEndToEndDeal nodeProvidersRunOut "key" exampleFile requestTwoReplicas).err = none ∧
    (handleEndToEndDeal nodeProvidersRunOut "key" exampleFile requestTwoReplicas).response.map
      (fun resp => (resp.Status, resp.ContentId, resp.ReplicatedContents)) =
        some ("success", 1, []) ∧
    (inserted DB.contents nodeProvidersRunOut.DB
      (handleEndToEndDeal nodeProvidersRunOut "key" exampleFile requestTwoReplicas).node.DB).map
        Content.ID = [1, 2, 3] ∧
    (inserted DB.content_deal_proposal_parameters nodeProvidersRunOut.DB
      (handleEndToEndDeal nodeProvidersRunOut "key" exampleFile requestTwoReplicas).node.DB).map
        (fun p => p.Content) = [1, 2, 3] ∧
    (inserted DB.content_miners nodeProvidersRunOut.DB
      (handleEndToEndDeal nodeProvidersRunOut "key" exampleFile requestTwoReplicas).node.DB).map
        (fun m => (m.Miner, m.Content)) = [("f01000", 1), ("f01001", 2)] := by
  refine ⟨?_, ?_, ?_, ?_, ?_⟩ <;> decide

/-! ## C18: a verified deal carries the price "0" -/

/-- C18: every ContentDealProposalParameters row that a call of `handleEndToEndDeal`,
`handleImportDeal` or `handleMultipleImportDeals` leaves in the store (the row written
for an accepted request and, for an end-to-end deal, its copies for the replicas; a
call that returns an error leaves none) satisfies: `verified_deal = true` implies
`unverified_deal_max_price = "0"`. -/
theorem verified_deal_has_price_zero (node : DeltaNode) (apiKey : String) (file : FileHeader)
    (dealRequest : DealRequest) (dealRequests : List DealRequest) :
    (∀ p ∈ inserted DB.content_deal_proposal_parameters node.DB
        (handleEndToEndDeal node apiKey file dealRequest).node.DB,
      p.VerifiedDeal = true → p.UnverifiedDealMaxPrice = "0") ∧
    (∀ p ∈ inserted DB.content_deal_proposal_parameters node.DB
        (handleImportDeal node apiKey dealRequest).node.DB,
      p.VerifiedDeal = true → p.UnverifiedDealMaxPrice = "0") ∧
    (∀ p ∈ inserted DB.content_deal_proposal_parameters node.DB
        (handleMultipleImportDeals node apiKey dealRequests).node.DB,
      p.VerifiedDeal = true → p.UnverifiedDealMaxPrice = "0") := by
  refine ⟨?_, ?_, ?_⟩
  · by_cases hok : (handleEndToEndDeal node apiKey file dealRequest).err = none
    · obtain ⟨cid, announce, pcs, cs, ps, -, -, -, -, r3, -, -, r6, -⟩ :=
        handleEndToEndDeal_rows hok
      rw [inserted_append DB.content_deal_proposal_parameters _ _ ps r3]
      exact fun p hp => (r6 p hp).1
    · rw [handleEndToEndDeal_db_of_err hok, inserted_self]
      exact fun p hp => absurd hp (List.not_mem_nil p)
  · by_cases hok : (handleImportDeal node apiKey dealRequest).err = none
    · obtain ⟨pcs, c, p, -, -, r3, -, -, -, r7⟩ := handleImportDeal_rows hok
      rw [inserted_append DB.content_deal_proposal_parameters _ _ [p] r3]
      intro q hq
      rw [List.mem_singleton] at hq
      subst hq
      exact r7
    · rw [handleImportDeal_db_of_err hok, inserted_self]
      exact fun p hp => absurd hp (List.not_mem_nil p)
  · by_cases hok : (handleMultipleImportDeals node apiKey dealRequests).err = none
    · obtain ⟨pcs, cs, ps, -, -, r3, -, -, r6⟩ := handleMultipleImportDeals_rows hok
      rw [inserted_append DB.content_deal_proposal_parameters _ _ ps r3]
      exact r6
    · rw [handleMultipleImportDeals_db_of_err hok, inserted_self]
      exact fun p hp => absurd hp (List.not_mem_nil p)

/-- C18, witness: the verified end-to-end request and the unverified one with the price
"0.1" each leave one row; the verified row carries the price "0". -/
theorem verified_deal_has_price_zero_witness :
    (inserted DB.content_deal_proposal_parameters exampleNode.DB
      (handleEndToEndDeal exampleNode "key" exampleFile verifiedRequest).node.DB).map
        (fun p => (p.VerifiedDeal, p.UnverifiedDealMaxPrice)) = [(true, "0")] ∧
    (inserted DB.content_deal_proposal_parameters exampleNode.DB
      (handleEndToEndDeal exampleNode "key" exampleFile (unverifiedRequest "0.1")).node.DB).map
        (fun p => (p.VerifiedDeal, p.UnverifiedDealMaxPrice)) = [(false, "0.1")] ∧
    (∀ p ∈ inserted DB.content_deal_proposal_parameters exampleNode.DB
        (handleEndToEndDeal exampleNode "key" exampleFile verifiedRequest).node.DB,
      p.VerifiedDeal = true → p.UnverifiedDealMaxPrice = "0") :=
  ⟨by decide, by decide,
    (verified_deal_has_price_zero exampleNode "key" exampleFile verifiedRequest []).1⟩

/-! ## C19: the piece sizes of an inserted piece commitment -/

/-- C19, counterexample: `handleImportDeal` accepts the import request with
`padded_piece_size = 100` and `unpadded_piece_size = 127` and inserts a PieceCommitment
with exactly these sizes: the padded size is no power of two and is smaller than the
unpadded size. -/
theorem handleImportDeal_inserts_odd_piece_sizes :
    (handleImportDeal exampleNode "key" importRequestOddSizes).err = none ∧
    (inserted DB.piece_commitments exampleNode.DB
      (handleImportDeal exampleNode "key" importRequestOddSizes).node.DB).map
        (fun pc => (pc.PaddedPieceSize, pc.UnPaddedPieceSize)) = [(100, 127)] ∧
    (¬ ∃ k : Nat, (100 : Int) = 2 ^ k) ∧ ¬ ((127 : Int) ≤ 100) := by
  refine ⟨by decide, by decide, ?_, by decide⟩
  rintro ⟨k, hk⟩
  have hlt : k < 7 := by
    by_contra hge
    have h7 : (2 : Int) ^ 7 ≤ 2 ^ k := pow_le_pow_right₀ (by norm_num) (by omega)
    omega
  interval_cases k <;> omega

/-- C19, amended: every PieceCommitment row that an ingestion handler inserts from
caller-supplied values carries the `padded_piece_size` and the `unpadded_piece_size` of
the request unchanged, and its `padded_piece_size` is not zero (the handlers insert no
row otherwise). This holds for the rows a call of `handleImportDeal`,
`handleEndToEndDeal` or `handleMultipleImportDeals` leaves in the store and for the
rows the loop of `handleMultipleBatchImportDeals` leaves there, however it ends.
Nothing tests that the padded size is a power of two or at least the unpadded size. -/
theorem inserted_piece_commitment_sizes (node : DeltaNode) (apiKey : String)
    (file : FileHeader) (dealRequest : DealRequest) (dealRequests : List DealRequest)
    (batchImportID : Int) :
    (∀ pc ∈ inserted DB.piece_commitments node.DB
        (handleImportDeal node apiKey dealRequest).node.DB,
      pc.PaddedPieceSize = dealRequest.PieceCommitment.PaddedPieceSize ∧
      pc.UnPaddedPieceSize = dealRequest.PieceCommitment.UnPaddedPieceSize ∧
      pc.PaddedPieceSize ≠ 0) ∧
    (∀ pc ∈ inserted DB.piece_commitments node.DB
        (handleEndToEndDeal node apiKey file dealRequest).node.DB,
      pc.PaddedPieceSize = dealRequest.PieceCommitment.PaddedPieceSize ∧
      pc.UnPaddedPieceSize = dealRequest.PieceCommitment.UnPaddedPieceSize ∧
      pc.PaddedPieceSize ≠ 0) ∧
    (∀ pc ∈ inserted DB.piece_commitments node.DB
        (handleMultipleImportDeals node apiKey dealRequests).node.DB,
      ∃ r ∈ dealRequests,
        pc.PaddedPieceSize = r.PieceCommitment.PaddedPieceSize ∧
        pc.UnPaddedPieceSize = r.PieceCommitment.UnPaddedPieceSize ∧
        pc.PaddedPieceSize ≠ 0) ∧
    (∀ pc ∈ inserted DB.piece_commitments node.DB
        (batchImportLoop apiKey batchImportID dealRequests node []).2.2.DB,
      ∃ r ∈ dealRequests,
        pc.PaddedPieceSize = r.PieceCommitment.PaddedPieceSize ∧
        pc.UnPaddedPieceSize = r.PieceCommitment.UnPaddedPieceSize ∧
        pc.PaddedPieceSize ≠ 0) := by
  refine ⟨?_, ?_, ?_, ?_⟩
  · by_cases hok : (handleImportDeal node apiKey dealRequest).err = none
    · obtain ⟨pcs, c, p, r1, -, -, r4, -⟩ := handleImportDeal_rows hok
      rw [inserted_append DB.piece_commitments _ _ pcs r1]
      intro pc hpc
      obtain ⟨-, -, -, -, -, -, f7, f8, f9⟩ := r4 pc hpc
      exact ⟨f7, f9, f8⟩
    · rw [handleImportDeal_db_of_err hok, inserted_self]
      exact fun p hp => absurd hp (List.not_mem_nil p)
  · by_cases hok : (handleEndToEndDeal node apiKey file dealRequest).err = none
    · obtain ⟨cid, announce, pcs, cs, ps, -, -, r1, -, -, r4, -⟩ := handleEndToEndDeal_rows hok
      rw [inserted_append DB.piece_commitments _ _ pcs r1]
      intro pc hpc
      obtain ⟨-, -, -, -, -, -, f7, f8, f9⟩ := r4 pc hpc
      exact ⟨f7, f9, f8⟩
    · rw [handleEndToEndDeal_db_of_err hok, inserted_self]
      exact fun p hp => absurd hp (List.not_mem_nil p)
  · by_cases hok : (handleMultipleImportDeals node apiKey dealRequests).err = none
    · obtain ⟨pcs, cs, ps, r1, -, -, r4, -⟩ := handleMultipleImportDeals_rows hok
      rw [inserted_append DB.piece_commitments _ _ pcs r1]
      intro pc hpc
      obtain ⟨r, hr, -, -, -, -, -, -, f7, f8, f9⟩ := r4 pc hpc
      exact ⟨r, hr, f7, f9, f8⟩
    · rw [handleMultipleImportDeals_db_of_err hok, inserted_self]
      exact fun p hp => absurd hp (List.not_mem_nil p)
  · obtain ⟨pcs, r1, r4⟩ :=
      batchImportLoop_piece_commitments apiKey batchImportID dealRequests node []
    rw [inserted_append DB.piece_commitments _ _ pcs r1]
    intro pc hpc
    obtain ⟨r, hr, -, -, -, -, -, -, f7, f8, f9⟩ := r4 pc hpc
    exact ⟨r, hr, f7, f9, f8⟩

/-- C19, amended, witness: the rows of the import request with the sizes 100 and 127, sent
alone to `handleImportDeal` and after the complete request to the batch loop. -/
theorem inserted_piece_commitment_sizes_witness :
    (inserted DB.piece_commitments exampleNode.DB
      (handleImportDeal exampleNode "key" importRequestOddSizes).node.DB).map
        (fun pc => (pc.PaddedPieceSize, pc.UnPaddedPieceSize)) = [(100, 127)] ∧
    (inserted DB.piece_commitments exampleNode.DB
      (batchImportLoop "key" 1 [importRequestComplete, importRequestOddSizes]
        exampleNode []).2.2.DB).map
        (fun pc => (pc.PaddedPieceSize, pc.UnPaddedPieceSize)) = [(128, 127), (100, 127)] ∧
    (∀ pc ∈ inserted DB.piece_commitments exampleNode.DB
        (handleImportDeal exampleNode "key" importRequestOddSizes).node.DB,
      pc.PaddedPieceSize = importRequestOddSizes.PieceCommitment.PaddedPieceSize ∧
      pc.UnPaddedPieceSize = importRequestOddSizes.PieceCommitment.UnPaddedPieceSize ∧
      pc.PaddedPieceSize ≠ 0) :=
  ⟨by decide, by decide,
    (inserted_piece_commitment_sizes exampleNode "key" exampleFile importRequestOddSizes [] 1).1⟩

/-! ## C20: a content and its piece commitment -/

/-- C15, counterexample: on a node whose second announce address does not parse as a
multiaddr, `handleEndToEndDeal` accepts the verified request and the
ContentDealProposalParameters row it stores has an empty `transfer_params`: it carries
no URL. -/
theorem handleEndToEndDeal_empty_transfer_params :
    (handleEndToEndDeal nodeBadAnnounce "key" exampleFile verifiedRequest).err = none ∧
    nodeBadAnnounce.NewMultiaddr ("/ip4//tcp/6745" ++ "/p2p/" ++ nodeBadAnnounce.HostID) = none ∧
    (inserted DB.content_deal_proposal_parameters nodeBadAnnounce.DB
      (handleEndToEndDeal nodeBadAnnounce "key" exampleFile verifiedRequest).node.DB).map
        (fun p => (p.ID, p.TransferParams)) = [(1, "")] := by
  refine ⟨?_, ?_, ?_⟩ <;> decide

/-- C15, amended: for every request accepted by `handleEndToEndDeal` the caller-supplied
transfer URL is empty, and every ContentDealProposalParameters row the call stores
(the row of the response among them) has as `transfer_params`: the marshalled
parameters with the URL "libp2p://" followed by the multiaddr of
`<announce-addr>/p2p/<host-id>`, where `<announce-addr>` is the node's second announce
address, when that text parses as a multiaddr; and the empty string when it does not.
A request in `e2e` or empty connection mode with a non-empty `transfer_parameters.url`
is rejected by `ValidateMeta`. -/
theorem handleEndToEndDeal_transfer_params (node : DeltaNode) (apiKey : String)
    (file : FileHeader) (dealRequest : DealRequest) (request : DealRequest) (config : Config)
    (hok : (handleEndToEndDeal node apiKey file dealRequest).err = none) :
    dealRequest.TransferParameters.URL = "" ∧
    (∃ announce, node.AnnounceAddrs[1]? = some announce ∧
      ∀ p ∈ inserted DB.content_deal_proposal_parameters node.DB
          (handleEndToEndDeal node apiKey file dealRequest).node.DB,
        (∀ announceAddr,
          node.NewMultiaddr (announce ++ "/p2p/" ++ node.HostID) = some announceAddr →
          p.TransferParams =
            node.MarshalTransferParameters { URL := "libp2p://" ++ announceAddr }) ∧
        (node.NewMultiaddr (announce ++ "/p2p/" ++ node.HostID) = none →
          p.TransferParams = "")) ∧
    (∃ resp, (handleEndToEndDeal node apiKey file dealRequest).response = some resp ∧
      resp.DealProposalParameterRequest ∈ inserted DB.content_deal_proposal_parameters node.DB
        (handleEndToEndDeal node apiKey file dealRequest).node.DB) ∧
    ((request.ConnectionMode = "e2e" ∨ request.ConnectionMode = "") →
      request.TransferParameters.URL ≠ "" → ValidateMeta request config ≠ .ok ()) := by
  obtain ⟨cid, announce, pcs, cs, ps, -, ha, -, -, r3, -, -, r6, hurl⟩ :=
    handleEndToEndDeal_rows hok
  obtain ⟨resp, p, rows, q1, q2, q3, -⟩ := handleEndToEndDeal_parameters hok
  refine ⟨hurl, ⟨announce, ha, ?_⟩, ⟨resp, q1, ?_⟩, ?_⟩
  · rw [inserted_append DB.content_deal_proposal_parameters _ _ ps r3]
    intro x hx
    have hx2 := (r6 x hx).2
    constructor
    · intro a hna
      rw [hna] at hx2
      exact hx2
    · intro hna
      rw [hna] at hx2
      exact hx2
  · rw [q3, q2]
    exact List.mem_cons_self _ _
  · intro hmode hne hv
    obtain ⟨-, -, -, -, -, -, -, -, -, -, -, -, -, -, hu, -⟩ := ValidateMeta_ok hv
    refine hne (hu ?_)
    rcases hmode with hmode | hmode <;> (rw [hmode]; decide)

/-- C15, amended, witness: on the example node the verified request is accepted and its
row carries the URL built from the second announce address and the host id; the
request that brings a URL of its own is rejected by `ValidateMeta`. -/
theorem handleEndToEndDeal_transfer_params_witness :
    (handleEndToEndDeal exampleNode "key" exampleFile verifiedRequest).err = none ∧
    (inserted DB.content_deal_proposal_parameters exampleNode.DB
      (handleEndToEndDeal exampleNode "key" exampleFile verifiedRequest).node.DB).map
        (fun p => p.TransferParams) =
      [exampleNode.MarshalTransferParameters
        { URL := "libp2p:///ip4/10.0.0.1/tcp/6745/p2p/12D3KooW" }] ∧
    verifiedRequest.TransferParameters.URL = "" ∧
    ValidateMeta requestWithTransferURL exampleNode.Config ≠ .ok () :=
  have h := handleEndToEndDeal_transfer_params exampleNode "key" exampleFile verifiedRequest
    requestWithTransferURL exampleNode.Config (by decide)
  ⟨by decide, by decide, h.1, h.2.2.2 (Or.inl rfl) (by decide)⟩

/-! ## C27: the file size rule reads the verify state as the caller wrote it -/

/-- C27: `handleEndToEndDeal` applies the minimum of 1,000,000 bytes only when
`deal_verify_state` is exactly "verified": for every request with any other verify
state the handler never answers "File size is too small", whatever the file, and when
it accepts the request and the state is not "unverified" every
ContentDealProposalParameters row it writes has `verified_deal = true`. There is such
a request: with an empty verify state, and with the verify state "maybe", a file of
999,999 bytes is accepted and the row written has `verified_deal = true`. -/
theorem file_size_rule_only_for_verified_state (node : DeltaNode) (apiKey : String)
    (file : FileHeader) (dealRequest : DealRequest)
    (hstate : dealRequest.DealVerifyState ≠ "verified") :
    (handleEndToEndDeal node apiKey file dealRequest).err ≠ some "File size is too small" ∧
    ((handleEndToEndDeal node apiKey file dealRequest).err = none →
      dealRequest.DealVerifyState ≠ "unverified" →
      ∀ p ∈ inserted DB.content_deal_proposal_parameters node.DB
          (handleEndToEndDeal node apiKey file dealRequest).node.DB,
        p.VerifiedDeal = true) ∧
    (requestNoVerifyState.DealVerifyState = "" ∧ smallFile.Size < 1000000 ∧
      (handleEndToEndDeal exampleNode "key" smallFile requestNoVerifyState).err = none ∧
      (inserted DB.content_deal_proposal_parameters exampleNode.DB
        (handleEndToEndDeal exampleNode "key" smallFile requestNoVerifyState).node.DB).map
          (fun p => p.VerifiedDeal) = [true]) ∧
    (requestOtherVerifyState.DealVerifyState = "maybe" ∧
      (handleEndToEndDeal exampleNode "key" smallFile requestOtherVerifyState).err = none ∧
      (inserted DB.content_deal_proposal_parameters exampleNode.DB
        (handleEndToEndDeal exampleNode "key" smallFile requestOtherVerifyState).node.DB).map
          (fun p => p.VerifiedDeal) = [true]) := by
  refine ⟨?_, ?_, ⟨rfl, by decide, by decide, by decide⟩, ⟨rfl, by decide, by decide⟩⟩
  · unfold handleEndToEndDeal
    by_cases hm : dealRequest.ConnectionMode = "import"
    · rw [if_pos hm]
      exact fun h => absurd (Option.some.inj h) (by decide)
    · rw [if_neg hm]
      simp only
      rw [if_neg (fun h => hstate h.2)]
      cases hval : ValidateMeta { dealRequest with ConnectionMode := "e2e" } node.Config with
      | error e =>
        simp only
        intro h
        have he : e = "File size is too small" := Option.some.inj h
        rw [he] at hval
        exact ValidateMeta_ne_file_size _ _ hval
      | ok u =>
        simp only
        by_cases ho : node.FileOpens file = false
        · rw [if_pos ho]
          exact fun h => absurd (Option.some.inj h) (by decide)
        · rw [if_neg ho]
          cases hpin : node.AddPinFile file with
          | none => exact fun h => absurd (Option.some.inj h) (by decide)
          | some cid => exact Transaction_err_ne _ _ _ _ (by decide)
  · intro hok hun
    obtain ⟨-, -, hv, cid, -, heq⟩ := handleEndToEndDeal_of_ok hok
    have hok2 := hok
    rw [heq] at hok2
    obtain ⟨t1, t2, t3, t4, t5, announce, h1, h2, h3, h4, -, h5, hres⟩ :=
      handleEndToEndDealTxn_of_ok_announce hok2
    obtain ⟨pcs, -, -, s3, -, -, -, -, s8, -⟩ := steps_rows h1 h2 h3 (Or.inl h4) h5 rfl rfl
    simp only at s3 s8
    obtain ⟨cs, ps, -, d2, -, -, d5⟩ := endToEndDispatch_rows t5
    have htab : (handleEndToEndDeal node apiKey file dealRequest).node.DB.content_deal_proposal_parameters
        = node.DB.content_deal_proposal_parameters ++ (t5.dealProposalParam :: ps) := by
      rw [heq, hres, d2, s3, List.append_assoc, List.singleton_append]
    rw [inserted_append DB.content_deal_proposal_parameters _ _ _ htab]
    have hv5 : t5.dealProposalParam.VerifiedDeal = true := by
      rw [s8, if_neg hun]
    intro p hp
    rcases List.mem_cons.mp hp with hp | hp
    · rw [hp]
      exact hv5
    · rw [(d5 p hp).2.1]
      exact hv5

/-- C27, witness: the request with the verify state "maybe" and the file of 999,999 bytes. -/
theorem file_size_rule_only_for_verified_state_witness :
    requestOtherVerifyState.DealVerifyState ≠ "verified" ∧
    (handleEndToEndDeal exampleNode "key" smallFile requestOtherVerifyState).err ≠
      some "File size is too small" ∧
    (∀ p ∈ inserted DB.content_deal_proposal_parameters exampleNode.DB
        (handleEndToEndDeal exampleNode "key" smallFile requestOtherVerifyState).node.DB,
      p.VerifiedDeal = true) :=
  have h := file_size_rule_only_for_verified_state exampleNode "key" smallFile
    requestOtherVerifyState (by decide)
  ⟨by decide, h.1, h.2.1 (by decide) (by decide)⟩

/-! ## Fresh keys, and what a replica leaves in the store -/

theorem le_foldl_max_of_mem (ids : List Int) (a x : Int) (hx : x ∈ ids) :
    x ≤ ids.foldl max a := by
  induction ids generalizing a with
  | nil => cases hx
  | cons y ys ih =>
    simp only [List.foldl_cons]
    rcases List.mem_cons.mp hx with h | h
    · rw [h]
      exact le_trans (le_max_right a y) (le_foldl_max ys (max a y))
    · exact ih (max a y) h

/-- A fresh key is larger than every key in use. -/
theorem lt_nextID_of_mem (ids : List Int) (x : Int) (hx : x ∈ ids) : x < nextID ids := by
  have := le_foldl_max_of_mem ids 0 x hx
  unfold nextID
  omega

theorem replicateOne_replica (contentSource : DealReplication) (node : DeltaNode)
    (dealRequest : DealRequest) :
    (replicateOne contentSource node dealRequest).2.DB.content_wallets =
      node.DB.content_wallets ∧
    (∃ c p, (replicateOne contentSource node dealRequest).2.DB.contents =
        node.DB.contents ++ [c] ∧
      (replicateOne contentSource node dealRequest).2.DB.content_deal_proposal_parameters =
        node.DB.content_deal_proposal_parameters ++ [p]) ∧
    ((replicateOne contentSource node dealRequest).1 = none →
      (replicateOne contentSource node dealRequest).2.DB.content_miners =
        node.DB.content_miners) ∧
    ∀ rc, (replicateOne contentSource node dealRequest).1 = some rc →
      rc.DealResponse.ContentId = rc.Content.ID ∧
      rc.Content.ID = nextID (node.DB.contents.map Content.ID) ∧
      (replicateOne contentSource node dealRequest).2.DB.contents =
        node.DB.contents ++ [rc.Content] ∧
      (∃ p, (replicateOne contentSource node dealRequest).2.DB.content_deal_proposal_parameters =
        node.DB.content_deal_proposal_parameters ++ [p] ∧ p.Content = rc.Content.ID) ∧
      (∃ m, (replicateOne contentSource node dealRequest).2.DB.content_miners =
        node.DB.content_miners ++ [m] ∧ m.Content = rc.Content.ID) := by
  unfold replicateOne
  simp only
  split
  · refine ⟨?_, ⟨{ contentSource.Content with ID := nextID (node.DB.contents.map Content.ID) },
      { contentSource.ContentDealProposalParameter with
        ID := nextID (node.DB.content_deal_proposal_parameters.map ContentDealProposalParameters.ID)
        Content := nextID (node.DB.contents.map Content.ID) }, ?_, ?_⟩, ?_, ?_⟩
    · simp only [DB.CreateContentDealProposalParameters, DB.CreateContent]
    · simp only [DB.CreateContentDealProposalParameters, DB.CreateContent]
    · simp only [DB.CreateContentDealProposalParameters, DB.CreateContent]
    · intro _
      simp only [DB.CreateContentDealProposalParameters, DB.CreateContent]
    · intro rc hrc
      cases hrc
  · refine ⟨?_, ⟨{ contentSource.Content with ID := nextID (node.DB.contents.map Content.ID) },
      { contentSource.ContentDealProposalParameter with
        ID := nextID (node.DB.content_deal_proposal_parameters.map ContentDealProposalParameters.ID)
        Content := nextID (node.DB.contents.map Content.ID) }, ?_, ?_⟩, ?_, ?_⟩
    · simp only [DB.CreateContentDealProposalParameters, DB.CreateContent,
        DB.CreateContentMiner]
    · simp only [DB.CreateContentDealProposalParameters, DB.CreateContent,
        DB.CreateContentMiner]
    · simp only [DB.CreateContentDealProposalParameters, DB.CreateContent,
        DB.CreateContentMiner]
    · intro h
      cases h
    · intro rc hrc
      simp only [Option.some.injEq] at hrc
      subst hrc
      simp only [DB.CreateContentDealProposalParameters, DB.CreateContent,
        DB.CreateContentMiner]
      exact ⟨trivial, trivial, trivial, ⟨_, rfl, rfl⟩, ⟨_, rfl, rfl⟩⟩

/-- The replicas `ReplicateContent` returns: none, or as many as asked for, each with a
fresh Content, a parameter row and a miner row; the wallet links are not touched. -/
theorem ReplicateContentLoop_replicas (contentSource : DealReplication) (n : Nat) :
    ∀ (node : DeltaNode) (dealRequest : DealRequest) (acc : List ReplicatedContent),
    (ReplicateContentLoop contentSource n node dealRequest acc).2.DB.content_wallets =
      node.DB.content_wallets ∧
    ∃ (cs : List Content) (ps : List ContentDealProposalParameters) (ms : List ContentMiner),
      (ReplicateContentLoop contentSource n node dealRequest acc).2.DB.contents =
        node.DB.contents ++ cs ∧
      (ReplicateContentLoop contentSource n node dealRequest acc).2.DB.content_deal_proposal_parameters =
        node.DB.content_deal_proposal_parameters ++ ps ∧
      (ReplicateContentLoop contentSource n node dealRequest acc).2.DB.content_miners =
        node.DB.content_miners ++ ms ∧
      ((ReplicateContentLoop contentSource n node dealRequest acc).1 = [] ∨
        ∃ new, (ReplicateContentLoop contentSource n node dealRequest acc).1 = acc ++ new ∧
          new.length = n ∧
          ∀ rc ∈ new, rc.DealResponse.ContentId = rc.Content.ID ∧
            (∀ x ∈ node.DB.contents, x.ID < rc.Content.ID) ∧
            rc.Content ∈ cs ∧ (∃ p ∈ ps, p.Content = rc.Content.ID) ∧
            (∃ m ∈ ms, m.Content = rc.Content.ID)) := by
  induction n with
  | zero =>
    intro node dealRequest acc
    refine ⟨rfl, [], [], [], ?_, ?_, ?_, Or.inr ⟨[], ?_, rfl, ?_⟩⟩ <;>
      simp [ReplicateContentLoop]
  | succ n ih =>
    intro node dealRequest acc
    obtain ⟨w1, ⟨c0, p0, hc0, hp0⟩, hnone, hrep⟩ :=
      replicateOne_replica contentSource node dealRequest
    unfold ReplicateContentLoop
    rcases hone : replicateOne contentSource node dealRequest with ⟨rc, node2⟩
    rw [hone] at w1 hc0 hp0 hnone hrep
    simp only at w1 hc0 hp0 hnone hrep
    cases rc with
    | none =>
      simp only
      refine ⟨w1, [c0], [p0], [], hc0, hp0, ?_, Or.inl trivial⟩
      rw [hnone rfl, List.append_nil]
    | some rc =>
      simp only
      obtain ⟨r1, r2, r3, ⟨p, r4, r5⟩, ⟨m, r6, r7⟩⟩ := hrep rc rfl
      obtain ⟨iw, cs, ps, ms, i1, i2, i3, i4⟩ := ih node2 rc.DealRequest (acc ++ [rc])
      refine ⟨iw.trans w1, rc.Content :: cs, p :: ps, m :: ms, ?_, ?_, ?_, ?_⟩
      · rw [i1, r3, List.append_assoc, List.singleton_append]
      · rw [i2, r4, List.append_assoc, List.singleton_append]
      · rw [i3, r6, List.append_assoc, List.singleton_append]
      · rcases i4 with i4 | ⟨new, n1, n2, n3⟩
        · exact Or.inl i4
        · refine Or.inr ⟨rc :: new, ?_, ?_, ?_⟩
          · rw [n1, List.append_assoc, List.singleton_append]
          · rw [List.length_cons, n2]
          · intro x hx
            rcases List.mem_cons.mp hx with hx | hx
            · subst hx
              refine ⟨r1, ?_, List.mem_cons_self _ _, ⟨p, List.mem_cons_self _ _, r5⟩,
                ⟨m, List.mem_cons_self _ _, r7⟩⟩
              intro y hy
              rw [r2]
              exact lt_nextID_of_mem _ _ (List.mem_map_of_mem Content.ID hy)
            · obtain ⟨f1, f2, f3, ⟨p2, f4, f5⟩, ⟨m2, f6, f7⟩⟩ := n3 x hx
              refine ⟨f1, ?_, List.mem_cons_of_mem _ f3, ⟨p2, List.mem_cons_of_mem _ f4, f5⟩,
                ⟨m2, List.mem_cons_of_mem _ f6, f7⟩⟩
              intro y hy
              exact f2 y (by rw [r3]; exact List.mem_append_left _ hy)


theorem assignWallet_of_ok_wallet {apiKey : String} {t t2 : Txn}
    (h : assignWallet apiKey t = (t2, none))
    (hne : ({} : WalletRequest) ≠ t.dealRequest.Wallet) :
    ∃ w : ContentWallet,
      t2.node.DB.content_wallets = t.node.DB.content_wallets ++ [w] ∧
      w.Content = t.content.ID ∧
      w.WalletId = (lookupWallet t.node.DB apiKey t.dealRequest.Wallet).ID ∧
      w.WalletId ≠ 0 := by
  unfold assignWallet at h
  rw [if_pos hne] at h
  simp only at h
  split at h
  · cases h
  · rename_i hid
    cases h
    exact ⟨_, rfl, rfl, rfl, hid⟩

/-! ## C29: the replicas of a request with a wallet -/

/-- C29: for an accepted end-to-end request with `replication = N > 0` that references a
wallet, the call inserts exactly one ContentWallet row, and it links the wallet to the
original Content (the Content of the response). `ReplicateContent` returns either no
clone or `N` clones; each clone returned has a Content row of its own (with a fresh id,
different from the original's), a ContentDealProposalParameters row and a ContentMiner
row among the rows the call inserted, and no ContentWallet row. -/
theorem replicas_have_no_content_wallet (node : DeltaNode) (apiKey : String)
    (file : FileHeader) (dealRequest : DealRequest)
    (hok : (handleEndToEndDeal node apiKey file dealRequest).err = none)
    (hrep : 0 < dealRequest.Replication)
    (hwallet : dealRequest.Wallet ≠ {}) :
    ∃ (resp : DealResponse) (w : ContentWallet),
      (handleEndToEndDeal node apiKey file dealRequest).response = some resp ∧
      inserted DB.content_wallets node.DB
        (handleEndToEndDeal node apiKey file dealRequest).node.DB = [w] ∧
      w.Content = resp.ContentId ∧
      (resp.ReplicatedContents = [] ∨
        resp.ReplicatedContents.length = dealRequest.Replication.toNat) ∧
      ∀ rep ∈ resp.ReplicatedContents,
        rep.ContentId ≠ w.Content ∧
        (∃ c ∈ inserted DB.contents node.DB
            (handleEndToEndDeal node apiKey file dealRequest).node.DB, c.ID = rep.ContentId) ∧
        (∃ p ∈ inserted DB.content_deal_proposal_parameters node.DB
            (handleEndToEndDeal node apiKey file dealRequest).node.DB,
          p.Content = rep.ContentId) ∧
        (∃ m ∈ inserted DB.content_miners node.DB
            (handleEndToEndDeal node apiKey file dealRequest).node.DB,
          m.Content = rep.ContentId) := by
  obtain ⟨-, -, hv, cid, -, heq⟩ := handleEndToEndDeal_of_ok hok
  have hok2 := hok
  rw [heq] at hok2
  obtain ⟨t1, t2, t3, t4, t5, announce, h1, h2, h3, h4, -, h5, hres⟩ :=
    handleEndToEndDealTxn_of_ok_announce hok2
  -- the wallet link of the original
  obtain ⟨a1, a2, a3, -, -, -, -, -, -, -, a11, -⟩ := createPieceCommitment_frame h1
  obtain ⟨b1, -, -, b4, b5, -, -, -, -, -, -, -, b13, -⟩ := createContent_spec h2
  obtain ⟨-, c2, c3, -, -, -, -, c8, -, -, c11, -⟩ := assignMiner_frame _ _ _ _ h3
  obtain ⟨-, d2, d3, d4, -, -, -, d8, -⟩ := assignWallet_frame _ _ _ _ h4
  obtain ⟨e1, -, -, e4, e5, e6, -, -, -, e10, e11, -⟩ := createProposalParameters_spec h5
  simp only at a1 a2 a3 a11
  have hwne : ({} : WalletRequest) ≠ t3.dealRequest.Wallet := by
    rw [c11, b13, a11]
    exact fun e => hwallet e.symm
  obtain ⟨w, w1, w2, -, -⟩ := assignWallet_of_ok_wallet h4 hwne
  have hrepl : t5.dealRequest.Replication = dealRequest.Replication := by
    obtain ⟨ar, -⟩ := createPieceCommitment_keeps cid file.Size COMMP_STATUS_OPEN
      { node := { node with Pinned := node.Pinned ++ [file] },
        dealRequest := { dealRequest with ConnectionMode := "e2e" } }
    rw [h1] at ar
    obtain ⟨br, -⟩ := createContent_keeps
      { Name := file.Filename
        Size := file.Size
        Cid := cid
        RequestingApiKey := apiKey
        PieceCommitmentId := t1.pieceCommp.ID
        Status := CONTENT_PINNED
        AutoRetry := t1.dealRequest.AutoRetry
        ConnectionMode := t1.dealRequest.ConnectionMode } t1
    rw [h2] at br
    obtain ⟨cr, -⟩ := assignMiner_keeps h3
    obtain ⟨dr, -⟩ := assignWallet_keeps (Or.inl h4)
    rw [e11, dr, cr, br, ar]
  have hne0 : ¬ t5.dealRequest.Replication = 0 := by
    rw [hrepl]
    omega
  -- the tables of the five steps
  have hcw5 : t5.node.DB.content_wallets = node.DB.content_wallets ++ [w] := by
    rw [e6, w1, c3, b5, a3]
  have hc5 : t5.node.DB.contents = node.DB.contents ++ [t5.content] := by
    rw [e4, d2, c2, b1, e10, d8, c8, a1]
  have hm5 : ∃ ms, t5.node.DB.content_miners = node.DB.content_miners ++ ms := by
    have hmi : ∃ ms, t3.node.DB.content_miners = t2.node.DB.content_miners ++ ms := by
      unfold assignMiner at h3
      by_cases hmi : t2.dealRequest.Miner = ""
      · rw [if_pos hmi] at h3
        simp only at h3
        cases hp : t2.node.GetSPWithGivenBytes t2.node.MinerAssignmentCalls file.Size with
        | error e => rw [hp] at h3; simp only at h3; cases h3
        | ok a =>
          rw [hp] at h3
          simp only at h3
          split at h3
          · cases h3
            exact ⟨_, rfl⟩
          · cases h3
            exact ⟨[], by simp⟩
      · rw [if_neg hmi] at h3
        cases h3
        exact ⟨_, rfl⟩
    obtain ⟨ms, hms⟩ := hmi
    exact ⟨ms, by rw [e5, d3, hms, b4, a2]⟩
  obtain ⟨ms5, hm5⟩ := hm5
  have hp5 : t5.node.DB.content_deal_proposal_parameters =
      node.DB.content_deal_proposal_parameters ++ [t5.dealProposalParam] := by
    obtain ⟨-, -, -, a4, -⟩ := createPieceCommitment_frame h1
    obtain ⟨-, -, -, -, -, b6, -⟩ := createContent_spec h2
    obtain ⟨-, -, -, c4, -⟩ := assignMiner_frame _ _ _ _ h3
    rw [e1, d4, c4, b6, a4]
  have hwc : w.Content = t5.content.ID := by rw [w2, e10, d8]
  -- the replicas
  obtain ⟨lw, cs, ps, ms, l1, l2, l3, l4⟩ := ReplicateContentLoop_replicas
    { Content := t5.content, ContentDealProposalParameter := t5.dealProposalParam
      DealRequest := t5.dealRequest } t5.dealRequest.Replication.toNat t5.node t5.dealRequest []
  have hdisp : endToEndDispatch t5 =
      { err := none
        response := some (dealResponse t5
          ((ReplicateContent t5.node
            { Content := t5.content, ContentDealProposalParameter := t5.dealProposalParam
              DealRequest := t5.dealRequest } t5.dealRequest).1.map
            ReplicatedContent.DealResponse))
        node := { (ReplicateContent t5.node
            { Content := t5.content, ContentDealProposalParameter := t5.dealProposalParam
              DealRequest := t5.dealRequest } t5.dealRequest).2 with
          Dispatcher := (endToEndDispatch t5).node.Dispatcher } } := by
    unfold endToEndDispatch
    rw [if_neg hne0]
  rw [heq, hres, hdisp]
  simp only
  unfold ReplicateContent
  refine ⟨_, w, rfl, ?_, hwc, ?_, ?_⟩
  · exact inserted_append DB.content_wallets _ _ _ (by rw [lw, hcw5])
  · simp only [dealResponse, List.length_map]
    rcases l4 with l4 | ⟨new, n1, n2, -⟩
    · exact Or.inl (by rw [l4]; rfl)
    · right
      rw [n1, List.nil_append, n2, hrepl]
  · intro rep hrep2
    simp only [dealResponse, List.mem_map] at hrep2
    obtain ⟨rc, hrc, hrceq⟩ := hrep2
    rcases l4 with l4 | ⟨new, n1, -, n3⟩
    · rw [l4] at hrc
      cases hrc
    · rw [n1, List.nil_append] at hrc
      obtain ⟨f1, f2, f3, ⟨p, f4, f5⟩, ⟨m, f6, f7⟩⟩ := n3 rc hrc
      have hid : rep.ContentId = rc.Content.ID := by rw [← hrceq, f1]
      refine ⟨?_, ⟨rc.Content, ?_, hid.symm⟩, ⟨p, ?_, by rw [f5, hid]⟩, ⟨m, ?_, by rw [f7, hid]⟩⟩
      · rw [hid, hwc]
        have hlt := f2 t5.content (by rw [hc5]; exact List.mem_append_right _ (List.mem_singleton.mpr rfl))
        omega
      · rw [inserted_append DB.contents _ _ (t5.content :: cs)
          (by rw [l1, hc5, List.append_assoc, List.singleton_append])]
        exact List.mem_cons_of_mem _ f3
      · rw [inserted_append DB.content_deal_proposal_parameters _ _ (t5.dealProposalParam :: ps)
          (by rw [l2, hp5, List.append_assoc, List.singleton_append])]
        exact List.mem_cons_of_mem _ f4
      · rw [inserted_append DB.content_miners _ _ (ms5 ++ ms)
          (by rw [l3, hm5, List.append_assoc])]
        exact List.mem_append_right _ f6


/-- C29, witness: on the node with the wallet `f3abc`, the request for two replicas leaves
three Content rows, three parameter rows and three ContentMiner rows, and the one
ContentWallet row of the original. -/
theorem replicas_have_no_content_wallet_witness :
    (handleEndToEndDeal nodeWithWallet "key" exampleFile requestWalletTwoReplicas).err = none ∧
    0 < requestWalletTwoReplicas.Replication ∧
    requestWalletTwoReplicas.Wallet ≠ {} ∧
    (inserted DB.content_wallets nodeWithWallet.DB
      (handleEndToEndDeal nodeWithWallet "key" exampleFile requestWalletTwoReplicas).node.DB).map
        (fun w => (w.WalletId, w.Content)) = [(1, 1)] ∧
    (inserted DB.content_miners nodeWithWallet.DB
      (handleEndToEndDeal nodeWithWallet "key" exampleFile requestWalletTwoReplicas).node.DB).map
        (fun m => m.Content) = [1, 2, 3] ∧
    (handleEndToEndDeal nodeWithWallet "key" exampleFile requestWalletTwoReplicas).response.map
      (fun resp => (resp.ContentId, resp.ReplicatedContents.map (fun r => r.ContentId))) =
        some (1, [2, 3]) ∧
    ∃ (resp : DealResponse) (w : ContentWallet),
      (handleEndToEndDeal nodeWithWallet "key" exampleFile requestWalletTwoReplicas).response =
        some resp ∧
      inserted DB.content_wallets nodeWithWallet.DB
        (handleEndToEndDeal nodeWithWallet "key" exampleFile requestWalletTwoReplicas).node.DB =
          [w] ∧
      w.Content = resp.ContentId :=
  have h := replicas_have_no_content_wallet nodeWithWallet "key" exampleFile
    requestWalletTwoReplicas (by decide) (by decide) (by decide)
  ⟨by decide, by decide, by decide, by decide, by decide, by decide,
    h.elim fun resp h2 => h2.elim fun w h3 => ⟨resp, w, h3.1, h3.2.1, h3.2.2.1⟩⟩

/-! ## `handleMultipleImportDeals`: the jobs of the requests before a failing one -/

/-- One accepted request of the array: the one job added for it, a Deal Maker job for a
fresh Content and PieceCommitment when the request names a padded piece size. -/
theorem multipleImportOne_jobs {apiKey : String} {dealRequest : DealRequest}
    {node : DeltaNode} {t : Txn}
    (h : multipleImportOne apiKey dealRequest node = (t, none)) :
    ∃ job : IProcessor,
      t.node.Dispatcher.jobs = node.Dispatcher.jobs ++ [job] ∧
      t.node.Dispatcher.starts = node.Dispatcher.starts ∧
      (dealRequest.PieceCommitment.PaddedPieceSize ≠ 0 →
        ∃ c pc, job = .StorageDealMakerProcessor c pc ∧ c.Cid = dealRequest.Cid ∧
          pc.ID = c.PieceCommitmentId ∧ pc.ID ≠ 0 ∧
          (∀ x ∈ node.DB.contents, x.ID < c.ID) ∧
          (∀ x ∈ node.DB.piece_commitments, x.ID < pc.ID)) ∧
      (∃ cs, t.node.DB.contents = node.DB.contents ++ cs) ∧
      (∃ pcs, t.node.DB.piece_commitments = node.DB.piece_commitments ++ pcs) := by
  obtain ⟨pcs0, c0, p0, q1, q2, -⟩ := multipleImportOne_rows h
  unfold multipleImportOne at h
  by_cases hm : dealRequest.ConnectionMode = "e2e"
  · simp [hm] at h
  · simp only [hm, if_false] at h
    cases hv : ValidateMeta { dealRequest with ConnectionMode := "import" } node.Config with
    | error e => simp [hv] at h
    | ok u =>
      simp only [hv] at h
      cases hp : ValidatePieceCommitmentMeta dealRequest.PieceCommitment with
      | error e => simp [hp] at h
      | ok u2 =>
        simp only [hp] at h
        split at h
        · simp at h
        · rename_i t3 h3
          split at h
          · simp at h
          · rename_i t4 h4
            generalize h1 : createPieceCommitment dealRequest.Cid dealRequest.Size
              COMMP_STATUS_COMITTED
              { node := node, dealRequest := { dealRequest with ConnectionMode := "import" } }
              = t1 at h3 h
            generalize h2 : createContent
              { Name := t1.dealRequest.Cid
                Size := t1.dealRequest.Size
                Cid := t1.dealRequest.Cid
                RequestingApiKey := apiKey
                PieceCommitmentId := t1.pieceCommp.ID
                AutoRetry := t1.dealRequest.AutoRetry
                Status := CONTENT_DEAL_MAKING_PROPOSAL
                ConnectionMode := t1.dealRequest.ConnectionMode } t1 = t2 at h3 h
            obtain ⟨kr, -⟩ := createPieceCommitment_keeps dealRequest.Cid dealRequest.Size
              COMMP_STATUS_COMITTED
              { node := node, dealRequest := { dealRequest with ConnectionMode := "import" } }
            rw [h1] at kr
            obtain ⟨a1, -, -, -, -, a6, -⟩ := createPieceCommitment_frame h1
            obtain ⟨-, b2, -, -, -, -, -, b8, b9, -⟩ := createContent_spec h2
            obtain ⟨-, -, -, -, -, c6, c7, c8, -⟩ := assignMiner_frame _ _ _ _ h3
            obtain ⟨-, -, -, -, -, d6, d7, d8, -⟩ := assignWalletMultiple_frame _ _ _ _ h4
            simp only at a1 a6
            simp only [Prod.mk.injEq, and_true] at h
            subst h
            refine ⟨(if t4.pieceCommp.ID ≠ 0 then
                .StorageDealMakerProcessor t4.content t4.pieceCommp else .nil),
              ?_, ?_, ?_, ⟨_, q2⟩, ⟨_, q1⟩⟩
            · simp only [multipleImportAddJob, createProposalParameters,
                DB.CreateContentDealProposalParameters, Dispatcher.AddJob]
              rw [d6, c6, b8, a6]
            · simp only [multipleImportAddJob, createProposalParameters,
                DB.CreateContentDealProposalParameters, Dispatcher.AddJob]
              rw [d6, c6, b8, a6]
            · intro hpad
              have hne : ({} : PieceCommitmentRequest) ≠ dealRequest.PieceCommitment := by
                unfold ValidatePieceCommitmentMeta at hp
                intro e
                rw [if_pos e] at hp
                cases hp
              obtain ⟨-, -, -, -, -, -, -, -, -, -, -, -, -, -, -, v16, -⟩ := ValidateMeta_ok hv
              have hcond : (({} : PieceCommitmentRequest) ≠ dealRequest.PieceCommitment ∧
                  dealRequest.PieceCommitment.Piece ≠ "") ∧
                  dealRequest.PieceCommitment.PaddedPieceSize ≠ 0 ∧ dealRequest.Size ≠ 0 :=
                ⟨⟨hne, (v16 (fun e => hne e.symm)).1⟩, hpad, (v16 (fun e => hne e.symm)).2⟩
              obtain ⟨k1, k2, -, k4, -⟩ := createPieceCommitment_of_cond h1 hcond
              have hpc : t4.pieceCommp = t1.pieceCommp := by rw [d7, c7, b9]
              have hct : t4.content = t2.content := by rw [d8, c8]
              have hid : t1.pieceCommp.ID = nextID (node.DB.piece_commitments.map PieceCommitment.ID) := by
                have hmem : t1.pieceCommp ∈ t1.node.DB.piece_commitments := by
                  rw [k1]
                  exact List.mem_append_right _ (List.mem_singleton.mpr rfl)
                rw [← h1]
                simp only [createPieceCommitment, if_pos hcond, DB.CreatePieceCommitment]
              refine ⟨t2.content, t1.pieceCommp, ?_, ?_, ?_, k2, ?_, ?_⟩
              · rw [hpc, hct, if_pos k2]
              · rw [b2, kr]
              · rw [b2]
              · intro x hx
                rw [b2]
                simp only
                rw [a1]
                exact lt_nextID_of_mem _ _ (List.mem_map_of_mem Content.ID hx)
              · intro x hx
                rw [hid]
                exact lt_nextID_of_mem _ _ (List.mem_map_of_mem PieceCommitment.ID hx)

/-- A request of the array that fails leaves the dispatcher as it was. -/
theorem multipleImportOne_dispatcher_of_err (apiKey : String) (dealRequest : DealRequest)
    (node : DeltaNode) (e : String)
    (h : (multipleImportOne apiKey dealRequest node).2 = some e) :
    (multipleImportOne apiKey dealRequest node).1.node.Dispatcher = node.Dispatcher := by
  unfold multipleImportOne at h ⊢
  by_cases hm : dealRequest.ConnectionMode = "e2e"
  · simp only [hm, if_true]
  · simp only [hm, if_false] at h ⊢
    cases hv : ValidateMeta { dealRequest with ConnectionMode := "import" } node.Config with
    | error e => simp only
    | ok u =>
      simp only [hv] at h ⊢
      cases hp : ValidatePieceCommitmentMeta dealRequest.PieceCommitment with
      | error e => simp only
      | ok u2 =>
        simp only [hp] at h ⊢
        generalize h1 : createPieceCommitment dealRequest.Cid dealRequest.Size
          COMMP_STATUS_COMITTED
          { node := node, dealRequest := { dealRequest with ConnectionMode := "import" } }
          = t1 at h ⊢
        generalize h2 : createContent
          { Name := t1.dealRequest.Cid
            Size := t1.dealRequest.Size
            Cid := t1.dealRequest.Cid
            RequestingApiKey := apiKey
            PieceCommitmentId := t1.pieceCommp.ID
            AutoRetry := t1.dealRequest.AutoRetry
            Status := CONTENT_DEAL_MAKING_PROPOSAL
            ConnectionMode := t1.dealRequest.ConnectionMode } t1 = t2 at h ⊢
        obtain ⟨-, -, -, -, -, a6, -⟩ := createPieceCommitment_frame h1
        obtain ⟨-, -, -, -, -, -, -, b8, -⟩ := createContent_spec h2
        simp only at a6
        rcases h3 : assignMiner t2.dealRequest.Size t2 with ⟨t3, e3⟩
        obtain ⟨-, -, -, -, -, c6, -⟩ := assignMiner_frame _ _ _ _ h3
        rw [h3] at h
        cases e3 with
        | some e3 =>
          simp only
          rw [c6, b8, a6]
        | none =>
          simp only at h ⊢
          rcases h4 : assignWalletMultiple apiKey t3 with ⟨t4, e4⟩
          obtain ⟨-, -, -, -, -, d6, -⟩ := assignWalletMultiple_frame _ _ _ _ h4
          rw [h4] at h
          cases e4 with
          | some e4 =>
            simp only
            rw [d6, c6, b8, a6]
          | none => simp at h

/-- The accepted requests at the head of the array: one job each, in order; the job of a
request that names a padded piece size is a Deal Maker job for a Content and a
PieceCommitment whose ids are above every id the store had before. -/
theorem multipleImportLoop_jobs (apiKey : String) (dealRequests : List DealRequest) :
    ∀ (node node2 : DeltaNode) (acc out : List DealResponse),
    multipleImportLoop apiKey dealRequests node acc = (none, out, node2) →
    ∃ js : List IProcessor,
      node2.Dispatcher.jobs = node.Dispatcher.jobs ++ js ∧
      node2.Dispatcher.starts = node.Dispatcher.starts ∧
      List.Forall₂ (fun (r : DealRequest) (job : IProcessor) =>
        r.PieceCommitment.PaddedPieceSize ≠ 0 →
        ∃ c pc, job = .StorageDealMakerProcessor c pc ∧ c.Cid = r.Cid ∧
          pc.ID = c.PieceCommitmentId ∧ pc.ID ≠ 0 ∧
          (∀ x ∈ node.DB.contents, x.ID < c.ID) ∧
          (∀ x ∈ node.DB.piece_commitments, x.ID < pc.ID)) dealRequests js := by
  induction dealRequests with
  | nil =>
    intro node node2 acc out h
    simp only [multipleImportLoop, Prod.mk.injEq, true_and] at h
    refine ⟨[], ?_, ?_, List.Forall₂.nil⟩ <;> simp [← h.2]
  | cons r rest ih =>
    intro node node2 acc out h
    unfold multipleImportLoop at h
    rcases hone : multipleImportOne apiKey r node with ⟨t, e⟩
    rw [hone] at h
    cases e with
    | some e => simp at h
    | none =>
      simp only at h
      obtain ⟨job, o1, o2, o3, ⟨cs, o4⟩, ⟨pcs, o5⟩⟩ := multipleImportOne_jobs hone
      obtain ⟨js, i1, i2, i3⟩ := ih t.node node2 _ out h
      refine ⟨job :: js, ?_, ?_, List.Forall₂.cons o3 ?_⟩
      · rw [i1, o1, List.append_assoc, List.singleton_append]
      · rw [i2, o2]
      · refine List.Forall₂.imp ?_ i3
        intro r2 j2 hp hpad
        obtain ⟨c, pc, p1, p2, p3, p4, p5, p6⟩ := hp hpad
        refine ⟨c, pc, p1, p2, p3, p4, ?_, ?_⟩
        · intro x hx
          exact p5 x (by rw [o4]; exact List.mem_append_left _ hx)
        · intro x hx
          exact p6 x (by rw [o5]; exact List.mem_append_left _ hx)

/-- The loop on an array whose head is accepted and whose next request fails: it stops
at the failing request with its error. -/
theorem multipleImportLoop_append_err (apiKey : String) (accepted : List DealRequest)
    (failing : DealRequest) (rest : List DealRequest) (e : String) (t : Txn) :
    ∀ (node node2 : DeltaNode) (acc out : List DealResponse),
    multipleImportLoop apiKey accepted node acc = (none, out, node2) →
    multipleImportOne apiKey failing node2 = (t, some e) →
    multipleImportLoop apiKey (accepted ++ failing :: rest) node acc = (some e, out, t.node) := by
  induction accepted with
  | nil =>
    intro node node2 acc out h hf
    simp only [multipleImportLoop, Prod.mk.injEq, true_and] at h
    obtain ⟨h1, h2⟩ := h
    subst h1 h2
    simp only [List.nil_append, multipleImportLoop, hf]
  | cons r more ih =>
    intro node node2 acc out h hf
    unfold multipleImportLoop at h
    rcases hone : multipleImportOne apiKey r node with ⟨t1, e1⟩
    rw [hone] at h
    cases e1 with
    | some e1 => simp at h
    | none =>
      simp only at h
      have := ih t1.node node2 _ out h hf
      rw [List.cons_append]
      unfold multipleImportLoop
      rw [hone]
      exact this

/-! ## C28: a failing request of the array and the jobs added before it -/

/-- C28, counterexample: the two-request array whose first request gives the unpadded piece size only and
whose second request asks for a duration of 600 days: the transaction is rolled back,
no worker is started, and the one job left in the queue is the nil job, not a Deal
Maker job. -/
theorem handleMultipleImportDeals_failure_leaves_nil_job :
    (handleMultipleImportDeals exampleNode "key"
        [importRequestUnpaddedOnly, importRequestTooLong]).err =
      some ("Error in making a deal proposal " ++
        "duration_in_days can only be 540 days or less") ∧
    (handleMultipleImportDeals exampleNode "key"
        [importRequestUnpaddedOnly, importRequestTooLong]).node.DB = exampleNode.DB ∧
    (handleMultipleImportDeals exampleNode "key"
        [importRequestUnpaddedOnly, importRequestTooLong]).node.Dispatcher =
      { jobs := [IProcessor.nil], starts := [] } := by
  decide

/-- C28, amended: when the requests before request k of the array are
accepted and request k fails (validation, miner assignment or wallet lookup),
`handleMultipleImportDeals` returns the wrapped error, the store is what it was before
the call, `Dispatcher.Start` is not called, and the k jobs added for the accepted
requests stay queued, in order; the job of each accepted request that names a padded
piece size is a Deal Maker job whose Content and PieceCommitment ids are keys of no row
of the store. -/
theorem handleMultipleImportDeals_failure_keeps_jobs (node : DeltaNode) (apiKey : String)
    (accepted : List DealRequest) (failing : DealRequest) (rest : List DealRequest)
    (out : List DealResponse) (node2 : DeltaNode) (e : String)
    (hacc : multipleImportLoop apiKey accepted node [] = (none, out, node2))
    (hfail : (multipleImportOne apiKey failing node2).2 = some e) :
    (handleMultipleImportDeals node apiKey (accepted ++ failing :: rest)).err =
      some ("Error in making a deal proposal " ++ e) ∧
    (handleMultipleImportDeals node apiKey (accepted ++ failing :: rest)).node.DB = node.DB ∧
    (handleMultipleImportDeals node apiKey (accepted ++ failing :: rest)).node.Dispatcher.starts =
      node.Dispatcher.starts ∧
    ∃ js : List IProcessor,
      (handleMultipleImportDeals node apiKey (accepted ++ failing :: rest)).node.Dispatcher.jobs =
        node.Dispatcher.jobs ++ js ∧
      js.length = accepted.length ∧
      List.Forall₂ (fun (r : DealRequest) (job : IProcessor) =>
        r.PieceCommitment.PaddedPieceSize ≠ 0 →
        ∃ c pc, job = .StorageDealMakerProcessor c pc ∧ c.Cid = r.Cid ∧
          pc.ID = c.PieceCommitmentId ∧
          (∀ x ∈ (handleMultipleImportDeals node apiKey
              (accepted ++ failing :: rest)).node.DB.contents, x.ID ≠ c.ID) ∧
          (∀ x ∈ (handleMultipleImportDeals node apiKey
              (accepted ++ failing :: rest)).node.DB.piece_commitments, x.ID ≠ pc.ID))
        accepted js := by
  rcases hone : multipleImportOne apiKey failing node2 with ⟨t, e1⟩
  have hd := multipleImportOne_dispatcher_of_err apiKey failing node2 e hfail
  rw [hone] at hfail hd
  simp only at hfail hd
  subst hfail
  have hloop := multipleImportLoop_append_err apiKey accepted failing rest e t node node2
    [] out hacc hone
  obtain ⟨js, j1, j2, j3⟩ := multipleImportLoop_jobs apiKey accepted node node2 [] out hacc
  have hres : handleMultipleImportDeals node apiKey (accepted ++ failing :: rest) =
      { err := some ("Error in making a deal proposal" ++ " " ++ e), response := none,
        node := { t.node with DB := node.DB } } := by
    unfold handleMultipleImportDeals Transaction
    simp only [hloop]
  rw [hres]
  simp only
  rw [hd]
  refine ⟨rfl, trivial, j2, js, j1, (List.Forall₂.length_eq j3).symm, ?_⟩
  refine List.Forall₂.imp ?_ j3
  intro r j hp hpad
  obtain ⟨c, pc, p1, p2, p3, -, p5, p6⟩ := hp hpad
  exact ⟨c, pc, p1, p2, p3, fun x hx => ne_of_lt (p5 x hx),
    fun x hx => ne_of_lt (p6 x hx)⟩

/-- C28, amended, witness: the theorem on the array of one complete request followed by the request with
a duration of 600 days. -/
theorem handleMultipleImportDeals_failure_keeps_jobs_witness :
    (multipleImportLoop "key" [importRequestComplete] exampleNode []).1 = none ∧
    (multipleImportOne "key" importRequestTooLong
      (multipleImportLoop "key" [importRequestComplete] exampleNode []).2.2).2 =
        some "duration_in_days can only be 540 days or less" ∧
    (handleMultipleImportDeals exampleNode "key"
      ([importRequestComplete] ++ importRequestTooLong :: [])).err =
      some ("Error in making a deal proposal " ++
        "duration_in_days can only be 540 days or less") ∧
    (handleMultipleImportDeals exampleNode "key"
      ([importRequestComplete] ++ importRequestTooLong :: [])).node.DB = exampleNode.DB :=
  ⟨by decide, by decide,
    (handleMultipleImportDeals_failure_keeps_jobs exampleNode "key" [importRequestComplete]
      importRequestTooLong []
      (multipleImportLoop "key" [importRequestComplete] exampleNode []).2.1
      (multipleImportLoop "key" [importRequestComplete] exampleNode []).2.2
      "duration_in_days can only be 540 days or less"
      (Prod.ext (by decide) rfl) (by decide)).1,
    (handleMultipleImportDeals_failure_keeps_jobs exampleNode "key" [importRequestComplete]
      importRequestTooLong []
      (multipleImportLoop "key" [importRequestComplete] exampleNode []).2.1
      (multipleImportLoop "key" [importRequestComplete] exampleNode []).2.2
      "duration_in_days can only be 540 days or less"
      (Prod.ext (by decide) rfl) (by decide)).2.1⟩

/-! ## The Piece Commitment job: what a run does -/

/-- Setting the status twice: the second value stays. -/
theorem UpdatesContent_status_twice (tx : DB) (id : Int) (s1 s2 : String) (pcid : Int)
    (h1 : s1 ≠ "") (h2 : s2 ≠ "") :
    ((tx.UpdatesContent id { Status := s1 }).UpdatesContent id
      { Status := s2, PieceCommitmentId := pcid }).contents =
    tx.contents.map (fun row =>
      if row.ID = id then
        { row with
          Status := s2
          PieceCommitmentId := if pcid ≠ 0 then pcid else row.PieceCommitmentId }
      else row) := by
  simp only [DB.UpdatesContent, List.map_map]
  apply List.map_congr_left
  intro row _
  simp only [Function.comp]
  by_cases h : row.ID = id
  · simp [h, h1, h2]
  · simp [h]

/-- A run whose CID decodes and whose primitive succeeds, written out. -/
theorem Run_of_ok (prims : CommpPrimitives) (call : Nat) (content : Content)
    (node : DeltaNode) (payloadCid commitment : String) (u a : Nat)
    (hdec : prims.CidDecode content.Cid = some payloadCid)
    (hgen : prims.GeneratePieceCommitment call payloadCid = .ok (commitment, u, a)) :
    ∃ pc : PieceCommitment,
      (PieceCommpProcessor.Run prims call content node).panicked = false ∧
      (PieceCommpProcessor.Run prims call content node).err = none ∧
      pc = { ID := nextID (node.DB.piece_commitments.map PieceCommitment.ID)
             Cid := payloadCid, Piece := commitment, Size := wrap64 u
             PaddedPieceSize := wrap64 a, Status := "open" } ∧
      (PieceCommpProcessor.Run prims call content node).node.DB.piece_commitments =
        node.DB.piece_commitments ++ [pc] ∧
      (PieceCommpProcessor.Run prims call content node).node.DB.contents =
        node.DB.contents.map (fun row =>
          if row.ID = content.ID then
            { row with Status := "piece-assigned", PieceCommitmentId := pc.ID }
          else row) ∧
      (PieceCommpProcessor.Run prims call content node).node.DB.content_miners =
        node.DB.content_miners ∧
      (PieceCommpProcessor.Run prims call content node).node.DB.content_wallets =
        node.DB.content_wallets ∧
      (PieceCommpProcessor.Run prims call content node).node.DB.content_deal_proposal_parameters =
        node.DB.content_deal_proposal_parameters ∧
      (PieceCommpProcessor.Run prims call content node).node.DB.wallets = node.DB.wallets ∧
      (PieceCommpProcessor.Run prims call content node).node.Dispatcher.jobs =
        node.Dispatcher.jobs ++ [.StorageDealMakerProcessor content pc] ∧
      (PieceCommpProcessor.Run prims call content node).node.Dispatcher.starts =
        node.Dispatcher.starts := by
  have h := UpdatesContent_status_twice node.DB content.ID "piece-computing"
    "piece-assigned" (nextID (node.DB.piece_commitments.map PieceCommitment.ID))
    (by decide) (by decide)
  simp only [ne_eq, nextID_ne_zero, not_false_eq_true, if_true] at h
  simp only [DB.UpdatesContent] at h
  refine ⟨_, ?_, ?_, rfl, ?_, ?_, ?_, ?_, ?_, ?_, ?_, ?_⟩ <;>
    simp only [PieceCommpProcessor.Run, hdec, hgen, RunResult.node, RunResult.err,
      RunResult.panicked, DB.UpdatesContent, DB.CreatePieceCommitment, Dispatcher.AddJob]
  exact h

/-- A run whose CID decodes and whose primitive fails, written out. -/
theorem Run_of_err (prims : CommpPrimitives) (call : Nat) (content : Content)
    (node : DeltaNode) (payloadCid e : String)
    (hdec : prims.CidDecode content.Cid = some payloadCid)
    (hgen : prims.GeneratePieceCommitment call payloadCid = .error e) :
    PieceCommpProcessor.Run prims call content node =
      .returned (some e)
        { node with
          DB := node.DB.UpdatesContent content.ID { Status := "piece-computing" }
          Dispatcher := node.Dispatcher.AddJob (.PieceCommpProcessor content) } := by
  simp only [PieceCommpProcessor.Run, hdec, hgen]

/-- Setting the status to the value it has changes nothing more. -/
theorem UpdatesContent_status_idem (tx : DB) (id : Int) (s : String) (h : s ≠ "") :
    (tx.UpdatesContent id { Status := s }).UpdatesContent id { Status := s } =
      tx.UpdatesContent id { Status := s } := by
  simp only [DB.UpdatesContent, List.map_map]
  congr 1
  apply List.map_congr_left
  intro row _
  simp only [Function.comp]
  by_cases h2 : row.ID = id
  · simp [h2, h]
  · simp [h2]

/-- What `Updates` with a status alone does to the table. -/
theorem UpdatesContent_status (tx : DB) (id : Int) (s : String) (h : s ≠ "") :
    (tx.UpdatesContent id { Status := s }).contents =
      tx.contents.map (fun row => if row.ID = id then { row with Status := s } else row) := by
  simp only [DB.UpdatesContent]
  apply List.map_congr_left
  intro row _
  by_cases h2 : row.ID = id
  · simp [h2, h]
  · simp [h2]

/-- The runs of a job whose primitive fails every time: each run puts the job back. -/
theorem runRetries_of_failing (prims : CommpPrimitives) (content : Content)
    (payloadCid : String) (hdec : prims.CidDecode content.Cid = some payloadCid) :
    ∀ (n call : Nat) (node : DeltaNode),
    (∀ k, k < n → ∃ e, prims.GeneratePieceCommitment (call + k) payloadCid = .error e) →
    (runRetries prims content n call node).Dispatcher.jobs =
      node.Dispatcher.jobs ++ List.replicate n (.PieceCommpProcessor content) ∧
    (runRetries prims content n call node).Dispatcher.starts = node.Dispatcher.starts ∧
    (runRetries prims content n call node).DB =
      if n = 0 then node.DB
      else node.DB.UpdatesContent content.ID { Status := "piece-computing" } := by
  intro n
  induction n with
  | zero =>
    intro call node _
    simp [runRetries]
  | succ n ih =>
    intro call node hf
    obtain ⟨e, he⟩ := hf 0 (Nat.succ_pos n)
    have hrun := Run_of_err prims call content node payloadCid e hdec he
    have hf2 : ∀ k, k < n → ∃ e, prims.GeneratePieceCommitment (call + 1 + k) payloadCid
        = .error e := by
      intro k hk
      have := hf (k + 1) (Nat.succ_lt_succ hk)
      rw [show call + (k + 1) = call + 1 + k by omega] at this
      exact this
    obtain ⟨i1, i2, i3⟩ := ih (call + 1)
      { node with
        DB := node.DB.UpdatesContent content.ID { Status := "piece-computing" }
        Dispatcher := node.Dispatcher.AddJob (.PieceCommpProcessor content) } hf2
    simp only [runRetries, hrun]
    refine ⟨?_, ?_, ?_⟩
    · rw [i1]
      simp only [Dispatcher.AddJob, List.append_assoc, List.singleton_append,
        List.replicate_succ]
    · rw [i2]
      simp only [Dispatcher.AddJob]
    · rw [i3]
      simp only [Nat.succ_ne_zero, if_false]
      by_cases hn : n = 0
      · simp only [hn, if_true]
      · simp only [hn, if_false]
        exact UpdatesContent_status_idem node.DB content.ID "piece-computing" (by decide)

/-! ## C21: the piece commitment a successful run inserts -/

/-- C21, counterexample: a run on the pinned content with primitives that succeed: the one PieceCommitment
in the store afterwards has the status `open`, none has the status `committed`. -/
theorem Run_inserts_status_open :
    (PieceCommpProcessor.Run examplePrimitives 0 pinnedContent
        nodeWithPinnedContent).err = none ∧
    (PieceCommpProcessor.Run examplePrimitives 0 pinnedContent
        nodeWithPinnedContent).node.DB.piece_commitments =
      [{ ID := 1, Cid := "bafy-a.car", Piece := "baga-bafy-a.car", Size := 2000000,
         PaddedPieceSize := 2080768, Status := "open" }] ∧
    (PieceCommpProcessor.Run examplePrimitives 0 pinnedContent
        nodeWithPinnedContent).node.DB.piece_commitments.filter
      (fun pc => pc.Status = COMMP_STATUS_COMITTED) = [] := by
  decide

/-- C21, amended: when the CID of the job's Content decodes and the
CommP primitive succeeds, `Run` returns without error, inserts exactly one
PieceCommitment, under a fresh key, for that CID with the piece and the sizes the
primitive gave and the status `open` (not `committed`); every Content row with the id of
the job's Content gets the status `piece-assigned` and the new row's id as its
`piece_commitment_id`, the other rows stay; and exactly one job is added to the
dispatcher, a Deal Maker job for the job's Content and the new PieceCommitment. -/
theorem Run_success_inserts_open_commitment (prims : CommpPrimitives) (call : Nat)
    (content : Content) (node : DeltaNode) (payloadCid commitment : String) (u a : Nat)
    (hdec : prims.CidDecode content.Cid = some payloadCid)
    (hgen : prims.GeneratePieceCommitment call payloadCid = .ok (commitment, u, a)) :
    ∃ pc : PieceCommitment,
      (PieceCommpProcessor.Run prims call content node).panicked = false ∧
      (PieceCommpProcessor.Run prims call content node).err = none ∧
      (PieceCommpProcessor.Run prims call content node).node.DB.piece_commitments =
        node.DB.piece_commitments ++ [pc] ∧
      pc.Status = COMMP_STATUS_OPEN ∧ pc.Status ≠ COMMP_STATUS_COMITTED ∧
      pc.Cid = payloadCid ∧ pc.Piece = commitment ∧
      pc.Size = wrap64 u ∧ pc.PaddedPieceSize = wrap64 a ∧ pc.UnPaddedPieceSize = 0 ∧
      pc.ID ≠ 0 ∧ (∀ x ∈ node.DB.piece_commitments, x.ID ≠ pc.ID) ∧
      (PieceCommpProcessor.Run prims call content node).node.DB.contents =
        node.DB.contents.map (fun row =>
          if row.ID = content.ID then
            { row with Status := "piece-assigned", PieceCommitmentId := pc.ID }
          else row) ∧
      (PieceCommpProcessor.Run prims call content node).node.Dispatcher.jobs =
        node.Dispatcher.jobs ++ [.StorageDealMakerProcessor content pc] ∧
      (PieceCommpProcessor.Run prims call content node).node.Dispatcher.starts =
        node.Dispatcher.starts := by
  obtain ⟨pc, r1, r2, r3, r4, r5, -, -, -, -, r10, r11⟩ :=
    Run_of_ok prims call content node payloadCid commitment u a hdec hgen
  refine ⟨pc, r1, r2, r4, ?_, ?_, ?_, ?_, ?_, ?_, ?_, ?_, ?_, r5, r10, r11⟩
  · rw [r3]
  · rw [r3]
    exact show ¬ (("open" : String) = "committed") by decide
  · rw [r3]
  · rw [r3]
  · rw [r3]
  · rw [r3]
  · rw [r3]
  · rw [r3]
    exact nextID_ne_zero _
  · intro x hx
    rw [r3]
    exact ne_of_lt (lt_nextID_of_mem _ _ (List.mem_map_of_mem PieceCommitment.ID hx))

/-- C21, amended, witness: the theorem on the pinned content. -/
theorem Run_success_inserts_open_commitment_witness :
    examplePrimitives.CidDecode pinnedContent.Cid = some "bafy-a.car" ∧
    examplePrimitives.GeneratePieceCommitment 0 "bafy-a.car" =
      .ok ("baga-bafy-a.car", 2000000, 2080768) ∧
    ∃ pc : PieceCommitment,
      (PieceCommpProcessor.Run examplePrimitives 0 pinnedContent
        nodeWithPinnedContent).node.DB.piece_commitments =
        nodeWithPinnedContent.DB.piece_commitments ++ [pc] ∧
      pc.Status = COMMP_STATUS_OPEN :=
  ⟨rfl, rfl,
    (Run_success_inserts_open_commitment examplePrimitives 0 pinnedContent
      nodeWithPinnedContent "bafy-a.car" "baga-bafy-a.car" 2000000 2080768 rfl rfl).imp
      (fun _ h => ⟨h.2.2.1, h.2.2.2.1⟩)⟩

/-! ## C22: a primitive that keeps failing -/

/-- C22, counterexample: four consecutive failures on the pinned content: the fourth failed run has put the
job back like the three before it, and the status of the Content is `piece-computing`,
not `piece-commitment-failed`. -/
theorem runRetries_fourth_failure_requeues :
    (runRetries failingPrimitives pinnedContent 4 0 nodeWithPinnedContent).Dispatcher.jobs =
      [.PieceCommpProcessor pinnedContent, .PieceCommpProcessor pinnedContent,
       .PieceCommpProcessor pinnedContent, .PieceCommpProcessor pinnedContent] ∧
    (runRetries failingPrimitives pinnedContent 4 0 nodeWithPinnedContent).DB.contents =
      [{ pinnedContent with Status := "piece-computing" }] := by
  decide

/-- C22, amended: `Run` keeps no count of its failures. Whenever the
CID decodes and the CommP primitive fails on `n` consecutive runs, for any `n`, every
one of the `n` runs has put the job back: `n` Piece Commitment jobs for the same
Content have been added to the dispatcher; and after the first failure the status of
the Content row is `piece-computing` (the other rows and columns are as before). -/
theorem runRetries_requeues_on_every_failure (prims : CommpPrimitives) (content : Content)
    (payloadCid : String) (n call : Nat) (node : DeltaNode)
    (hdec : prims.CidDecode content.Cid = some payloadCid)
    (hfail : ∀ k, k < n →
      ∃ e, prims.GeneratePieceCommitment (call + k) payloadCid = .error e) :
    (runRetries prims content n call node).Dispatcher.jobs =
      node.Dispatcher.jobs ++ List.replicate n (.PieceCommpProcessor content) ∧
    (runRetries prims content n call node).Dispatcher.starts = node.Dispatcher.starts ∧
    (0 < n →
      (runRetries prims content n call node).DB.contents =
        node.DB.contents.map (fun row =>
          if row.ID = content.ID then { row with Status := "piece-computing" } else row) ∧
      (runRetries prims content n call node).DB.piece_commitments =
        node.DB.piece_commitments) := by
  obtain ⟨h1, h2, h3⟩ := runRetries_of_failing prims content payloadCid hdec n call node hfail
  refine ⟨h1, h2, ?_⟩
  intro hn
  rw [h3, if_neg (Nat.pos_iff_ne_zero.mp hn)]
  exact ⟨UpdatesContent_status _ _ _ (by decide), rfl⟩

/-- C22, amended, witness: the theorem on ten failures in a row. -/
theorem runRetries_requeues_on_every_failure_witness :
    (∀ k, k < 10 →
      ∃ e, failingPrimitives.GeneratePieceCommitment (0 + k) "bafy-a.car" = .error e) ∧
    (runRetries failingPrimitives pinnedContent 10 0 nodeWithPinnedContent).Dispatcher.jobs =
      nodeWithPinnedContent.Dispatcher.jobs ++
        List.replicate 10 (.PieceCommpProcessor pinnedContent) :=
  ⟨fun _ _ => ⟨"commp failed", rfl⟩,
    (runRetries_requeues_on_every_failure failingPrimitives pinnedContent "bafy-a.car" 10 0
      nodeWithPinnedContent rfl (fun _ _ => ⟨"commp failed", rfl⟩)).1⟩

/-! ## C23: a run on a content that is past `pinned` -/

/-- C23, counterexample: a run on the sealed content: it is not a no-op; the Content row passes from `sealed`
to `piece-assigned`, a second PieceCommitment is inserted and the row refers to it. -/
theorem Run_overwrites_sealed_content :
    (PieceCommpProcessor.Run examplePrimitives 0 sealedContent
        nodeWithSealedContent).node.DB.contents =
      [{ sealedContent with Status := "piece-assigned", PieceCommitmentId := 2 }] ∧
    (PieceCommpProcessor.Run examplePrimitives 0 sealedContent
        nodeWithSealedContent).node.DB.piece_commitments.map PieceCommitment.ID = [1, 2] ∧
    (PieceCommpProcessor.Run examplePrimitives 0 sealedContent
        nodeWithSealedContent).node.DB ≠ nodeWithSealedContent.DB := by
  decide

/-- C23, amended: `Run` does not read the stored status. For a stored
Content row with the id of the job's Content, whatever its status (`piece-assigned`,
`deal-proposal-sent`, `sealed` included), a run whose CID decodes and whose primitive
succeeds replaces the row by the row with the status `piece-assigned` and the
`piece_commitment_id` of a PieceCommitment it inserts under a fresh key; the
PieceCommitment rows there were, the Content rows with another id and the rows of
`content_miners`, `content_wallets`, `content_deal_proposal_parameters` and `wallets`
are unchanged. -/
theorem Run_does_not_read_stored_status (prims : CommpPrimitives) (call : Nat)
    (content row : Content) (node : DeltaNode) (payloadCid commitment : String) (u a : Nat)
    (hdec : prims.CidDecode content.Cid = some payloadCid)
    (hgen : prims.GeneratePieceCommitment call payloadCid = .ok (commitment, u, a))
    (hrow : row ∈ node.DB.contents) (hid : row.ID = content.ID) :
    ∃ pc : PieceCommitment,
      (PieceCommpProcessor.Run prims call content node).node.DB.piece_commitments =
        node.DB.piece_commitments ++ [pc] ∧
      (∀ x ∈ node.DB.piece_commitments, x.ID < pc.ID) ∧
      { row with Status := "piece-assigned", PieceCommitmentId := pc.ID } ∈
        (PieceCommpProcessor.Run prims call content node).node.DB.contents ∧
      (row.PieceCommitmentId ∈ node.DB.piece_commitments.map PieceCommitment.ID →
        row ∉ (PieceCommpProcessor.Run prims call content node).node.DB.contents) ∧
      (∀ other ∈ node.DB.contents, other.ID ≠ content.ID →
        other ∈ (PieceCommpProcessor.Run prims call content node).node.DB.contents) ∧
      (PieceCommpProcessor.Run prims call content node).node.DB.content_miners =
        node.DB.content_miners ∧
      (PieceCommpProcessor.Run prims call content node).node.DB.content_wallets =
        node.DB.content_wallets ∧
      (PieceCommpProcessor.Run prims call content node).node.DB.content_deal_proposal_parameters =
        node.DB.content_deal_proposal_parameters ∧
      (PieceCommpProcessor.Run prims call content node).node.DB.wallets = node.DB.wallets := by
  obtain ⟨pc, -, -, r3, r4, r5, r6, r7, r8, r9, -, -⟩ :=
    Run_of_ok prims call content node payloadCid commitment u a hdec hgen
  have hfresh : ∀ x ∈ node.DB.piece_commitments, x.ID < pc.ID := by
    intro x hx
    rw [r3]
    exact lt_nextID_of_mem _ _ (List.mem_map_of_mem PieceCommitment.ID hx)
  refine ⟨pc, r4, hfresh, ?_, ?_, ?_, r6, r7, r8, r9⟩
  · rw [r5]
    refine List.mem_map.mpr ⟨row, hrow, ?_⟩
    rw [if_pos hid]
  · intro hlink hmem
    rw [r5] at hmem
    obtain ⟨x, -, hx⟩ := List.mem_map.mp hmem
    obtain ⟨y, hy, hyid⟩ := List.mem_map.mp hlink
    have hlt := hfresh y hy
    by_cases hxid : x.ID = content.ID
    · rw [if_pos hxid] at hx
      have := congrArg Content.PieceCommitmentId hx
      simp only at this
      omega
    · rw [if_neg hxid] at hx
      rw [hx] at hxid
      exact hxid hid
  · intro other ho hne
    rw [r5]
    refine List.mem_map.mpr ⟨other, ho, ?_⟩
    rw [if_neg hne]

/-- C23, amended, witness: the theorem on the sealed content. -/
theorem Run_does_not_read_stored_status_witness :
    sealedContent ∈ nodeWithSealedContent.DB.contents ∧ sealedContent.Status = "sealed" ∧
    ∃ pc : PieceCommitment,
      { sealedContent with Status := "piece-assigned", PieceCommitmentId := pc.ID } ∈
        (PieceCommpProcessor.Run examplePrimitives 0 sealedContent
          nodeWithSealedContent).node.DB.contents :=
  ⟨by decide, rfl,
    (Run_does_not_read_stored_status examplePrimitives 0 sealedContent sealedContent
      nodeWithSealedContent "bafy-a.car" "baga-bafy-a.car" 2000000 2080768 rfl rfl
      (by decide) rfl).imp (fun _ h => h.2.2.1)⟩

/-! ## C24: when a deal view submits a Deal Status Check job -/

/-- C24, counterexample: the deal views of the content in the status `pinned`, which is not terminal: none
of the three reads creates a dispatcher or submits a job. -/
theorem deal_view_of_pinned_content_submits_no_job :
    (handleOpenGetDealByCid nodeWithPinnedContentAndDeal "bafy-a.car").body.content.Status =
      CONTENT_PINNED ∧
    (handleOpenGetDealByCid nodeWithPinnedContentAndDeal "bafy-a.car").dispatchers = [] ∧
    (handleOpenGetDealByUuid nodeWithPinnedContentAndDeal "uuid-1").body.content.Status =
      CONTENT_PINNED ∧
    (handleOpenGetDealByUuid nodeWithPinnedContentAndDeal "uuid-1").dispatchers = [] ∧
    (handleOpenGetDealByDealId nodeWithPinnedContentAndDeal 77).body.content.Status =
      CONTENT_PINNED ∧
    (handleOpenGetDealByDealId nodeWithPinnedContentAndDeal 77).dispatchers = [] := by
  decide

/-- C24, amended: each of the three deal views (by-cid, by-uuid,
by-deal-id) submits a Deal Status Check job for the Content it read exactly when the
status of that Content is `transfer-started`, `deal-proposal-sent` or
`transfer-finished`: then it creates one dispatcher, gives it the one job and starts it
with one worker; for every other status, terminal or not, it creates no dispatcher and
submits no job. The Content read is the first row with the cid, or with the id the
deal found names, with its `requesting_api_key` blanked. -/
theorem deal_view_status_check_iff_three_statuses (node : DeltaNode) (cid uuid : String)
    (dealId : Int) :
    ((handleOpenGetDealByCid node cid).body.content =
        { scanContent (node.DB.contents.filter (fun c => c.Cid = cid)) with
          RequestingApiKey := "" } ∧
      (handleOpenGetDealByCid node cid).dispatchers =
        if (handleOpenGetDealByCid node cid).body.content.Status = "transfer-started" ∨
            (handleOpenGetDealByCid node cid).body.content.Status = "deal-proposal-sent" ∨
            (handleOpenGetDealByCid node cid).body.content.Status = "transfer-finished" then
          [{ jobs := [.DealStatusCheck (handleOpenGetDealByCid node cid).body.content]
             starts := [1] }]
        else []) ∧
    ((handleOpenGetDealByUuid node uuid).body.deal =
        scanContentDeal (node.DB.content_deals.filter (fun d => d.DealUUID = uuid)) ∧
      (handleOpenGetDealByUuid node uuid).body.content =
        { scanContent (node.DB.contents.filter
            (fun c => c.ID = (handleOpenGetDealByUuid node uuid).body.deal.Content)) with
          RequestingApiKey := "" } ∧
      (handleOpenGetDealByUuid node uuid).dispatchers =
        if (handleOpenGetDealByUuid node uuid).body.content.Status = "transfer-started" ∨
            (handleOpenGetDealByUuid node uuid).body.content.Status = "deal-proposal-sent" ∨
            (handleOpenGetDealByUuid node uuid).body.content.Status = "transfer-finished" then
          [{ jobs := [.DealStatusCheck (handleOpenGetDealByUuid node uuid).body.content]
             starts := [1] }]
        else []) ∧
    ((handleOpenGetDealByDealId node dealId).body.deal =
        scanContentDeal (node.DB.content_deals.filter (fun d => d.DealID = dealId)) ∧
      (handleOpenGetDealByDealId node dealId).body.content =
        { scanContent (node.DB.contents.filter
            (fun c => c.ID = (handleOpenGetDealByDealId node dealId).body.deal.Content)) with
          RequestingApiKey := "" } ∧
      (handleOpenGetDealByDealId node dealId).dispatchers =
        if (handleOpenGetDealByDealId node dealId).body.content.Status = "transfer-started" ∨
            (handleOpenGetDealByDealId node dealId).body.content.Status =
              "deal-proposal-sent" ∨
            (handleOpenGetDealByDealId node dealId).body.content.Status =
              "transfer-finished" then
          [{ jobs := [.DealStatusCheck (handleOpenGetDealByDealId node dealId).body.content]
             starts := [1] }]
        else []) := by
  refine ⟨⟨rfl, ?_⟩, ⟨rfl, rfl, ?_⟩, ⟨rfl, rfl, ?_⟩⟩
  · simp only [handleOpenGetDealByCid, dealStatusCheckAsync, Dispatcher.AddJob,
      Dispatcher.Start, List.nil_append]
  · simp only [handleOpenGetDealByUuid, dealViewOfDeal, dealStatusCheckAsync,
      Dispatcher.AddJob, Dispatcher.Start, List.nil_append]
  · simp only [handleOpenGetDealByDealId, dealViewOfDeal, dealStatusCheckAsync,
      Dispatcher.AddJob, Dispatcher.Start, List.nil_append]

/-! ## C25: a stats read of a content that does not exist -/

/-- A combination of rows in which the second table gives nothing gives nothing. -/
theorem flatMap_const_nil {α β : Type} (l : List α) :
    l.flatMap (fun _ => ([] : List β)) = [] := by
  induction l with
  | nil => rfl
  | cons a l ih => simp [List.flatMap_cons, ih]

/-- C25, counterexample: the four reads on the store that holds nothing: each answers with the status 200. -/
theorem stats_read_of_unknown_content_answers_200 :
    (handleOpenGetDealByCid exampleNode "bafy-unknown").code = 200 ∧
    (handleOpenGetDealByUuid exampleNode "uuid-unknown").code = 200 ∧
    (handleOpenGetDealByDealId exampleNode 5).code = 200 ∧
    (handleOpenGetStatsByContent exampleNode 5).code = 200 ∧
    (handleOpenGetDealByCid exampleNode "bafy-unknown").body.content = {} := by
  decide

/-- C25, amended: the stats handlers do not test whether the content
exists. A read by a cid that no Content has, by a deal UUID or deal id that no
ContentDeal has, or by a content id that no Content has, answers with the status 200;
the `content` (by-cid, by content id) or the `deal` (by-uuid, by-deal-id) of the body
is the zero value, the lists of the read by content id are empty, and the reads by cid
and by content id submit no job. -/
theorem stats_read_of_missing_content_answers_200 (node : DeltaNode) (cid uuid : String)
    (dealId contentId : Int)
    (hcid : ∀ c ∈ node.DB.contents, c.Cid ≠ cid)
    (huuid : ∀ d ∈ node.DB.content_deals, d.DealUUID ≠ uuid)
    (hdeal : ∀ d ∈ node.DB.content_deals, d.DealID ≠ dealId)
    (hid : ∀ c ∈ node.DB.contents, c.ID ≠ contentId) :
    ((handleOpenGetDealByCid node cid).code = 200 ∧
      (handleOpenGetDealByCid node cid).body.content = {} ∧
      (handleOpenGetDealByCid node cid).dispatchers = []) ∧
    ((handleOpenGetDealByUuid node uuid).code = 200 ∧
      (handleOpenGetDealByUuid node uuid).body.deal = {}) ∧
    ((handleOpenGetDealByDealId node dealId).code = 200 ∧
      (handleOpenGetDealByDealId node dealId).body.deal = {}) ∧
    ((handleOpenGetStatsByContent node contentId).code = 200 ∧
      (handleOpenGetStatsByContent node contentId).body =
        { content := {}, deals := [], piece_commitments := [], deal_proposals := []
          deal_proposal_parameters := [] } ∧
      (handleOpenGetStatsByContent node contentId).dispatchers = []) := by
  have h1 : node.DB.contents.filter (fun c => c.Cid = cid) = [] := by
    rw [List.filter_eq_nil_iff]
    intro c hc
    simpa using hcid c hc
  have h2 : node.DB.content_deals.filter (fun d => d.DealUUID = uuid) = [] := by
    rw [List.filter_eq_nil_iff]
    intro d hd
    simpa using huuid d hd
  have h3 : node.DB.content_deals.filter (fun d => d.DealID = dealId) = [] := by
    rw [List.filter_eq_nil_iff]
    intro d hd
    simpa using hdeal d hd
  have h4 : node.DB.contents.filter (fun c => c.ID = contentId) = [] := by
    rw [List.filter_eq_nil_iff]
    intro c hc
    simpa using hid c hc
  have h5 : ∀ (p : Content → Prop) [DecidablePred p],
      node.DB.contents.filter (fun c => p c ∧ c.ID = contentId) = [] := by
    intro p _
    rw [List.filter_eq_nil_iff]
    intro c hc
    simpa using fun _ => hid c hc
  refine ⟨⟨rfl, ?_, ?_⟩, ⟨rfl, ?_⟩, ⟨rfl, ?_⟩, ⟨rfl, ?_, ?_⟩⟩
  · simp only [handleOpenGetDealByCid, h1, scanContent, List.head?_nil, Option.getD_none]
  · simp only [handleOpenGetDealByCid, h1, scanContent, List.head?_nil, Option.getD_none,
      dealStatusCheckAsync]
    decide
  · simp only [handleOpenGetDealByUuid, dealViewOfDeal, h2, scanContentDeal,
      List.head?_nil, Option.getD_none]
  · simp only [handleOpenGetDealByDealId, dealViewOfDeal, h3, scanContentDeal,
      List.head?_nil, Option.getD_none]
  · simp only [handleOpenGetStatsByContent, contentStats, h4, h5, scanContent,
      List.head?_nil, Option.getD_none, List.map_nil]
    simp only [flatMap_const_nil]
  · simp only [handleOpenGetStatsByContent, contentStats, h4, scanContent, List.head?_nil,
      Option.getD_none, dealStatusCheckAsync]
    decide

/-- C25, amended, witness: the theorem on the store with the pinned content and its deal. -/
theorem stats_read_of_missing_content_answers_200_witness :
    (∀ c ∈ nodeWithPinnedContentAndDeal.DB.contents, c.Cid ≠ "bafy-unknown") ∧
    (∀ d ∈ nodeWithPinnedContentAndDeal.DB.content_deals, d.DealUUID ≠ "uuid-unknown") ∧
    (∀ d ∈ nodeWithPinnedContentAndDeal.DB.content_deals, d.DealID ≠ 5) ∧
    (∀ c ∈ nodeWithPinnedContentAndDeal.DB.contents, c.ID ≠ 5) ∧
    (handleOpenGetDealByCid nodeWithPinnedContentAndDeal "bafy-unknown").code = 200 ∧
    (handleOpenGetDealByCid nodeWithPinnedContentAndDeal "bafy-unknown").body.content = {} ∧
    (handleOpenGetDealByCid nodeWithPinnedContentAndDeal "bafy-unknown").dispatchers = [] :=
  ⟨by decide, by decide, by decide, by decide,
    (stats_read_of_missing_content_answers_200 nodeWithPinnedContentAndDeal "bafy-unknown"
      "uuid-unknown" 5 5 (by decide) (by decide) (by decide) (by decide)).1⟩

/-! ## The stats handlers read the store only, and of a content row never the key -/

/-- Blanking the key twice is blanking it once. -/
theorem withoutApiKey_idem (c : Content) :
    c.withoutApiKey.withoutApiKey = c.withoutApiKey := rfl

/-- A scan of the contents that a condition selects, with the key blanked: the keys in
the table play no part, as long as the condition does not read them. -/
theorem scanContent_withoutApiKey (l : List Content) (p : Content → Bool)
    (hp : ∀ c, p c.withoutApiKey = p c) :
    (scanContent ((l.map Content.withoutApiKey).filter p)).withoutApiKey =
      (scanContent (l.filter p)).withoutApiKey := by
  induction l with
  | nil => rfl
  | cons a l ih =>
    simp only [List.map_cons, List.filter_cons, hp]
    by_cases h : p a = true
    · simp only [h, if_true, scanContent, List.head?_cons, Option.getD_some]
      rfl
    · simp only [h, if_false]
      exact ih

/-- The number of content rows that a condition selects does not depend on the keys. -/
theorem filter_withoutApiKey_const {β : Type} (l : List Content) (p : Content → Bool) (x : β)
    (hp : ∀ c, p c.withoutApiKey = p c) :
    ((l.map Content.withoutApiKey).filter p).map (fun _ => x) =
      (l.filter p).map (fun _ => x) := by
  induction l with
  | nil => rfl
  | cons a l ih =>
    simp only [List.map_cons, List.filter_cons, hp]
    by_cases h : p a = true
    · simp only [h, if_true, List.map_cons, ih]
    · simp only [h, if_false]
      exact ih

/-- The status check reads the content it is given. -/
theorem contentStats_withoutApiKeys (node : DeltaNode) (contentId : Int) :
    contentStats { node with DB := node.DB.withoutApiKeys } contentId =
      contentStats node contentId := by
  have h1 := scanContent_withoutApiKey node.DB.contents (fun c => c.ID = contentId)
    (fun _ => rfl)
  have h2 : ∀ cd : ContentDeal, _ := fun cd =>
    filter_withoutApiKey_const node.DB.contents
      (fun c => cd.Content = c.ID ∧ c.ID = contentId) cd (fun _ => rfl)
  have h3 : ∀ pc : PieceCommitment, _ := fun pc =>
    filter_withoutApiKey_const node.DB.contents
      (fun c => c.PieceCommitmentId = pc.ID ∧ c.ID = contentId) pc (fun _ => rfl)
  have h4 : ∀ cdp : ContentDealProposal, _ := fun cdp =>
    filter_withoutApiKey_const node.DB.contents
      (fun c => cdp.Content = c.ID ∧ c.ID = contentId) cdp (fun _ => rfl)
  have h5 : ∀ cdp : ContentDealProposalParameters, _ := fun cdp =>
    filter_withoutApiKey_const node.DB.contents
      (fun c => cdp.Content = c.ID ∧ c.ID = contentId) cdp (fun _ => rfl)
  simp only [Content.withoutApiKey] at h1
  simp only [contentStats, DB.withoutApiKeys, h1, h2, h3, h4, h5]

/-- The per-content queries on two stores that agree up to the keys. -/
theorem contentStats_of_withoutApiKeys_eq (node1 node2 : DeltaNode) (contentId : Int)
    (h : node1.DB.withoutApiKeys = node2.DB.withoutApiKeys) :
    contentStats node1 contentId = contentStats node2 contentId := by
  rw [← contentStats_withoutApiKeys node1, ← contentStats_withoutApiKeys node2]
  unfold contentStats
  simp only [h]

/-- The loop of the list handlers on two stores that agree up to the keys. -/
theorem contentStatsLoop_of_withoutApiKeys_eq (node1 node2 : DeltaNode)
    (contentIds : List Int) (h : node1.DB.withoutApiKeys = node2.DB.withoutApiKeys) :
    contentStatsLoop node1 contentIds = contentStatsLoop node2 contentIds := by
  unfold contentStatsLoop
  simp only [contentStats_of_withoutApiKeys_eq node1 node2 _ h]

/-- The tables other than `contents` of two stores that agree up to the keys. -/
theorem tables_of_withoutApiKeys_eq (db1 db2 : DB)
    (h : db1.withoutApiKeys = db2.withoutApiKeys) :
    db1.contents.map Content.withoutApiKey = db2.contents.map Content.withoutApiKey ∧
    db1.piece_commitments = db2.piece_commitments ∧
    db1.content_miners = db2.content_miners ∧
    db1.content_deal_proposal_parameters = db2.content_deal_proposal_parameters ∧
    db1.batch_import_contents = db2.batch_import_contents ∧
    db1.content_deals = db2.content_deals ∧
    db1.content_deal_proposals = db2.content_deal_proposals :=
  ⟨congrArg (fun d => d.contents) h, congrArg (fun d => d.piece_commitments) h,
    congrArg (fun d => d.content_miners) h,
    congrArg (fun d => d.content_deal_proposal_parameters) h,
    congrArg (fun d => d.batch_import_contents) h,
    congrArg (fun d => d.content_deals) h, congrArg (fun d => d.content_deal_proposals) h⟩

/-- The scan of the contents that a condition selects, on two tables that agree up to
the keys: the rows scanned agree in every column but the key. -/
theorem scanContent_of_map_eq (l1 l2 : List Content) (p : Content → Bool)
    (hp : ∀ c, p c.withoutApiKey = p c)
    (h : l1.map Content.withoutApiKey = l2.map Content.withoutApiKey) :
    (scanContent (l1.filter p)).ID = (scanContent (l2.filter p)).ID ∧
    (scanContent (l1.filter p)).Name = (scanContent (l2.filter p)).Name ∧
    (scanContent (l1.filter p)).Size = (scanContent (l2.filter p)).Size ∧
    (scanContent (l1.filter p)).Cid = (scanContent (l2.filter p)).Cid ∧
    (scanContent (l1.filter p)).PieceCommitmentId =
      (scanContent (l2.filter p)).PieceCommitmentId ∧
    (scanContent (l1.filter p)).AutoRetry = (scanContent (l2.filter p)).AutoRetry ∧
    (scanContent (l1.filter p)).Status = (scanContent (l2.filter p)).Status ∧
    (scanContent (l1.filter p)).ConnectionMode =
      (scanContent (l2.filter p)).ConnectionMode := by
  have h1 := scanContent_withoutApiKey l1 p hp
  have h2 := scanContent_withoutApiKey l2 p hp
  rw [h] at h1
  have h3 := h1.symm.trans h2
  exact ⟨congrArg (fun c => c.ID) h3, congrArg (fun c => c.Name) h3,
    congrArg (fun c => c.Size) h3, congrArg (fun c => c.Cid) h3,
    congrArg (fun c => c.PieceCommitmentId) h3, congrArg (fun c => c.AutoRetry) h3,
    congrArg (fun c => c.Status) h3, congrArg (fun c => c.ConnectionMode) h3⟩

/-- The deal view by cid on two stores that agree up to the keys. -/
theorem handleOpenGetDealByCid_of_withoutApiKeys_eq (node1 node2 : DeltaNode) (cid : String)
    (h : node1.DB.withoutApiKeys = node2.DB.withoutApiKeys) :
    handleOpenGetDealByCid node1 cid = handleOpenGetDealByCid node2 cid := by
  obtain ⟨t1, t2, -, -, -, t6, t7⟩ := tables_of_withoutApiKeys_eq _ _ h
  obtain ⟨c1, c2, c3, c4, c5, c6, c7, c8⟩ := scanContent_of_map_eq node1.DB.contents
    node2.DB.contents (fun c => c.Cid = cid) (fun _ => rfl) t1
  unfold handleOpenGetDealByCid
  simp only [c1, c2, c3, c4, c5, c6, c7, c8, t2, t6, t7]

/-- The deal views by deal on two stores that agree up to the keys. -/
theorem dealViewOfDeal_of_withoutApiKeys_eq (node1 node2 : DeltaNode) (deal : ContentDeal)
    (h : node1.DB.withoutApiKeys = node2.DB.withoutApiKeys) :
    dealViewOfDeal node1 deal = dealViewOfDeal node2 deal := by
  obtain ⟨t1, t2, -, -, -, t6, t7⟩ := tables_of_withoutApiKeys_eq _ _ h
  obtain ⟨c1, c2, c3, c4, c5, c6, c7, c8⟩ := scanContent_of_map_eq node1.DB.contents
    node2.DB.contents (fun c => c.ID = deal.Content) (fun _ => rfl) t1
  unfold dealViewOfDeal
  simp only [c1, c2, c3, c4, c5, c6, c7, c8, t2, t6, t7]

/-- The contents of a miner, with the keys blanked, on a table and on the table with
the keys blanked. -/
theorem contents_of_miner_withoutApiKey (l : List Content) (t : List ContentMiner)
    (minerId : String) :
    ((l.map Content.withoutApiKey).flatMap (fun c =>
        (t.filter (fun cma => c.ID = cma.Content ∧ cma.Miner = minerId)).map
          (fun _ => c))).map Content.withoutApiKey =
      (l.flatMap (fun c =>
        (t.filter (fun cma => c.ID = cma.Content ∧ cma.Miner = minerId)).map
          (fun _ => c))).map Content.withoutApiKey := by
  induction l with
  | nil => rfl
  | cons a l ih =>
    simp only [List.map_cons, List.flatMap_cons, List.map_append, ih, List.map_map]
    rfl

/-- The miner view on two stores that agree up to the keys. -/
theorem handleOpenStatsByMiner_of_withoutApiKeys_eq (node1 node2 : DeltaNode)
    (extras : StoreExtras) (minerId : String)
    (h : node1.DB.withoutApiKeys = node2.DB.withoutApiKeys) :
    handleOpenStatsByMiner node1 extras minerId =
      handleOpenStatsByMiner node2 extras minerId := by
  obtain ⟨t1, t2, t3, t4, -, t6, t7⟩ := tables_of_withoutApiKeys_eq _ _ h
  have hc : ∀ t : List ContentMiner,
      (node1.DB.contents.flatMap (fun c =>
        (t.filter (fun cma => c.ID = cma.Content ∧ cma.Miner = minerId)).map
          (fun _ => c))).map (fun c => ({ c with RequestingApiKey := "" } : Content)) =
      (node2.DB.contents.flatMap (fun c =>
        (t.filter (fun cma => c.ID = cma.Content ∧ cma.Miner = minerId)).map
          (fun _ => c))).map (fun c => ({ c with RequestingApiKey := "" } : Content)) := by
    intro t
    have h1 := contents_of_miner_withoutApiKey node1.DB.contents t minerId
    have h2 := contents_of_miner_withoutApiKey node2.DB.contents t minerId
    rw [t1] at h1
    exact h1.symm.trans h2
  unfold handleOpenStatsByMiner
  rw [t2, t3, t4, t6, t7]
  cases hx : extras.content_miner with
  | none => rfl
  | some t =>
    simp only
    rw [hc t]

/-! ## C30: the stats responses do not show the requesting api key -/

/-- C30: for two stores that differ at most in the `requesting_api_key` of their
Content rows, each of the eight stats handlers with Content objects in its response
(by-cid, by-uuid, by-deal-id, by-miner, by content id, contents list, all-contents,
batch) gives the same answer on both: the same status code, the same body and the same
Deal Status Check jobs; and every Content object of these bodies has the empty
`requesting_api_key`. -/
theorem stats_responses_hide_requesting_api_key (node1 node2 : DeltaNode)
    (extras : StoreExtras) (cid uuid minerId : String) (dealId contentId batchId : Int)
    (contentIds : List Int)
    (h : node1.DB.withoutApiKeys = node2.DB.withoutApiKeys) :
    (handleOpenGetDealByCid node1 cid = handleOpenGetDealByCid node2 cid ∧
      handleOpenGetDealByUuid node1 uuid = handleOpenGetDealByUuid node2 uuid ∧
      handleOpenGetDealByDealId node1 dealId = handleOpenGetDealByDealId node2 dealId ∧
      handleOpenStatsByMiner node1 extras minerId =
        handleOpenStatsByMiner node2 extras minerId ∧
      handleOpenGetStatsByContent node1 contentId =
        handleOpenGetStatsByContent node2 contentId ∧
      handleOpenGetStatsByContents node1 contentIds =
        handleOpenGetStatsByContents node2 contentIds ∧
      handleOpenGetStatsByAllContents node1 = handleOpenGetStatsByAllContents node2 ∧
      handleOpenGetStatsByAllContentsFromBatch node1 batchId =
        handleOpenGetStatsByAllContentsFromBatch node2 batchId) ∧
    ((handleOpenGetDealByCid node1 cid).body.content.RequestingApiKey = "" ∧
      (handleOpenGetDealByUuid node1 uuid).body.content.RequestingApiKey = "" ∧
      (handleOpenGetDealByDealId node1 dealId).body.content.RequestingApiKey = "" ∧
      (∀ c ∈ (handleOpenStatsByMiner node1 extras minerId).body.content,
        c.RequestingApiKey = "") ∧
      (handleOpenGetStatsByContent node1 contentId).body.content.RequestingApiKey = "" ∧
      (∀ s ∈ (handleOpenGetStatsByContents node1 contentIds).body,
        s.content.RequestingApiKey = "") ∧
      (∀ s ∈ (handleOpenGetStatsByAllContents node1).body,
        s.content.RequestingApiKey = "") ∧
      (∀ s ∈ (handleOpenGetStatsByAllContentsFromBatch node1 batchId).body,
        s.content.RequestingApiKey = "")) := by
  obtain ⟨t1, -, -, -, t5, t6, -⟩ := tables_of_withoutApiKeys_eq _ _ h
  have hids : node1.DB.contents.map Content.ID = node2.DB.contents.map Content.ID := by
    have := congrArg (List.map Content.ID) t1
    simp only [List.map_map] at this
    exact this
  have hloop : ∀ ids (s : ContentStats), s ∈ (contentStatsLoop node1 ids).body →
      s.content.RequestingApiKey = "" := by
    intro ids s hs
    simp only [contentStatsLoop, List.mem_map] at hs
    obtain ⟨id, -, rfl⟩ := hs
    rfl
  refine ⟨⟨handleOpenGetDealByCid_of_withoutApiKeys_eq node1 node2 cid h, ?_, ?_,
    handleOpenStatsByMiner_of_withoutApiKeys_eq node1 node2 extras minerId h, ?_,
    contentStatsLoop_of_withoutApiKeys_eq node1 node2 contentIds h, ?_, ?_⟩,
    ⟨rfl, rfl, rfl, ?_, rfl, hloop _, hloop _, hloop _⟩⟩
  · unfold handleOpenGetDealByUuid
    rw [t6]
    exact dealViewOfDeal_of_withoutApiKeys_eq node1 node2 _ h
  · unfold handleOpenGetDealByDealId
    rw [t6]
    exact dealViewOfDeal_of_withoutApiKeys_eq node1 node2 _ h
  · unfold handleOpenGetStatsByContent
    rw [contentStats_of_withoutApiKeys_eq node1 node2 contentId h]
  · unfold handleOpenGetStatsByAllContents
    rw [hids]
    exact contentStatsLoop_of_withoutApiKeys_eq node1 node2 _ h
  · unfold handleOpenGetStatsByAllContentsFromBatch
    rw [t5]
    exact contentStatsLoop_of_withoutApiKeys_eq node1 node2 _ h
  · intro c hc
    simp only [handleOpenStatsByMiner, List.mem_map] at hc
    obtain ⟨c0, -, rfl⟩ := hc
    rfl

/-- C30, witness: the theorem on two stores that hold the same content under two keys. -/
theorem stats_responses_hide_requesting_api_key_witness :
    nodeWithTransferStarted.DB.withoutApiKeys = nodeWithOtherApiKey.DB.withoutApiKeys ∧
    nodeWithTransferStarted.DB ≠ nodeWithOtherApiKey.DB ∧
    handleOpenGetDealByCid nodeWithTransferStarted "bafy-a.car" =
      handleOpenGetDealByCid nodeWithOtherApiKey "bafy-a.car" ∧
    (handleOpenGetDealByCid nodeWithOtherApiKey "bafy-a.car").body.content.ID = 1 :=
  ⟨by decide, by decide,
    (stats_responses_hide_requesting_api_key nodeWithTransferStarted nodeWithOtherApiKey
      {} "bafy-a.car" "uuid-1" "f0123" 77 1 1 [1] (by decide)).1.1,
    by decide⟩

/-! ## The paged list of deals -/

/-- The maximum of a group is the id of one of its rows and bounds them all. -/
theorem maxID_spec (ids : List Int) (h : ids ≠ []) :
    maxID ids ∈ ids ∧ ∀ x ∈ ids, x ≤ maxID ids := by
  cases ids with
  | nil => exact absurd rfl h
  | cons a l =>
    simp only [maxID]
    constructor
    · clear h
      induction l generalizing a with
      | nil => simp
      | cons b l ih =>
        simp only [List.foldl_cons]
        rcases List.mem_cons.mp (ih (max a b)) with h1 | h1
        · rcases max_choice a b with h2 | h2
          · rw [h1, h2]
            exact List.mem_cons_self _ _
          · rw [h1, h2]
            exact List.mem_cons_of_mem _ (List.mem_cons_self _ _)
        · exact List.mem_cons_of_mem _ (List.mem_cons_of_mem _ h1)
    · intro x hx
      rcases List.mem_cons.mp hx with h1 | h1
      · rw [h1]
        exact le_foldl_max l a
      · exact le_foldl_max_of_mem l a x h1

/-- A reading of a paging parameter is at least 1 when the fallback is. -/
theorem pagingParam_pos (param : String) (fallback : Int) (h : 1 ≤ fallback) :
    1 ≤ pagingParam param fallback := by
  unfold pagingParam
  cases Atoi param with
  | none => exact h
  | some n =>
    simp only
    split
    · exact h
    · omega

/-- The rows of the join: the deals that have the highest id among the deals of their
content, each once. -/
theorem latest_deals_join (rows : List ContentDeal)
    (hN : (rows.map ContentDeal.ID).Nodup) :
    (∀ d, d ∈ (latestDealSubQuery rows).flatMap
        (fun c2 => rows.filter (fun c1 => c1.ID = c2.1)) ↔
      d ∈ rows ∧ ∀ d2 ∈ rows, d2.Content = d.Content → d2.ID ≤ d.ID) ∧
    ((latestDealSubQuery rows).flatMap
      (fun c2 => rows.filter (fun c1 => c1.ID = c2.1))).Nodup := by
  have hinj : ∀ a ∈ rows, ∀ b ∈ rows, a.ID = b.ID → a = b :=
    fun a ha b hb hab => List.inj_on_of_nodup_map hN ha hb hab
  have hgroup : ∀ c2 ∈ latestDealSubQuery rows,
      (∃ r0 ∈ rows, r0.Content = c2.2 ∧ r0.ID = c2.1) ∧
      ∀ r ∈ rows, r.Content = c2.2 → r.ID ≤ c2.1 := by
    intro c2 hc2
    simp only [latestDealSubQuery, List.mem_map, List.mem_dedup] at hc2
    obtain ⟨c, ⟨r, hr, hrc⟩, rfl⟩ := hc2
    have hne : (rows.filter (fun d => d.Content = c)).map ContentDeal.ID ≠ [] := by
      intro he
      have : r.ID ∈ (rows.filter (fun d => d.Content = c)).map ContentDeal.ID :=
        List.mem_map_of_mem _ (List.mem_filter.mpr ⟨hr, by simpa using hrc⟩)
      rw [he] at this
      cases this
    obtain ⟨m1, m2⟩ := maxID_spec _ hne
    constructor
    · obtain ⟨r0, hr0, hid⟩ := List.mem_map.mp m1
      obtain ⟨hr0a, hr0b⟩ := List.mem_filter.mp hr0
      exact ⟨r0, hr0a, by simpa using hr0b, hid⟩
    · intro r2 hr2 hc
      exact m2 _ (List.mem_map_of_mem _ (List.mem_filter.mpr ⟨hr2, by simpa using hc⟩))
  constructor
  · intro d
    simp only [List.mem_flatMap, List.mem_filter, decide_eq_true_eq]
    constructor
    · rintro ⟨c2, hc2, hd, hid⟩
      obtain ⟨⟨r0, hr0, hr0c, hr0id⟩, hmax⟩ := hgroup c2 hc2
      have hdr : d = r0 := hinj d hd r0 hr0 (by rw [hid, hr0id])
      refine ⟨hd, ?_⟩
      intro d2 hd2 hc
      rw [hid]
      exact hmax d2 hd2 (by rw [hc, hdr, hr0c])
    · rintro ⟨hd, hmax⟩
      have hmem : (maxID ((rows.filter (fun x => x.Content = d.Content)).map ContentDeal.ID),
          d.Content) ∈ latestDealSubQuery rows := by
        simp only [latestDealSubQuery, List.mem_map, List.mem_dedup]
        exact ⟨d.Content, ⟨d, hd, rfl⟩, rfl⟩
      obtain ⟨⟨r0, hr0, hr0c, hr0id⟩, hmax2⟩ := hgroup _ hmem
      refine ⟨_, hmem, hd, ?_⟩
      have h1 := hmax r0 hr0 hr0c
      have h2 := hmax2 d hd rfl
      simp only at hr0id h2 ⊢
      omega
  · rw [List.nodup_flatMap]
    constructor
    · intro c2 _
      exact (List.Nodup.of_map _ hN).filter _
    · have hsub : (latestDealSubQuery rows).Nodup := by
        apply List.Nodup.of_map Prod.snd
        simp only [latestDealSubQuery, List.map_map]
        have : (Prod.snd ∘ fun content =>
            (maxID ((rows.filter (fun d => d.Content = content)).map ContentDeal.ID),
              content)) = id := rfl
        rw [this, List.map_id]
        exact List.nodup_dedup _
      refine List.Pairwise.imp_of_mem ?_ hsub
      intro g1 g2 hg1 hg2 hne
      intro d hd1 hd2
      obtain ⟨hd, hid1⟩ := List.mem_filter.mp hd1
      obtain ⟨-, hid2⟩ := List.mem_filter.mp hd2
      simp only [decide_eq_true_eq] at hid1 hid2
      obtain ⟨⟨r1, hr1, hr1c, hr1id⟩, -⟩ := hgroup g1 hg1
      obtain ⟨⟨r2, hr2, hr2c, hr2id⟩, -⟩ := hgroup g2 hg2
      have e1 : d = r1 := hinj d hd r1 hr1 (by rw [hid1, hr1id])
      have e2 : d = r2 := hinj d hd r2 hr2 (by rw [hid2, hr2id])
      apply hne
      apply Prod.ext
      · rw [← hid1, ← hid2]
      · rw [← hr1c, ← hr2c, ← e1, ← e2]

/-! ## C26: the page of the latest deals -/

/-- C26, counterexample: the page 2 ^ 62 + 1 with the page size 4 on a table of one deal: the product
`(page - 1) * pageSize` is 2 ^ 64, which is 0 as a Go `int`, so the handler returns
the deal, while the slice of the claim, which starts at 2 ^ 64, is empty. -/
theorem paging_offset_wraps_to_first_rows :
    Atoi hugePage = some 4611686018427387905 ∧
    (handleOpenGetDealsWithPaging nodeWithPinnedContentAndDeal hugePage "4").body.page =
      4611686018427387905 ∧
    (handleOpenGetDealsWithPaging nodeWithPinnedContentAndDeal hugePage "4").body.deals =
      [exampleDeal] ∧
    ([exampleDeal].drop ((4611686018427387905 - 1) * 4)).take 4 = [] := by
  decide

/-- C26, amended: for a `content_deals` table whose ids are pairwise
distinct and query parameters whose offset `(page - 1) * page_size` is below 2 ^ 63,
`handleOpenGetDealsWithPaging` answers 200 with the slice that starts at
`(page - 1) * page_size` and has at most `page_size` elements of the list `latest`,
which holds exactly the deals with the highest id among the deals of their content, in
strictly descending order of id; so the answer has at most `page_size` deals and no
two of the same content. `page` is the value `strconv.Atoi` gives for the parameter
when it gives one that is at least 1, else 1; `page_size` likewise, else 10; a
missing parameter is the empty text, for which `Atoi` gives an error. -/
theorem paging_returns_slice_of_latest_deals (node : DeltaNode)
    (pageParam pageSizeParam : String)
    (hN : (node.DB.content_deals.map ContentDeal.ID).Nodup)
    (hoff : (pagingParam pageParam 1 - 1) * pagingParam pageSizeParam 10 < 2 ^ 63) :
    ∃ latest : List ContentDeal,
      (∀ d, d ∈ latest ↔
        d ∈ node.DB.content_deals ∧
          ∀ d2 ∈ node.DB.content_deals, d2.Content = d.Content → d2.ID ≤ d.ID) ∧
      latest.Pairwise (fun a b => b.ID < a.ID) ∧
      (handleOpenGetDealsWithPaging node pageParam pageSizeParam).code = 200 ∧
      (handleOpenGetDealsWithPaging node pageParam pageSizeParam).body.page =
        pagingParam pageParam 1 ∧
      (handleOpenGetDealsWithPaging node pageParam pageSizeParam).body.total =
        node.DB.content_deals.length ∧
      (handleOpenGetDealsWithPaging node pageParam pageSizeParam).body.deals =
        (latest.drop ((pagingParam pageParam 1 - 1) *
          pagingParam pageSizeParam 10).toNat).take (pagingParam pageSizeParam 10).toNat ∧
      ((handleOpenGetDealsWithPaging node pageParam pageSizeParam).body.deals.length : Int) ≤
        pagingParam pageSizeParam 10 ∧
      (handleOpenGetDealsWithPaging node pageParam pageSizeParam).body.deals.Pairwise
        (fun a b => a.Content ≠ b.Content) ∧
      (Atoi pageParam = none → pagingParam pageParam 1 = 1) ∧
      (∀ n, Atoi pageParam = some n → pagingParam pageParam 1 = if n < 1 then 1 else n) ∧
      (Atoi pageSizeParam = none → pagingParam pageSizeParam 10 = 10) ∧
      (∀ n, Atoi pageSizeParam = some n →
        pagingParam pageSizeParam 10 = if n < 1 then 10 else n) ∧
      Atoi "" = none := by
  obtain ⟨hmem, hnodup⟩ := latest_deals_join node.DB.content_deals hN
  have hinj : ∀ a ∈ node.DB.content_deals, ∀ b ∈ node.DB.content_deals,
      a.ID = b.ID → a = b :=
    fun a ha b hb hab => List.inj_on_of_nodup_map hN ha hb hab
  have hp1 := pagingParam_pos pageParam 1 (le_refl 1)
  have hp2 := pagingParam_pos pageSizeParam 10 (by decide)
  have hnn : 0 ≤ (pagingParam pageParam 1 - 1) * pagingParam pageSizeParam 10 :=
    mul_nonneg (by omega) (by omega)
  have hwrap : wrap64 ((pagingParam pageParam 1 - 1) * pagingParam pageSizeParam 10) =
      (pagingParam pageParam 1 - 1) * pagingParam pageSizeParam 10 :=
    wrap64_of_range (by omega) hoff
  haveI : IsTotal ContentDeal (fun a b => b.ID ≤ a.ID) := ⟨fun a b => le_total b.ID a.ID⟩
  haveI : IsTrans ContentDeal (fun a b => b.ID ≤ a.ID) :=
    ⟨fun a b c h1 h2 => le_trans h2 h1⟩
  have hperm := List.perm_insertionSort (fun a b : ContentDeal => b.ID ≤ a.ID)
    ((latestDealSubQuery node.DB.content_deals).flatMap
      (fun c2 => node.DB.content_deals.filter (fun c1 => c1.ID = c2.1)))
  have hsorted := List.sorted_insertionSort (fun a b : ContentDeal => b.ID ≤ a.ID)
    ((latestDealSubQuery node.DB.content_deals).flatMap
      (fun c2 => node.DB.content_deals.filter (fun c1 => c1.ID = c2.1)))
  have hmemL : ∀ d, d ∈ List.insertionSort (fun a b : ContentDeal => b.ID ≤ a.ID)
      ((latestDealSubQuery node.DB.content_deals).flatMap
        (fun c2 => node.DB.content_deals.filter (fun c1 => c1.ID = c2.1))) ↔
      d ∈ node.DB.content_deals ∧
        ∀ d2 ∈ node.DB.content_deals, d2.Content = d.Content → d2.ID ≤ d.ID :=
    fun d => (hperm.mem_iff).trans (hmem d)
  have hstrict : (List.insertionSort (fun a b : ContentDeal => b.ID ≤ a.ID)
      ((latestDealSubQuery node.DB.content_deals).flatMap
        (fun c2 => node.DB.content_deals.filter (fun c1 => c1.ID = c2.1)))).Pairwise
      (fun a b => b.ID < a.ID) := by
    have hnd := (hperm.nodup_iff).mpr hnodup
    refine List.Pairwise.imp_of_mem ?_ (List.Pairwise.and hsorted hnd)
    intro a b ha hb hab
    have hne : a.ID ≠ b.ID := fun e =>
      hab.2 (hinj a ((hmemL a).mp ha).1 b ((hmemL b).mp hb).1 e)
    have := hab.1
    omega
  have hcontent : (List.insertionSort (fun a b : ContentDeal => b.ID ≤ a.ID)
      ((latestDealSubQuery node.DB.content_deals).flatMap
        (fun c2 => node.DB.content_deals.filter (fun c1 => c1.ID = c2.1)))).Pairwise
      (fun a b => a.Content ≠ b.Content) := by
    refine List.Pairwise.imp_of_mem ?_ hstrict
    intro a b ha hb hlt hc
    have := ((hmemL b).mp hb).2 a ((hmemL a).mp ha).1 hc
    omega
  refine ⟨_, hmemL, hstrict, rfl, rfl, rfl, ?_, ?_, ?_, ?_, ?_, ?_, ?_, by decide⟩
  · simp only [handleOpenGetDealsWithPaging, hwrap]
  · have hlen : ((handleOpenGetDealsWithPaging node pageParam pageSizeParam).body.deals.length
        ≤ (pagingParam pageSizeParam 10).toNat) := by
      simp only [handleOpenGetDealsWithPaging]
      exact List.length_take_le _ _
    omega
  · simp only [handleOpenGetDealsWithPaging]
    exact List.Pairwise.sublist
      ((List.take_sublist _ _).trans (List.drop_sublist _ _)) hcontent
  · intro h
    simp only [pagingParam, h]
  · intro n h
    simp only [pagingParam, h]
  · intro h
    simp only [pagingParam, h]
  · intro n h
    simp only [pagingParam, h]

/-- C26, amended, witness: the theorem on the table of three deals, with the second page of size 1. -/
theorem paging_returns_slice_of_latest_deals_witness :
    (nodeWithThreeDeals.DB.content_deals.map ContentDeal.ID).Nodup ∧
    (pagingParam "2" 1 - 1) * pagingParam "1" 10 < 2 ^ 63 ∧
    (handleOpenGetDealsWithPaging nodeWithThreeDeals "2" "1").body.deals =
      [{ ID := 2, Content := 2, DealUUID := "uuid-2", DealID := 78, Miner := "f0123" }] ∧
    ∃ latest : List ContentDeal,
      latest.Pairwise (fun a b => b.ID < a.ID) ∧
      (handleOpenGetDealsWithPaging nodeWithThreeDeals "2" "1").body.deals =
        (latest.drop ((pagingParam "2" 1 - 1) * pagingParam "1" 10).toNat).take
          (pagingParam "1" 10).toNat :=
  ⟨by decide, by decide, by decide,
    (paging_returns_slice_of_latest_deals nodeWithThreeDeals "2" "1" (by decide)
      (by decide)).imp (fun _ h => ⟨h.2.1, h.2.2.2.2.2.1⟩)⟩

end Delta
